import Mathlib

/-!
# Gpredict polar view: projection, sky tracks and the tracked-object table

A shallow embedding of the tracking and projection code of
`src/gtk-polar-view.c` and `src/gtk-polar-plot.c`, with the properties of the
specification stated and proved over it.

Conventions of the embedding.

* `gdouble` and `gfloat` values are real numbers; infinities and NaN are not
  represented, and `sin`, `cos`, `sqrt`, `atan2` are the mathematical functions.
  In the projection and the track builders the coordinates are carried without
  rounding.  Where a rounding decides a comparison or a truncation, in the hit
  test `find_sat_at_pos` and in the countdowns of `los_time_to_str` and
  `gtk_polar_view_update`, every operation is rounded as the machine does it:
  `to_gfloat` and `to_gdouble` round to the nearest value of the format, ties
  to even, each operation being evaluated in the format of its operands.
  Every definition that touches such a value is not executable; concrete
  instances are evaluated by rewriting.
* `guint` values are natural numbers below `2 ^ 32`; an unsigned operation that
  can leave that range is reduced modulo `2 ^ 32` where the source performs it.
  `gint` values are integers.
* A pointer that may be `NULL` is an `Option`; a `GSList` is a `List`; a
  `GHashTable` keyed by catalogue number is an association list, whose order
  stands for the (unspecified) iteration order of the table.
* Functions of the program that live outside the two files (orbit prediction,
  time formatting, memory allocation) are fields of `Env`.
-/

noncomputable section

/-! ## Constants -/

/-- Number of time ticks (`TRACK_TICK_NUM`, gtk-polar-plot.h). -/
def TRACK_TICK_NUM : ℕ := 5

/-- The constant `M_PI` of the C library. -/
def M_PI : ℝ := Real.pi

/-- Modelled from the spec: `de2ra` is defined in sgpsdp/sgp4sdp4.h, which is not
among the sources; the spec has the projection convert degrees to radians, so
the factor is pi / 180. -/
def de2ra : ℝ := Real.pi / 180

/-- The C library function `atan2 y x` over the reals: the argument of the point
`(x, y)`, in the interval `(-pi, pi]`, and `0` at the origin. -/
def atan2 (y x : ℝ) : ℝ := Complex.arg ⟨x, y⟩

/-! ## Floating-point rounding -/

/-- The integer nearest to `y`; when `y` lies half-way between two integers, the
even one. -/
def round_half_even (y : ℝ) : ℤ :=
  let f : ℤ := ⌊y⌋
  if y - f < 1 / 2 then f
  else if y - f > 1 / 2 then f + 1
  else if f % 2 = 0 then f else f + 1

/-- Rounding of a real number to a binary floating-point format with `p` fraction
bits and least exponent `emin`: the nearest value of the format, ties to even
(the default rounding of IEEE 754).  The spacing of the format at `x` is
`2 ^ (e - p)`, where `e` is the exponent of `x`, not less than `emin`.  Overflow
to infinity is not represented. -/
def fp_round (p : ℕ) (emin : ℤ) (x : ℝ) : ℝ :=
  let e : ℤ := max (Int.log 2 |x|) emin
  let ulp : ℝ := (2 : ℝ) ^ (e - (p : ℤ))
  (round_half_even (x / ulp) : ℝ) * ulp

/-- The value of type `gfloat` (binary32) nearest to `x`: the result of a
`gfloat` operation whose exact result is `x`, and of the conversion of `x` to
`gfloat`. -/
def to_gfloat (x : ℝ) : ℝ := fp_round 23 (-126) x

/-- The value of type `gdouble` (binary64) nearest to `x`: the result of a
`gdouble` operation whose exact result is `x`. -/
def to_gdouble (x : ℝ) : ℝ := fp_round 52 (-1022) x

/-! ## Data model -/

/-- Modelled from the spec: one sample of a pass (`pass_detail_t` of
predict-tools.h): time stamp, azimuth and elevation in degrees. -/
structure pass_detail_t where
  time : ℝ := 0
  az : ℝ := 0
  el : ℝ := 0

/-- Modelled from the spec: the observer location record (`qth_t`). -/
structure qth_t where
  lat : ℝ := 0
  lon : ℝ := 0
  alt : ℝ := 0

/-- Modelled from the spec: the location a pass was computed for
(`qth_small_t`, the type of `pass->qth_comp`). -/
structure qth_small_t where
  lat : ℝ := 0
  lon : ℝ := 0
  alt : ℝ := 0

/-- Modelled from the spec: a satellite pass (`pass_t` of predict-tools.h), with
the fields the two widgets read. -/
structure pass_t where
  aos : ℝ := 0
  los : ℝ := 0
  aos_az : ℝ := 0
  los_az : ℝ := 0
  details : List pass_detail_t := []
  qth_comp : qth_small_t := {}

/-- Modelled from the spec: the satellite snapshot (`sat_t` of sgp4sdp4.h), with
the fields the view reads; `catnr` is `sat->tle.catnr`. -/
structure sat_t where
  catnr : Int := 0
  nickname : String := ""
  az : ℝ := 0
  el : ℝ := 0
  aos : ℝ := 0
  los : ℝ := 0

/-- Graph orientation of the polar plot (`polar_plot_swap_t`, gtk-polar-plot.h). -/
inductive polar_plot_swap_t where
  | POLAR_PLOT_NESW
  | POLAR_PLOT_NWSE
  | POLAR_PLOT_SENW
  | POLAR_PLOT_SWNE
  deriving DecidableEq, Repr

/-- Modelled from the spec: graph orientation of the polar view
(`polar_view_swap_t` of gtk-polar-view.h, not among the sources): the four
variants Normal, MirrorLongitude, MirrorLatitude, Rotate180 under the names the
code uses. -/
inductive polar_view_swap_t where
  | POLAR_VIEW_NESW
  | POLAR_VIEW_NWSE
  | POLAR_VIEW_SENW
  | POLAR_VIEW_SWNE
  deriving DecidableEq, Repr

/-- Time tick of a sky track (`polar_plot_tick_t`, gtk-polar-plot.h; the polar
view uses the same record): position and the text buffer. -/
structure polar_view_tick_t where
  x : ℝ := 0
  y : ℝ := 0
  text : String := ""

/-- The fields of a `GdkEventButton` the handlers read: the button number and the
pointer position. -/
structure GdkEventButton where
  button : ℕ := 1
  x : ℝ := 0
  y : ℝ := 0

/-- Modelled from the spec: the tracked object of the polar view (`sat_obj_t` of
gtk-polar-view.h, not among the sources), with the fields gtk-polar-view.c
reads and writes.  `track_points` is the list of `(x, y)` points, `trtick` the
array of `TRACK_TICK_NUM` time ticks. -/
structure sat_obj_t where
  selected : Bool := false
  showtrack : Bool := false
  istarget : Bool := false
  x : ℝ := 0
  y : ℝ := 0
  catnum : Int := 0
  nickname : String := ""
  tooltip : String := ""
  track_points : List (ℝ × ℝ) := []
  pass : Option pass_t := none
  trtick : List polar_view_tick_t := List.replicate TRACK_TICK_NUM {}

/-- Modelled from the spec: the state of a polar view widget (`GtkPolarView` of
gtk-polar-view.h, not among the sources), without the drawing attributes.  The
geometry fields `cx`, `cy`, `r`, `size` and the counters are `guint`, as in the
twin declaration of `GtkPolarPlot` in gtk-polar-plot.h.  `realized`,
`allocation_width` and `allocation_height` are the state of the underlying
widget that `gtk_widget_get_realized` and `gtk_widget_get_allocation` return. -/
structure GtkPolarView where
  naos : ℝ := 0
  ncat : Int := 0
  tstamp : ℝ := 0
  sats : List (Int × sat_t) := []
  qth : qth_t := {}
  obj : List (Int × sat_obj_t) := []
  showtracks_on : List Int := []
  showtracks_off : List Int := []
  cx : ℕ := 0
  cy : ℕ := 0
  r : ℕ := 0
  size : ℕ := 0
  refresh : ℕ := 0
  counter : ℕ := 0
  swap : polar_view_swap_t := polar_view_swap_t.POLAR_VIEW_NESW
  showtrack : Bool := false
  eventinfo : Bool := false
  cursinfo : Bool := false
  resize : Bool := false
  realized : Bool := true
  curs_text : Option String := none
  next_text : Option String := none
  sel_text : Option String := none
  allocation_width : Int := 0
  allocation_height : Int := 0

/-- State of a polar plot widget (`struct _GtkPolarPlot`, gtk-polar-plot.h),
without the drawing attributes.  `track_points` holds the `track_count` points
of the array of coordinates. -/
structure GtkPolarPlot where
  curs_text : Option String := none
  pass : Option pass_t := none
  track_points : List (ℝ × ℝ) := []
  track_count : Int := 0
  trtick : List polar_view_tick_t := List.replicate TRACK_TICK_NUM {}
  target_az : ℝ := 0
  target_el : ℝ := 0
  ctrl_az : ℝ := 0
  ctrl_el : ℝ := 0
  rotor_az : ℝ := 0
  rotor_el : ℝ := 0
  qth : qth_t := {}
  cx : ℕ := 0
  cy : ℕ := 0
  r : ℕ := 0
  size : ℕ := 0
  swap : polar_plot_swap_t := polar_plot_swap_t.POLAR_PLOT_NESW
  qthinfo : Bool := false
  cursinfo : Bool := false
  extratick : Bool := false

/-! ## Projection (gtk-polar-view.c) -/

namespace polar_view

/-- Convert Az/El to canvas based XY coordinates (`azel_to_xy`,
gtk-polar-view.c:209).  `p->r` is a `guint`, so the product `2 * p->r` is formed
in unsigned 32-bit arithmetic before it is converted to `gdouble`. -/
def azel_to_xy (p : GtkPolarView) (az el : ℝ) : ℝ × ℝ :=
  if el < 0 then (0, 0)
  else
    let az := de2ra * az
    let el := de2ra * el
    let rel : ℝ := (p.r : ℝ) - (((2 * p.r % 2 ^ 32 : ℕ) : ℝ) * el) / M_PI
    let az : ℝ :=
      match p.swap with
      | polar_view_swap_t.POLAR_VIEW_NWSE => 2 * M_PI - az
      | polar_view_swap_t.POLAR_VIEW_SENW => M_PI - az
      | polar_view_swap_t.POLAR_VIEW_SWNE => M_PI + az
      | polar_view_swap_t.POLAR_VIEW_NESW => az
    ((p.cx : ℝ) + rel * Real.sin az, (p.cy : ℝ) - rel * Real.cos az)

/-- Convert canvas based coordinates to Az/El (`xy_to_azel`,
gtk-polar-view.c:255); the result is the pair `(az, el)`. -/
def xy_to_azel (p : GtkPolarView) (x y : ℝ) : ℝ × ℝ :=
  let rel : ℝ := (p.r : ℝ) - Real.sqrt ((x - p.cx) * (x - p.cx) + (y - p.cy) * (y - p.cy))
  let el : ℝ := 90 * rel / (p.r : ℝ)
  let az : ℝ :=
    if x ≥ (p.cx : ℝ) then atan2 (x - p.cx) (p.cy - y) / de2ra
    else 360 + atan2 (x - p.cx) (p.cy - y) / de2ra
  let az : ℝ :=
    match p.swap with
    | polar_view_swap_t.POLAR_VIEW_NWSE => 360 - az
    | polar_view_swap_t.POLAR_VIEW_SENW => if az ≤ 180 then 180 - az else 540 - az
    | polar_view_swap_t.POLAR_VIEW_SWNE => if az ≥ 180 then az - 180 else 180 + az
    | polar_view_swap_t.POLAR_VIEW_NESW => az
  (az, el)

end polar_view

/-! ## Projection (gtk-polar-plot.c) -/

namespace polar_plot

/-- Convert Az/El to canvas based XY coordinates (`azel_to_xy`,
gtk-polar-plot.c:163), the same text as in gtk-polar-view.c. -/
def azel_to_xy (p : GtkPolarPlot) (az el : ℝ) : ℝ × ℝ :=
  if el < 0 then (0, 0)
  else
    let az := de2ra * az
    let el := de2ra * el
    let rel : ℝ := (p.r : ℝ) - (((2 * p.r % 2 ^ 32 : ℕ) : ℝ) * el) / M_PI
    let az : ℝ :=
      match p.swap with
      | polar_plot_swap_t.POLAR_PLOT_NWSE => 2 * M_PI - az
      | polar_plot_swap_t.POLAR_PLOT_SENW => M_PI - az
      | polar_plot_swap_t.POLAR_PLOT_SWNE => M_PI + az
      | polar_plot_swap_t.POLAR_PLOT_NESW => az
    ((p.cx : ℝ) + rel * Real.sin az, (p.cy : ℝ) - rel * Real.cos az)

end polar_plot

/-! ## Collaborators outside the two files -/

/-- The functions gtk-polar-view.c calls that are defined elsewhere in the
program (orbit-tools, predict-tools, time-tools, GLib); they are parameters of
the model. -/
structure Env where
  /-- The test `decayed(sat)` of orbit-tools. -/
  decayed : sat_t → Bool
  /-- The ground distance `qth_small_dist(qth, qth_small)`. -/
  qth_small_dist : qth_t → qth_small_t → ℝ
  /-- The pass prediction `get_current_pass(sat, qth, start)`; `none` is `NULL`. -/
  get_current_pass : sat_t → qth_t → ℝ → Option pass_t
  /-- The text `daynum_to_str(buf, 6, "%H:%M", t)` leaves in `buf`. -/
  daynum_to_str : ℝ → String
  /-- The tooltip `g_markup_printf_escaped` builds from the nickname, the azimuth,
  the elevation and the final text of the format. -/
  markup_tooltip : String → ℝ → ℝ → String → String
  /-- Whether `g_try_new0(sat_obj_t, 1)` succeeds for the given catalogue number. -/
  g_try_new0 : Int → Bool

/-! ## Hash tables keyed by catalogue number -/

/-- The value stored under `key`, `none` when the key is absent
(`g_hash_table_lookup`). -/
def g_hash_table_lookup {α : Type} (t : List (Int × α)) (key : Int) : Option α :=
  List.lookup key t

/-- The table without the entry of `key` (`g_hash_table_remove`). -/
def g_hash_table_remove {α : Type} (t : List (Int × α)) (key : Int) : List (Int × α) :=
  t.filter (fun e => e.1 != key)

/-- The table with `value` stored under `key`: the value of an existing key is
replaced, a new key is added (`g_hash_table_insert`). -/
def g_hash_table_insert {α : Type} (t : List (Int × α)) (key : Int) (value : α) :
    List (Int × α) :=
  if (List.lookup key t).isSome then t.map (fun e => if e.1 == key then (key, value) else e)
  else t ++ [(key, value)]

/-- Membership of `key` in a table used as a set (`g_hash_table_lookup_extended`
on `showtracks_on` and `showtracks_off`). -/
def g_hash_table_lookup_extended (t : List Int) (key : Int) : Bool :=
  t.contains key

/-- The table after the object stored under `key` has been modified through the
pointer the lookup returned: the entry holds the new contents, in place. -/
def obj_write (t : List (Int × sat_obj_t)) (key : Int) (obj : sat_obj_t) :
    List (Int × sat_obj_t) :=
  t.map (fun e => if e.1 == key then (e.1, obj) else e)

/-! ## Tracks and the refresh of one satellite (gtk-polar-view.c) -/

namespace polar_view

/-- The conversion `(guint) v` of a `gdouble`: the integer part, for a value in
the range of `guint`. -/
def double_to_guint (v : ℝ) : ℕ := Int.toNat ⌊v⌋ % 2 ^ 32

/-- The text `printf` writes for `%02d`. -/
def fmt_02d (n : ℕ) : String :=
  if n < 10 then "0" ++ toString n else toString n

/-- Convert LOS timestamp to human readable countdown string (`los_time_to_str`,
gtk-polar-view.c:890).  The difference and the product are `gdouble`
operations; the product is then truncated by `(guint)`. -/
def los_time_to_str (polv : GtkPolarView) (sat : sat_t) : String :=
  let now : ℝ := polv.tstamp
  let number : ℝ := to_gdouble (sat.los - now)
  let s : ℕ := double_to_guint (to_gdouble (number * 86400))
  let h : ℕ := s / 3600
  let s : ℕ := s - 3600 * h
  let m : ℕ := s / 60
  let s : ℕ := s - 60 * m
  if h > 0 then "LOS in " ++ fmt_02d h ++ ":" ++ fmt_02d m ++ ":" ++ fmt_02d s
  else "LOS in " ++ fmt_02d m ++ ":" ++ fmt_02d s

/-- The variables of the loop of `gtk_polar_view_create_track`: the last
projected point `(x, y)`, the tick index `ttidx`, the points appended so far,
and the stores into `obj->trtick` made so far, in program order, each with its
index. -/
structure track_loop_t where
  x : ℝ
  y : ℝ
  ttidx : ℕ
  track_points : List (ℝ × ℝ)
  stores : List (ℕ × polar_view_tick_t)

/-- One iteration of the loop `for (i = 1; i < num - 1; i++)` of
`gtk_polar_view_create_track` (gtk-polar-view.c:1222-1249).  `detail` is
`g_slist_nth_data (details, i)`; the loop keeps `i` below `num - 1`, so the
sample exists. -/
def create_track_step (env : Env) (pv : GtkPolarView) (pass : pass_t) (tres : ℕ)
    (s : track_loop_t) (i : ℕ) : track_loop_t :=
  match pass.details.get? i with
  | none => s
  | some detail =>
    let xy : ℝ × ℝ := if detail.el ≥ 0 then azel_to_xy pv detail.az detail.el else (s.x, s.y)
    let s1 : track_loop_t :=
      { s with x := xy.1, y := xy.2, track_points := s.track_points ++ [xy] }
    if tres ≠ 0 ∧ i % tres = 0 then
      let stores : List (ℕ × polar_view_tick_t) :=
        if s1.ttidx < TRACK_TICK_NUM then
          let tx : ℝ := if xy.1 > (pv.cx : ℝ) then xy.1 - 5 else xy.1 + 5
          s1.stores ++ [(s1.ttidx, { x := tx, y := xy.2, text := env.daynum_to_str detail.time })]
        else s1.stores
      { s1 with stores := stores, ttidx := s1.ttidx + 1 }
    else s1

/-- The array `trtick` after the given stores, applied in order. -/
def store_ticks (trtick : List polar_view_tick_t) (stores : List (ℕ × polar_view_tick_t)) :
    List polar_view_tick_t :=
  stores.foldl (fun a st => a.set st.1 st.2) trtick

/-- The time resolution `tres` of the time ticks (gtk-polar-view.c:1206). -/
def track_tres (num : ℕ) : ℕ :=
  if num > 2 then (num - 2) / (TRACK_TICK_NUM - 1) else 1

/-- The loop variables of `gtk_polar_view_create_track` after the loop, for a
pass with at least one sample: the first point and the first time tick, then
the iterations `i = 1, ..., num - 2`. -/
def create_track_loop (env : Env) (pv : GtkPolarView) (pass : pass_t) : track_loop_t :=
  let num : ℕ := pass.details.length
  let tres : ℕ := track_tres num
  let xy : ℝ × ℝ := azel_to_xy pv pass.aos_az 0
  let s0 : track_loop_t :=
    { x := xy.1, y := xy.2, ttidx := 1, track_points := [xy],
      stores := [(0, { x := xy.1, y := xy.2, text := env.daynum_to_str pass.aos })] }
  (List.range' 1 (num - 2)).foldl (create_track_step env pv pass tres) s0

/-- Build the sky track of an object (`gtk_polar_view_create_track`,
gtk-polar-view.c:1171).  The object is the one `obj` points to (the callers pass
a valid pointer, so the test `obj == NULL` fails); the result is its new
contents.  Without a pass the object is left as it is; otherwise the old track
is cleared before the samples are counted.  `sat` is not used. -/
def gtk_polar_view_create_track (env : Env) (pv : GtkPolarView) (obj : sat_obj_t)
    (_sat : sat_t) : sat_obj_t :=
  match obj.pass with
  | none => obj
  | some pass =>
    let obj : sat_obj_t := { obj with track_points := [] }
    let num : ℕ := pass.details.length
    if num = 0 then obj
    else
      let s : track_loop_t := create_track_loop env pv pass
      let xy : ℝ × ℝ := azel_to_xy pv pass.los_az 0
      { obj with track_points := s.track_points ++ [xy],
                 trtick := store_ticks obj.trtick s.stores }

/-- The test `qth_upd || time_upd` of `update_sat` (gtk-polar-view.c:1095-1098):
whether the cached pass of an object has to be computed again. -/
def pass_needs_update (env : Env) (polv : GtkPolarView) (pass : pass_t) (now : ℝ) : Bool :=
  let qth_upd : Bool := decide (env.qth_small_dist polv.qth pass.qth_comp > 1)
  let time_upd : Bool := !(decide (pass.aos ≤ now) && decide (pass.los ≥ now))
  qth_upd || time_upd

/-- The value `update_sat` gives to `showtrack` in a new object
(gtk-polar-view.c:1136-1141). -/
def initial_showtrack (polv : GtkPolarView) (catnum : Int) : Bool :=
  if g_hash_table_lookup_extended polv.showtracks_on catnum = true then true
  else if g_hash_table_lookup_extended polv.showtracks_off catnum = true then false
  else polv.showtrack

/-- The block `update next AOS` at the head of `update_sat`
(gtk-polar-view.c:1025-1033): the view keeps the earliest AOS after `tstamp`
seen so far, and the catalogue number of its satellite. -/
def update_next_aos (sat : sat_t) (polv : GtkPolarView) : GtkPolarView :=
  let now : ℝ := polv.tstamp
  if sat.aos > now then
    if sat.aos < polv.naos ∨ polv.naos = 0 then
      { polv with naos := sat.aos, ncat := sat.catnr }
    else polv
  else polv

/-- Refresh of one satellite (`update_sat`, gtk-polar-view.c:1003), the callback
of `g_hash_table_foreach` over the satellites; the key is not used.  The first
block of the function is `update_next_aos`, the choice of `showtrack` for a new
object is `initial_showtrack`. -/
def update_sat (env : Env) (sat : sat_t) (polv : GtkPolarView) : GtkPolarView :=
  let catnum : Int := sat.catnr
  let now : ℝ := polv.tstamp
  let polv : GtkPolarView := update_next_aos sat polv
  if sat.el < 0 ∨ env.decayed sat = true then
    match g_hash_table_lookup polv.obj catnum with
    | some obj =>
      let polv : GtkPolarView := if obj.selected then { polv with sel_text := none } else polv
      { polv with obj := g_hash_table_remove polv.obj catnum }
    | none => polv
  else
    let xy : ℝ × ℝ := azel_to_xy polv sat.az sat.el
    match g_hash_table_lookup polv.obj catnum with
    | some obj =>
      let obj : sat_obj_t := { obj with x := xy.1, y := xy.2, nickname := sat.nickname }
      let losstr : String :=
        if sat.los > 0 then los_time_to_str polv sat else sat.nickname ++ "\nAlways in range"
      let obj : sat_obj_t :=
        { obj with tooltip := env.markup_tooltip sat.nickname sat.az sat.el losstr }
      let polv : GtkPolarView :=
        if obj.selected then { polv with sel_text := some (sat.nickname ++ "\n" ++ losstr) }
        else polv
      let obj : sat_obj_t :=
        match obj.pass with
        | some pass =>
          if pass_needs_update env polv pass now = true then
            let obj : sat_obj_t := { obj with track_points := [], pass := none }
            let obj : sat_obj_t := { obj with pass := env.get_current_pass sat polv.qth now }
            if obj.showtrack = true ∧ obj.pass.isSome = true then
              gtk_polar_view_create_track env polv obj sat
            else obj
          else obj
        | none => obj
      { polv with obj := obj_write polv.obj catnum obj }
    | none =>
      if env.g_try_new0 catnum = true then
        let obj : sat_obj_t :=
          { selected := false, x := xy.1, y := xy.2, catnum := sat.catnr,
            nickname := sat.nickname, track_points := [],
            showtrack := initial_showtrack polv catnum,
            istarget := false,
            tooltip := env.markup_tooltip sat.nickname sat.az sat.el "",
            pass := env.get_current_pass sat polv.qth now }
        let polv : GtkPolarView := { polv with obj := g_hash_table_insert polv.obj catnum obj }
        if obj.showtrack = true then
          { polv with obj := obj_write polv.obj catnum (gtk_polar_view_create_track env polv obj sat) }
        else polv
      else polv

/-- Margin between the plot circle and the edge of the widget
(`POLV_DEFAULT_MARGIN`, gtk-polar-view.c:42). -/
def POLV_DEFAULT_MARGIN : ℕ := 25

/-- The conversion of an `int` to `guint`. -/
def int_to_guint (i : Int) : ℕ := (i % 2 ^ 32).toNat

/-- Hit test (`find_sat_at_pos`, gtk-polar-view.c:599).  The argument `obj` is
`polv->obj`, the only field of the view the function reads, `none` when it is
`NULL`; the result is the entry of the table whose object is returned, the first
one in iteration order that passes the test.  The parameters `mx`, `my` are
`gfloat`: the pointer position the caller passes is converted on entry.  The
marker position is read from the `gfloat` fields `x`, `y` of the object, and
the differences, the squares, their sum and the square of `hit_radius` are
`gfloat` operations. -/
def find_sat_at_pos (obj : Option (List (Int × sat_obj_t))) (mx my : ℝ) :
    Option (Int × sat_obj_t) :=
  let mx : ℝ := to_gfloat mx
  let my : ℝ := to_gfloat my
  let hit_radius : ℝ := to_gfloat 10
  match obj with
  | none => none
  | some t =>
    t.find? (fun e =>
      let dx : ℝ := to_gfloat (mx - to_gfloat e.2.x)
      let dy : ℝ := to_gfloat (my - to_gfloat e.2.y)
      decide (to_gfloat (to_gfloat (dx * dx) + to_gfloat (dy * dy)) <
        to_gfloat (hit_radius * hit_radius)))

/-- The callback `clear_selection` of `g_hash_table_foreach`
(gtk-polar-view.c:673): `old` is the key of the entry, `new` the catalogue
number passed as user data; the result is the new contents of the object. -/
def clear_selection (old : Int) (obj : sat_obj_t) (new : Int) : sat_obj_t :=
  if old ≠ new ∧ obj.selected = true then { obj with selected := false } else obj

/-- The call `g_hash_table_foreach (polv->obj, clear_selection, catpoint)`. -/
def foreach_clear_selection (t : List (Int × sat_obj_t)) (catpoint : Int) :
    List (Int × sat_obj_t) :=
  t.map (fun e => (e.1, clear_selection e.1 e.2 catpoint))

/-- The handler of a button release on the canvas (`on_button_release`,
gtk-polar-view.c:685); the result is the new state of the view (the `gboolean`
the handler returns to GTK is not part of it). -/
def on_button_release (polv : GtkPolarView) (event : GdkEventButton) : GtkPolarView :=
  if event.button ≠ 1 then polv
  else
    match find_sat_at_pos (some polv.obj) event.x event.y with
    | none => polv
    | some (key, obj) =>
      let obj : sat_obj_t := { obj with selected := !obj.selected }
      let polv : GtkPolarView := { polv with obj := obj_write polv.obj key obj }
      let catpoint : Int := obj.catnum
      if obj.selected = false then
        let polv : GtkPolarView := { polv with sel_text := none }
        let catpoint : Int := 0
        { polv with obj := foreach_clear_selection polv.obj catpoint }
      else
        { polv with obj := foreach_clear_selection polv.obj catpoint }

/-- Select the satellite of the given catalogue number
(`gtk_polar_view_select_sat`, gtk-polar-view.c:1281). -/
def gtk_polar_view_select_sat (polv : GtkPolarView) (catnum : Int) : GtkPolarView :=
  let polv : GtkPolarView :=
    match g_hash_table_lookup polv.obj catnum with
    | none => polv
    | some obj => { polv with obj := obj_write polv.obj catnum { obj with selected := true } }
  { polv with obj := foreach_clear_selection polv.obj catnum }

/-- The call `g_hash_table_foreach (polv->sats, update_sat, polv)`. -/
def foreach_update_sat (env : Env) (polv : GtkPolarView) : GtkPolarView :=
  polv.sats.foldl (fun p e => update_sat env e.2 p) polv

/-- Handle a new size allocation (`update_polv_size`, gtk-polar-view.c:871): the
geometry is computed from the allocation of the widget in `guint` arithmetic,
then every satellite is updated. -/
def update_polv_size (env : Env) (polv : GtkPolarView) : GtkPolarView :=
  if polv.realized = true then
    let size : ℕ := int_to_guint (min polv.allocation_width polv.allocation_height)
    let polv : GtkPolarView :=
      { polv with
        size := size
        r := (size / 2 + (2 ^ 32 - POLV_DEFAULT_MARGIN)) % 2 ^ 32
        cx := int_to_guint (Int.tdiv polv.allocation_width 2)
        cy := int_to_guint (Int.tdiv polv.allocation_height 2) }
    foreach_update_sat env polv
  else polv

/-- The first block of `gtk_polar_view_update` (gtk-polar-view.c:927-931): a
pending resize is handled. -/
def update_resize_block (env : Env) (polv : GtkPolarView) : GtkPolarView :=
  if polv.resize = true then { update_polv_size env polv with resize := false } else polv

/-- The text of the countdown to the next AOS that `gtk_polar_view_update` stores
in `next_text` (gtk-polar-view.c:949-997).  The difference and the product are
`gdouble` operations; the product is then truncated by `(guint)`. -/
def next_event_text (polv : GtkPolarView) : Option String :=
  if polv.eventinfo = true then
    if polv.ncat > 0 then
      match g_hash_table_lookup polv.sats polv.ncat with
      | some sat =>
        let now : ℝ := polv.tstamp
        let number : ℝ := to_gdouble (polv.naos - now)
        let s : ℕ := double_to_guint (to_gdouble (number * 86400))
        let h : ℕ := s / 3600
        let s : ℕ := s - 3600 * h
        let m : ℕ := s / 60
        let s : ℕ := s - 60 * m
        if h > 0 then
          some ("Next: " ++ sat.nickname ++ "\nin " ++ fmt_02d h ++ ":" ++ fmt_02d m ++ ":" ++
            fmt_02d s)
        else some ("Next: " ++ sat.nickname ++ "\nin " ++ fmt_02d m ++ ":" ++ fmt_02d s)
      | none => some "Next: ERR"
    else some "Next: N/A"
  else none

/-- The real refresh of `gtk_polar_view_update` (the `else` branch,
gtk-polar-view.c:939-999): the counter and the next event are reset, every
satellite is updated, the text of the next event is rebuilt. -/
def update_refresh_block (env : Env) (polv : GtkPolarView) : GtkPolarView :=
  let polv : GtkPolarView := { polv with counter := 1, naos := 0, ncat := 0 }
  let polv : GtkPolarView := foreach_update_sat env polv
  { polv with next_text := next_event_text polv }

/-- The periodic update of the view (`gtk_polar_view_update`,
gtk-polar-view.c:918): a pending resize is handled (`update_resize_block`), then
the cycle counter decides between a plain increment and a real refresh
(`update_refresh_block`). -/
def gtk_polar_view_update (env : Env) (polv : GtkPolarView) : GtkPolarView :=
  let polv : GtkPolarView := update_resize_block env polv
  if polv.counter < polv.refresh then { polv with counter := polv.counter + 1 }
  else update_refresh_block env polv

/-- Modelled from the spec: the poles of the plot (`polar_view_pole_t` of
gtk-polar-view.h, not among the sources): North, East, South and West, under the
names `correct_pole_coor` switches on. -/
inductive polar_view_pole_t where
  | POLAR_VIEW_POLE_N
  | POLAR_VIEW_POLE_E
  | POLAR_VIEW_POLE_S
  | POLAR_VIEW_POLE_W
  deriving DecidableEq, Repr

/-- Length by which the axes extend beyond the horizon circle (`POLV_LINE_EXTRA`,
gtk-polar-view.c:46). -/
def POLV_LINE_EXTRA : ℝ := 5

/-- Transform pole coordinates (`correct_pole_coor`, gtk-polar-view.c:307).  The
result is the new `(x, y)` and the flags `(anchor_south, anchor_east)`. -/
def correct_pole_coor (polv : GtkPolarView) (pole : polar_view_pole_t) (x y : ℝ) :
    (ℝ × ℝ) × (Bool × Bool) :=
  match pole with
  | polar_view_pole_t.POLAR_VIEW_POLE_N =>
    if polv.swap = polar_view_swap_t.POLAR_VIEW_SENW ∨
        polv.swap = polar_view_swap_t.POLAR_VIEW_SWNE then
      ((x, y + POLV_LINE_EXTRA), (false, false))
    else ((x, y - POLV_LINE_EXTRA), (true, false))
  | polar_view_pole_t.POLAR_VIEW_POLE_E =>
    if polv.swap = polar_view_swap_t.POLAR_VIEW_NWSE ∨
        polv.swap = polar_view_swap_t.POLAR_VIEW_SWNE then
      ((x - POLV_LINE_EXTRA, y), (false, true))
    else ((x + POLV_LINE_EXTRA, y), (false, false))
  | polar_view_pole_t.POLAR_VIEW_POLE_S =>
    if polv.swap = polar_view_swap_t.POLAR_VIEW_SENW ∨
        polv.swap = polar_view_swap_t.POLAR_VIEW_SWNE then
      ((x, y - POLV_LINE_EXTRA), (true, false))
    else ((x, y + POLV_LINE_EXTRA), (false, false))
  | polar_view_pole_t.POLAR_VIEW_POLE_W =>
    if polv.swap = polar_view_swap_t.POLAR_VIEW_NWSE ∨
        polv.swap = polar_view_swap_t.POLAR_VIEW_SWNE then
      ((x + POLV_LINE_EXTRA, y), (false, false))
    else ((x - POLV_LINE_EXTRA, y), (false, true))

/-- The azimuth at which `on_draw` projects a pole before it corrects the point
(gtk-polar-view.c:428-455): 0, 90, 180 and 270 degrees. -/
def pole_az (pole : polar_view_pole_t) : ℝ :=
  match pole with
  | polar_view_pole_t.POLAR_VIEW_POLE_N => 0
  | polar_view_pole_t.POLAR_VIEW_POLE_E => 90
  | polar_view_pole_t.POLAR_VIEW_POLE_S => 180
  | polar_view_pole_t.POLAR_VIEW_POLE_W => 270

/-- The point at which `on_draw` anchors the label of a pole
(gtk-polar-view.c:428-455): `azel_to_xy` at the azimuth of the pole and
elevation 0, then `correct_pole_coor`. -/
def pole_label_point (polv : GtkPolarView) (pole : polar_view_pole_t) : ℝ × ℝ :=
  let xy : ℝ × ℝ := azel_to_xy polv (pole_az pole) 0
  (correct_pole_coor polv pole xy.1 xy.2).1

/-- Table invariant of `polv->obj`: a catalogue number is the key of at most one
entry, and every object is stored under its own catalogue number. -/
def table_ok (t : List (Int × sat_obj_t)) : Prop :=
  (t.map Prod.fst).Nodup ∧ ∀ e ∈ t, e.2.catnum = e.1

/-- At most one tracked object has `selected = true`. -/
def single_selection (t : List (Int × sat_obj_t)) : Prop :=
  t.countP (fun e => e.2.selected) ≤ 1

end polar_view

/-! ## Markers of the polar plot (gtk-polar-plot.c) -/

namespace polar_plot

/-- The three position markers `on_draw` can draw. -/
inductive marker_t where
  | target
  | ctrl
  | rotor
  deriving DecidableEq, Repr

/-- The markers the last part of `on_draw` draws (gtk-polar-plot.c:592-635), in
drawing order, each with the canvas position it is drawn at: the target (a
filled square), the controller (a circle) and the rotor (a cross hair). -/
def on_draw_markers (polv : GtkPolarPlot) : List (marker_t × (ℝ × ℝ)) :=
  (if polv.target_az ≥ 0 ∧ polv.target_el ≥ 0 then
      [(marker_t.target, azel_to_xy polv polv.target_az polv.target_el)] else []) ++
  (if polv.ctrl_az ≥ 0 ∧ polv.ctrl_el ≥ 0 then
      [(marker_t.ctrl, azel_to_xy polv polv.ctrl_az polv.ctrl_el)] else []) ++
  (if polv.rotor_az ≥ 0 ∧ polv.rotor_el ≥ 0 then
      [(marker_t.rotor, azel_to_xy polv polv.rotor_az polv.rotor_el)] else [])

/-- Set target object position (`gtk_polar_plot_set_target_pos`,
gtk-polar-plot.c:812), on a plot that is not `NULL`. -/
def gtk_polar_plot_set_target_pos (plot : GtkPolarPlot) (az el : ℝ) : GtkPolarPlot :=
  { plot with target_az := az, target_el := el }

/-- Set controller object position (`gtk_polar_plot_set_ctrl_pos`,
gtk-polar-plot.c:832), on a plot that is not `NULL`. -/
def gtk_polar_plot_set_ctrl_pos (plot : GtkPolarPlot) (az el : ℝ) : GtkPolarPlot :=
  { plot with ctrl_az := az, ctrl_el := el }

/-- Set rotator object position (`gtk_polar_plot_set_rotor_pos`,
gtk-polar-plot.c:852), on a plot that is not `NULL`. -/
def gtk_polar_plot_set_rotor_pos (plot : GtkPolarPlot) (az el : ℝ) : GtkPolarPlot :=
  { plot with rotor_az := az, rotor_el := el }

/-- Margin between the plot circle and the edge of the widget
(`POLV_DEFAULT_MARGIN`, gtk-polar-plot.c:56). -/
def POLV_DEFAULT_MARGIN : ℕ := 20

/-- Convert canvas based coordinates to Az/El (`xy_to_azel`,
gtk-polar-plot.c:207); the result is the pair `(az, el)`. -/
def xy_to_azel (p : GtkPolarPlot) (x y : ℝ) : ℝ × ℝ :=
  let rel : ℝ := (p.r : ℝ) - Real.sqrt ((x - p.cx) * (x - p.cx) + (y - p.cy) * (y - p.cy))
  let el : ℝ := 90 * rel / (p.r : ℝ)
  let az : ℝ :=
    if x ≥ (p.cx : ℝ) then atan2 (x - p.cx) (p.cy - y) / de2ra
    else 360 + atan2 (x - p.cx) (p.cy - y) / de2ra
  let az : ℝ :=
    match p.swap with
    | polar_plot_swap_t.POLAR_PLOT_NWSE => 360 - az
    | polar_plot_swap_t.POLAR_PLOT_SENW => if az ≤ 180 then 180 - az else 540 - az
    | polar_plot_swap_t.POLAR_PLOT_SWNE => if az ≥ 180 then az - 180 else 180 + az
    | polar_plot_swap_t.POLAR_PLOT_NESW => az
  (az, el)

/-- The variables of the loops of `create_track` and `update_track`: the current
point `(x, y)`, the tick index `ttidx`, the array of track points and the array
of time ticks. -/
structure plot_loop_t where
  x : ℝ
  y : ℝ
  ttidx : ℕ
  track_points : List (ℝ × ℝ)
  trtick : List polar_view_tick_t

/-- One iteration of the loop `for (i = 1; i < num - 1; i++)` of `create_track`
(gtk-polar-plot.c:285-304).  The result is `none` when the iteration has no
defined result: the remainder `i % tres` is evaluated with `tres = 0`. -/
def create_track_step (env : Env) (pv : GtkPolarPlot) (pass : pass_t) (tres : ℕ)
    (s : plot_loop_t) (i : ℕ) : Option plot_loop_t :=
  match pass.details.get? i with
  | none => none
  | some detail =>
    let xy : ℝ × ℝ := if detail.el ≥ 0 then azel_to_xy pv detail.az detail.el else (s.x, s.y)
    let s1 : plot_loop_t := { s with x := xy.1, y := xy.2, track_points := s.track_points.set i xy }
    if tres = 0 then none
    else if i % tres = 0 then
      let trtick : List polar_view_tick_t :=
        if s1.ttidx < TRACK_TICK_NUM then
          s1.trtick.set s1.ttidx { x := s1.x, y := s1.y, text := env.daynum_to_str detail.time }
        else s1.trtick
      some { s1 with trtick := trtick, ttidx := s1.ttidx + 1 }
    else some s1

/-- Build the sky track of the pass of the plot (`create_track`,
gtk-polar-plot.c:255); the callers test `pv->pass` before the call.  The array
of points is allocated for `num` points and every cell is written before the
function returns; for a pass without samples the array is empty and the first
store goes through a `NULL` pointer.  The result is `none` when the run has no
defined result. -/
def create_track (env : Env) (pv : GtkPolarPlot) : Option GtkPolarPlot :=
  match pv.pass with
  | none => none
  | some pass =>
    let num : ℕ := pass.details.length
    if num = 0 then none
    else
      let tres : ℕ := ((num + (2 ^ 32 - 2)) % 2 ^ 32) / (TRACK_TICK_NUM - 1)
      let xy : ℝ × ℝ := azel_to_xy pv pass.aos_az 0
      let s0 : plot_loop_t :=
        { x := xy.1, y := xy.2, ttidx := 1,
          track_points := (List.replicate num ((0 : ℝ), (0 : ℝ))).set 0 xy,
          trtick := pv.trtick.set 0 { x := xy.1, y := xy.2, text := env.daynum_to_str pass.aos } }
      match (List.range' 1 (num - 2)).foldlM (create_track_step env pv pass tres) s0 with
      | none => none
      | some s =>
        let xy : ℝ × ℝ := azel_to_xy pv pass.los_az 0
        some { pv with track_points := s.track_points.set (num - 1) xy,
                       track_count := (num : Int), trtick := s.trtick }

/-- One iteration of the loop of `update_track` (gtk-polar-plot.c:415-439): the
variable `x` itself is moved by 5 before the tick is stored, and the text of the
tick is not written. -/
def update_track_step (pv : GtkPolarPlot) (pass : pass_t) (tres : ℕ)
    (s : plot_loop_t) (i : ℕ) : Option plot_loop_t :=
  match pass.details.get? i with
  | none => none
  | some detail =>
    let xy : ℝ × ℝ := if detail.el ≥ 0 then azel_to_xy pv detail.az detail.el else (s.x, s.y)
    let s1 : plot_loop_t := { s with x := xy.1, y := xy.2, track_points := s.track_points.set i xy }
    if tres = 0 then none
    else if i % tres = 0 then
      let x : ℝ := if s1.x > (pv.cx : ℝ) then s1.x - 5 else s1.x + 5
      let s2 : plot_loop_t := { s1 with x := x }
      let trtick : List polar_view_tick_t :=
        if s2.ttidx < TRACK_TICK_NUM then
          s2.trtick.set s2.ttidx { s2.trtick.getD s2.ttidx {} with x := s2.x, y := s2.y }
        else s2.trtick
      some { s2 with trtick := trtick, ttidx := s2.ttidx + 1 }
    else some s1

/-- Update sky track drawing after size allocate (`update_track`,
gtk-polar-plot.c:385).  Without a pass the plot is left as it is; the result is
`none` when the run has no defined result, as for `create_track`. -/
def update_track (pv : GtkPolarPlot) : Option GtkPolarPlot :=
  match pv.pass with
  | none => some pv
  | some pass =>
    let num : ℕ := pass.details.length
    if num = 0 then none
    else
      let xy : ℝ × ℝ := azel_to_xy pv pass.aos_az 0
      let s0 : plot_loop_t :=
        { x := xy.1, y := xy.2, ttidx := 1,
          track_points := (List.replicate num ((0 : ℝ), (0 : ℝ))).set 0 xy,
          trtick := pv.trtick.set 0 { pv.trtick.getD 0 {} with x := xy.1, y := xy.2 } }
      let tres : ℕ := ((num + (2 ^ 32 - 2)) % 2 ^ 32) / (TRACK_TICK_NUM - 1)
      match (List.range' 1 (num - 2)).foldlM (update_track_step pv pass tres) s0 with
      | none => none
      | some s =>
        let xy : ℝ × ℝ := azel_to_xy pv pass.los_az 0
        some { pv with track_points := s.track_points.set (num - 1) xy,
                       track_count := (num : Int), trtick := s.trtick }

/-- Manage new size allocation (`size_allocate_cb`, gtk-polar-plot.c:674).
`realized` is what `gtk_widget_get_realized` returns, `width` and `height` are
the fields of the allocation; the geometry is computed in `guint` arithmetic. -/
def size_allocate_cb (realized : Bool) (width height : Int) (polv : GtkPolarPlot) :
    Option GtkPolarPlot :=
  if realized = true then
    let size : ℕ := polar_view.int_to_guint (min width height)
    let polv : GtkPolarPlot :=
      { polv with
        size := size
        r := (size / 2 + (2 ^ 32 - POLV_DEFAULT_MARGIN)) % 2 ^ 32
        cx := polar_view.int_to_guint (Int.tdiv width 2)
        cy := polar_view.int_to_guint (Int.tdiv height 2) }
    if polv.pass.isSome = true then update_track polv else some polv
  else some polv

end polar_plot

/-! ## The reference projection of the specification -/

/-- The orientation fold of the specification (section 4.1), on an azimuth in
degrees: Normal unchanged; MirrorLongitude `360 - az`; MirrorLatitude `180 - az`,
or `540 - az` when `az > 180`; Rotate180 `az - 180` when `az >= 180`, else
`180 + az`. -/
def spec_fold (swap : polar_view_swap_t) (az : ℝ) : ℝ :=
  match swap with
  | polar_view_swap_t.POLAR_VIEW_NESW => az
  | polar_view_swap_t.POLAR_VIEW_NWSE => 360 - az
  | polar_view_swap_t.POLAR_VIEW_SENW => if az > 180 then 540 - az else 180 - az
  | polar_view_swap_t.POLAR_VIEW_SWNE => if az ≥ 180 then az - 180 else 180 + az

/-- The forward projection `toView` of the specification (section 4.1) for an
elevation that is not negative: radial distance `r = R - (2 R el) / pi` with the
elevation in radians, the orientation fold applied to the azimuth, then
`x = cx + r sin az`, `y = cy - r cos az`. -/
def spec_toView (p : GtkPolarView) (az el : ℝ) : ℝ × ℝ :=
  let el_rad : ℝ := de2ra * el
  let r : ℝ := (p.r : ℝ) - (2 * (p.r : ℝ) * el_rad) / Real.pi
  let az_rad : ℝ := de2ra * spec_fold p.swap az
  ((p.cx : ℝ) + r * Real.sin az_rad, (p.cy : ℝ) - r * Real.cos az_rad)

/-! ## The scenario of the specification -/

/-- The pass of the end-to-end scenario: rise at t = 100 with azimuth 10, set
with azimuth 350, 20 samples whose elevation goes from 0 up to 45 and back. -/
def scenario_pass : pass_t :=
  { aos := 100, los := 195, aos_az := 10, los_az := 350,
    details := (List.range 20).map (fun (k : ℕ) =>
      { time := 100 + 5 * (k : ℝ), az := 10 + 340 * (k : ℝ) / 19,
        el := if k ≤ 9 then 5 * (k : ℝ) else 5 * (19 - (k : ℝ)) }) }

/-- The collaborators of the scenario: no satellite is decayed, the distance
between two locations is the difference of their latitudes, every pass query
returns the pass of the scenario, every allocation succeeds. -/
def scenario_env : Env :=
  { decayed := fun _ => false
    qth_small_dist := fun q c => |q.lat - c.lat|
    get_current_pass := fun _ _ _ => some scenario_pass
    daynum_to_str := fun _ => "00:00"
    markup_tooltip := fun n _ _ t => n ++ t
    g_try_new0 := fun _ => true }

/-- The view of the scenario: normal orientation, radius 100, centre (150, 150). -/
def scenario_view : GtkPolarView :=
  { cx := 150, cy := 150, r := 100 }

/-- The view of the scenario in the orientation NWSE. -/
def nwse_view : GtkPolarView :=
  { scenario_view with swap := polar_view_swap_t.POLAR_VIEW_NWSE }

/-- The view whose allocation is 1 x 1: `update_polv_size` stores `size = 1`,
`cx = cy = 0` and `r = size / 2 - 25`, which is `2 ^ 32 - 25` in `guint`. -/
def wrapped_view : GtkPolarView :=
  { cx := 0, cy := 0, r := 4294967271, size := 1 }

/-- The satellite of the scenario, catalogue number 7, above the horizon. -/
def scenario_sat : sat_t :=
  { catnr := 7, nickname := "SAT", az := 10, el := 0, aos := 100, los := 195 }

/-- A tracked object of the scenario satellite with the pass of the scenario. -/
def scenario_obj : sat_obj_t :=
  { catnum := 7, nickname := "SAT", pass := some scenario_pass }

/-- A pass with a single sample. -/
def single_sample_pass : pass_t :=
  { aos := 100, los := 101, aos_az := 10, los_az := 350,
    details := [{ time := 100, az := 10, el := 0 }] }

/-- A pass with five samples. -/
def five_sample_pass : pass_t :=
  { aos := 100, los := 104, aos_az := 10, los_az := 350,
    details := [{ time := 100, az := 10, el := 0 }, { time := 101, az := 90, el := 30 },
                { time := 102, az := 180, el := 45 }, { time := 103, az := 270, el := 30 },
                { time := 104, az := 350, el := 0 }] }

/-- A cached pass with the window `[10, 20]`, computed for the location of
latitude 0. -/
def cached_pass : pass_t :=
  { aos := 10, los := 20 }

/-- A tracked object of the scenario satellite holding `cached_pass`. -/
def cached_obj : sat_obj_t :=
  { catnum := 7, nickname := "SAT", pass := some cached_pass }

/-- The view of the scenario at time `now`, with the observer at latitude `lat`
and `cached_obj` as its only tracked object. -/
def cached_view (now lat : ℝ) : GtkPolarView :=
  { scenario_view with tstamp := now, qth := { lat := lat }, obj := [(7, cached_obj)] }

/-- The satellite of the scenario once it is below the horizon. -/
def set_sat : sat_t :=
  { scenario_sat with el := -5 }

/-- A view at the time -1 whose catalogue holds two satellites below the horizon,
the first with its next AOS at time 0, the second at time 5; every call of
`gtk_polar_view_update` is a real refresh. -/
def early_view : GtkPolarView :=
  { tstamp := -1, counter := 1, refresh := 1,
    sats := [(1, { catnr := 1, aos := 0, el := -1 }), (2, { catnr := 2, aos := 5, el := -1 })] }

/-- A view at the time 50 whose catalogue holds the satellite of the scenario
(next AOS at 100) and a second satellite with its next AOS at 60; every call of
`gtk_polar_view_update` is a real refresh. -/
def catalogue_view : GtkPolarView :=
  { scenario_view with
    tstamp := 50, counter := 1, refresh := 1,
    sats := [(7, scenario_sat), (8, { catnr := 8, aos := 60, el := -1 })] }

/-- The view of the scenario with refresh rate 2, the cycle counter at 1, an empty
catalogue and a pending resize to the allocation 400 x 400. -/
def resize_pending_view : GtkPolarView :=
  { scenario_view with
    counter := 1, refresh := 2, resize := true, realized := true,
    allocation_width := 400, allocation_height := 400 }

/-- The view of the scenario with refresh rate 2 and the cycle counter at 1, as
`gtk_polar_view_new` leaves it. -/
def cadence_view : GtkPolarView :=
  { scenario_view with counter := 1, refresh := 2 }

/-- The view of the scenario with three tracked objects, of which the one of
catalogue number 9 is selected. -/
def three_obj_view : GtkPolarView :=
  { scenario_view with
    obj := [(7, { catnum := 7, x := 100, y := 100 }), (8, { catnum := 8, x := 200, y := 100 }),
            (9, { catnum := 9, x := 200, y := 200, selected := true })] }

/-- A pass with the window `[10, 20]` that rises due north and sets due south,
computed for the location of latitude 0; it has two samples. -/
def north_south_pass : pass_t :=
  { aos := 10, los := 20, aos_az := 0, los_az := 180,
    details := [{ time := 10, az := 0, el := 0 }, { time := 20, az := 180, el := 0 }] }

/-- The view as `update_polv_size` leaves it for the allocation 300 x 300: size
300, radius 125, centre (150, 150); the time is 15. -/
def small_view : GtkPolarView :=
  { size := 300, r := 125, cx := 150, cy := 150, tstamp := 15, realized := true,
    allocation_width := 300, allocation_height := 300 }

/-- The view `small_view` once the widget has been given the allocation
400 x 400, before the resize is handled.  Its catalogue holds the satellite of
the scenario; the tracked object of that satellite shows the track that
`gtk_polar_view_create_track` built for `north_south_pass` under the geometry of
`small_view`. -/
def enlarged_view : GtkPolarView :=
  { small_view with
    allocation_width := 400, allocation_height := 400,
    sats := [(7, scenario_sat)],
    obj := [(7, polar_view.gtk_polar_view_create_track scenario_env small_view
      { catnum := 7, nickname := "SAT", showtrack := true, pass := some north_south_pass }
      scenario_sat)] }

/-- The view `cached_view now 0` with the satellite of the scenario in its
catalogue, realized, with the allocation 400 x 400. -/
def resized_cached_view (now : ℝ) : GtkPolarView :=
  { cached_view now 0 with
    realized := true, allocation_width := 400, allocation_height := 400,
    sats := [(7, scenario_sat)] }

/-- A pass with four samples whose third sample (index 2) has a negative
elevation. -/
def dip_pass : pass_t :=
  { aos := 100, los := 103, aos_az := 10, los_az := 350,
    details := [{ time := 100, az := 10, el := 0 }, { time := 101, az := 90, el := 30 },
                { time := 102, az := 180, el := -1 }, { time := 103, az := 350, el := 0 }] }

/-- A pass with six samples that rises due north and sets due south; its second
sample (index 1) is due east at elevation 45. -/
def east_pass : pass_t :=
  { aos := 100, los := 105, aos_az := 0, los_az := 180,
    details := [{ time := 100, az := 0, el := 0 }, { time := 101, az := 90, el := 45 },
                { time := 102, az := 120, el := 60 }, { time := 103, az := 150, el := 45 },
                { time := 104, az := 170, el := 20 }, { time := 105, az := 180, el := 0 }] }

/-- The `gdouble` nearest to 1 / 24, one hour in days: it is less than 1 / 24 by
2 ^ -57 / 3. -/
def hour_in_days : ℝ := 6004799503160661 / 2 ^ 57

/-- A satellite below the horizon whose next AOS is `hour_in_days` after
time 0. -/
def rising_sat : sat_t :=
  { catnr := 7, nickname := "SAT", el := -1, aos := hour_in_days }

/-- A view at time 0 that shows the next event; its catalogue holds `rising_sat`
and every call of `gtk_polar_view_update` is a real refresh. -/
def countdown_view : GtkPolarView :=
  { scenario_view with
    tstamp := 0, eventinfo := true, counter := 1, refresh := 1,
    sats := [(7, rising_sat)] }

/-- A satellite whose LOS is `hour_in_days` after time 0. -/
def countdown_sat : sat_t :=
  { scenario_sat with los := hour_in_days }

/-- The view of the scenario at time 150 whose only tracked object, that of the
satellite of the scenario, has no cached pass. -/
def passless_view : GtkPolarView :=
  { scenario_view with tstamp := 150, obj := [(7, { catnum := 7, nickname := "SAT" })] }

/-- A polar plot with the geometry of the scenario in the orientation NWSE. -/
def nwse_plot : GtkPolarPlot :=
  { cx := 150, cy := 150, r := 100, swap := polar_plot_swap_t.POLAR_PLOT_NWSE }

/-- A pass with three samples. -/
def three_sample_pass : pass_t :=
  { aos := 100, los := 102, aos_az := 0, los_az := 180,
    details := [{ time := 100, az := 0, el := 0 }, { time := 101, az := 90, el := 45 },
                { time := 102, az := 180, el := 0 }] }

/-- A polar plot with the geometry of the scenario that shows the pass with three
samples. -/
def three_sample_plot : GtkPolarPlot :=
  { cx := 150, cy := 150, r := 100, pass := some three_sample_pass }

/-- A polar plot with the geometry of the scenario that shows the pass with six
samples. -/
def east_plot : GtkPolarPlot :=
  { cx := 150, cy := 150, r := 100, pass := some east_pass }

/-- A realized view with an empty catalogue whose widget has the allocation
30 x 30. -/
def tiny_view : GtkPolarView :=
  { realized := true, allocation_width := 30, allocation_height := 30 }

/-- An object that shows a track of two points and whose pass has no sample. -/
def empty_pass_obj : sat_obj_t :=
  { catnum := 7, nickname := "SAT", showtrack := true, track_points := [(1, 2), (3, 4)],
    pass := some { aos := 100, los := 195, aos_az := 10, los_az := 350, details := [] } }

end

/-! ## Theorems -/

open polar_view

/-! ### Projection and its inverse -/

theorem de2ra_pos : 0 < de2ra := by
  unfold de2ra
  positivity

theorem atan2_polar (rel t : ℝ) (hrel : 0 < rel) (h1 : -Real.pi < t) (h2 : t ≤ Real.pi) :
    atan2 (rel * Real.sin t) (rel * Real.cos t) = t := by
  unfold atan2
  have h : (⟨rel * Real.cos t, rel * Real.sin t⟩ : ℂ) =
      (rel : ℂ) * (Complex.cos t + Complex.sin t * Complex.I) := by
    apply Complex.ext
    · simp [← Complex.ofReal_cos, ← Complex.ofReal_sin]
    · simp [← Complex.ofReal_cos, ← Complex.ofReal_sin]
  rw [h]
  exact Complex.arg_mul_cos_add_sin_mul_I hrel ⟨h1, h2⟩

theorem bearing_polar (rel t : ℝ) (hrel : 0 < rel) (h1 : 0 ≤ t) (h2 : t < 2 * Real.pi) :
    (if rel * Real.sin t ≥ 0 then atan2 (rel * Real.sin t) (rel * Real.cos t) / de2ra
      else 360 + atan2 (rel * Real.sin t) (rel * Real.cos t) / de2ra) = t / de2ra := by
  have hpi := Real.pi_pos
  by_cases ht : t ≤ Real.pi
  · have hs : 0 ≤ Real.sin t := Real.sin_nonneg_of_nonneg_of_le_pi h1 ht
    rw [if_pos (by positivity), atan2_polar rel t hrel (by linarith) ht]
  · push_neg at ht
    have hs : Real.sin t < 0 := by
      have := Real.sin_neg_of_neg_of_neg_pi_lt (x := t - 2 * Real.pi) (by linarith) (by linarith)
      rwa [Real.sin_sub_two_pi] at this
    have hneg : ¬ (rel * Real.sin t ≥ 0) := by
      rw [not_le]
      exact mul_neg_of_pos_of_neg hrel hs
    rw [if_neg hneg]
    have h3 := atan2_polar rel (t - 2 * Real.pi) hrel (by linarith) (by linarith)
    rw [Real.sin_sub_two_pi, Real.cos_sub_two_pi] at h3
    rw [h3]
    unfold de2ra
    field_simp
    ring

theorem xy_to_azel_polar (p : GtkPolarView) (rel t : ℝ) (hrel : 0 < rel) (h1 : 0 ≤ t)
    (h2 : t < 2 * Real.pi) :
    xy_to_azel p ((p.cx : ℝ) + rel * Real.sin t) ((p.cy : ℝ) - rel * Real.cos t) =
      ((match p.swap with
        | polar_view_swap_t.POLAR_VIEW_NWSE => 360 - t / de2ra
        | polar_view_swap_t.POLAR_VIEW_SENW =>
          if t / de2ra ≤ 180 then 180 - t / de2ra else 540 - t / de2ra
        | polar_view_swap_t.POLAR_VIEW_SWNE =>
          if t / de2ra ≥ 180 then t / de2ra - 180 else 180 + t / de2ra
        | polar_view_swap_t.POLAR_VIEW_NESW => t / de2ra),
       90 * ((p.r : ℝ) - rel) / (p.r : ℝ)) := by
  have e1 : (p.cx : ℝ) + rel * Real.sin t - p.cx = rel * Real.sin t := by ring
  have e2 : (p.cy : ℝ) - ((p.cy : ℝ) - rel * Real.cos t) = rel * Real.cos t := by ring
  have e3 : Real.sqrt ((rel * Real.sin t) * (rel * Real.sin t) +
      ((p.cy : ℝ) - rel * Real.cos t - p.cy) * ((p.cy : ℝ) - rel * Real.cos t - p.cy)) = rel := by
    have : (rel * Real.sin t) * (rel * Real.sin t) +
        ((p.cy : ℝ) - rel * Real.cos t - p.cy) * ((p.cy : ℝ) - rel * Real.cos t - p.cy) =
        rel ^ 2 * (Real.sin t ^ 2 + Real.cos t ^ 2) := by ring
    rw [this, Real.sin_sq_add_cos_sq, mul_one, Real.sqrt_sq hrel.le]
  have e4 : ((p.cx : ℝ) + rel * Real.sin t ≥ (p.cx : ℝ)) ↔ rel * Real.sin t ≥ 0 := by
    constructor <;> intro h <;> linarith
  have hb := bearing_polar rel t hrel h1 h2
  unfold xy_to_azel
  simp only [e1, e2, e3, e4, hb]

theorem azel_to_xy_radius (p : GtkPolarView) (el : ℝ) (hr : 0 < p.r) (hr2 : 2 * p.r < 2 ^ 32)
    (hel : el < 90) :
    0 < (p.r : ℝ) - (((2 * p.r % 2 ^ 32 : ℕ) : ℝ) * (de2ra * el)) / M_PI ∧
      90 * ((p.r : ℝ) - ((p.r : ℝ) - (((2 * p.r % 2 ^ 32 : ℕ) : ℝ) * (de2ra * el)) / M_PI)) /
        (p.r : ℝ) = el := by
  have hpi := Real.pi_pos
  have hrr : (0 : ℝ) < p.r := by exact_mod_cast hr
  rw [Nat.mod_eq_of_lt hr2]
  have e : (((2 * p.r : ℕ) : ℝ) * (de2ra * el)) / M_PI = (p.r : ℝ) * el / 90 := by
    unfold de2ra M_PI
    push_cast
    field_simp
    ring
  rw [e]
  constructor
  · have : (p.r : ℝ) * el / 90 < p.r := by
      rw [div_lt_iff₀ (by norm_num)]
      nlinarith
    linarith
  · field_simp

theorem azel_to_xy_north (p : GtkPolarView) (az el : ℝ) (hel : 0 ≤ el)
    (hs : Real.sin (match p.swap with
        | polar_view_swap_t.POLAR_VIEW_NWSE => 2 * M_PI - de2ra * az
        | polar_view_swap_t.POLAR_VIEW_SENW => M_PI - de2ra * az
        | polar_view_swap_t.POLAR_VIEW_SWNE => M_PI + de2ra * az
        | polar_view_swap_t.POLAR_VIEW_NESW => de2ra * az) = Real.sin 0)
    (hc : Real.cos (match p.swap with
        | polar_view_swap_t.POLAR_VIEW_NWSE => 2 * M_PI - de2ra * az
        | polar_view_swap_t.POLAR_VIEW_SENW => M_PI - de2ra * az
        | polar_view_swap_t.POLAR_VIEW_SWNE => M_PI + de2ra * az
        | polar_view_swap_t.POLAR_VIEW_NESW => de2ra * az) = Real.cos 0) :
    azel_to_xy p az el =
      ((p.cx : ℝ) +
          ((p.r : ℝ) - (((2 * p.r % 2 ^ 32 : ℕ) : ℝ) * (de2ra * el)) / M_PI) * Real.sin 0,
        (p.cy : ℝ) -
          ((p.r : ℝ) - (((2 * p.r % 2 ^ 32 : ℕ) : ℝ) * (de2ra * el)) / M_PI) * Real.cos 0) := by
  unfold azel_to_xy
  rw [if_neg (not_lt.mpr hel)]
  dsimp only
  rw [hs, hc]

/-- C1, the claim as stated fails, in real arithmetic, at three inputs with
radius R > 0 and 0 <= el < 90: the azimuth 360 comes back as 0 (normal
orientation); the azimuth 0 comes back as 360 in the orientation NWSE; and for
the radius 2 ^ 32 - 25 the elevation 45 does not come back, the unsigned product
`2 * p->r` having wrapped. -/
theorem projection_round_trip_fails :
    xy_to_azel scenario_view (azel_to_xy scenario_view 360 0).1
        (azel_to_xy scenario_view 360 0).2 = (0, 0) ∧
      xy_to_azel nwse_view (azel_to_xy nwse_view 0 0).1 (azel_to_xy nwse_view 0 0).2 =
        (360, 0) ∧
      (xy_to_azel wrapped_view (azel_to_xy wrapped_view 0 45).1
        (azel_to_xy wrapped_view 0 45).2).2 ≠ 45 := by
  have hpi := Real.pi_pos
  have e360 : de2ra * 360 = 2 * Real.pi := by unfold de2ra; ring
  refine ⟨?_, ?_, ?_⟩
  · rw [azel_to_xy_north scenario_view 360 0 le_rfl
      (by show Real.sin (de2ra * 360) = Real.sin 0; rw [e360, Real.sin_two_pi, Real.sin_zero])
      (by show Real.cos (de2ra * 360) = Real.cos 0; rw [e360, Real.cos_two_pi, Real.cos_zero])]
    dsimp only
    rw [xy_to_azel_polar scenario_view _ 0 (by norm_num [scenario_view]) le_rfl (by positivity)]
    norm_num [scenario_view]
  · rw [azel_to_xy_north nwse_view 0 0 le_rfl
      (by show Real.sin (2 * M_PI - de2ra * 0) = Real.sin 0
          rw [mul_zero, sub_zero, M_PI, Real.sin_two_pi, Real.sin_zero])
      (by show Real.cos (2 * M_PI - de2ra * 0) = Real.cos 0
          rw [mul_zero, sub_zero, M_PI, Real.cos_two_pi, Real.cos_zero])]
    dsimp only
    rw [xy_to_azel_polar nwse_view _ 0 (by norm_num [nwse_view, scenario_view]) le_rfl
      (by positivity)]
    norm_num [nwse_view, scenario_view]
  · have hrel : (wrapped_view.r : ℝ) -
        (((2 * wrapped_view.r % 2 ^ 32 : ℕ) : ℝ) * (de2ra * 45)) / M_PI = 3221225459.5 := by
      have h1 : 2 * wrapped_view.r % 2 ^ 32 = 4294967246 := by decide
      have h2 : wrapped_view.r = 4294967271 := rfl
      rw [h1, h2]
      unfold de2ra M_PI
      push_cast
      field_simp
      ring
    rw [azel_to_xy_north wrapped_view 0 45 (by norm_num)
      (by show Real.sin (de2ra * 0) = Real.sin 0; rw [mul_zero])
      (by show Real.cos (de2ra * 0) = Real.cos 0; rw [mul_zero])]
    dsimp only
    rw [hrel, xy_to_azel_polar wrapped_view _ 0 (by norm_num) le_rfl (by positivity)]
    norm_num [wrapped_view]

/-- C1, amended. Projection round trip: for each of the four orientations, every
view with radius 0 < R < 2 ^ 31, every elevation 0 <= el < 90 and every azimuth
0 <= az < 360 (az > 0 in the orientation NWSE), `xy_to_azel` applied to the
point `azel_to_xy (az, el)` returns exactly `(az, el)`, in real arithmetic. -/
theorem projection_round_trip (p : GtkPolarView) (az el : ℝ) (hr : 0 < p.r)
    (hr31 : p.r < 2 ^ 31) (hel0 : 0 ≤ el) (hel : el < 90) (haz0 : 0 ≤ az) (haz : az < 360)
    (hnw : p.swap = polar_view_swap_t.POLAR_VIEW_NWSE → az ≠ 0) :
    xy_to_azel p (azel_to_xy p az el).1 (azel_to_xy p az el).2 = (az, el) := by
  have hr2 : 2 * p.r < 2 ^ 32 := by omega
  have hpi := Real.pi_pos
  have hd := de2ra_pos
  obtain ⟨hrel, hel2⟩ := azel_to_xy_radius p el hr hr2 hel
  have ha0 : 0 ≤ de2ra * az := by positivity
  have ha1 : de2ra * az < 2 * Real.pi := by
    have : de2ra * az < de2ra * 360 := mul_lt_mul_of_pos_left haz hd
    have e : de2ra * 360 = 2 * Real.pi := by unfold de2ra; ring
    linarith
  have haz2 : de2ra * az / de2ra = az := by field_simp
  unfold azel_to_xy
  rw [if_neg (not_lt.mpr hel0)]
  dsimp only
  generalize (p.r : ℝ) - (((2 * p.r % 2 ^ 32 : ℕ) : ℝ) * (de2ra * el)) / M_PI = rel
    at hrel hel2 ⊢
  have q1 : (2 * Real.pi - de2ra * az) / de2ra = 360 - az := by
    unfold de2ra
    field_simp
    ring
  have q2 : (Real.pi - de2ra * az) / de2ra = 180 - az := by
    unfold de2ra
    field_simp
    ring
  have q3 : (3 * Real.pi - de2ra * az) / de2ra = 540 - az := by
    unfold de2ra
    field_simp
    ring
  have q4 : (Real.pi + de2ra * az) / de2ra = 180 + az := by
    unfold de2ra
    field_simp
    ring
  have q5 : (de2ra * az - Real.pi) / de2ra = az - 180 := by
    unfold de2ra
    field_simp
    ring
  have hpi180 : de2ra * 180 = Real.pi := by
    unfold de2ra
    ring
  unfold M_PI
  cases hsw : p.swap
  · -- POLAR_VIEW_NESW
    dsimp only
    rw [xy_to_azel_polar p rel (de2ra * az) hrel ha0 ha1, hsw]
    dsimp only
    rw [haz2, hel2]
  · -- POLAR_VIEW_NWSE
    dsimp only
    have hpos : 0 < az := lt_of_le_of_ne haz0 (Ne.symm (hnw hsw))
    have hapos : 0 < de2ra * az := by positivity
    rw [xy_to_azel_polar p rel (2 * Real.pi - de2ra * az) hrel (by linarith) (by linarith), hsw]
    dsimp only
    rw [q1, hel2]
    congr 1
    ring
  · -- POLAR_VIEW_SENW
    dsimp only
    by_cases ha : de2ra * az ≤ Real.pi
    · have haz180 : az ≤ 180 := by
        rw [← hpi180] at ha
        exact le_of_mul_le_mul_left ha hd
      rw [xy_to_azel_polar p rel (Real.pi - de2ra * az) hrel (by linarith) (by linarith), hsw]
      dsimp only
      rw [q2, hel2, if_pos (by linarith)]
      congr 1
      ring
    · push_neg at ha
      have haz180 : 180 < az := by
        rw [← hpi180] at ha
        exact lt_of_mul_lt_mul_left ha hd.le
      have hs : Real.sin (Real.pi - de2ra * az) = Real.sin (3 * Real.pi - de2ra * az) := by
        rw [show Real.pi - de2ra * az = (3 * Real.pi - de2ra * az) - 2 * Real.pi by ring,
          Real.sin_sub_two_pi]
      have hc : Real.cos (Real.pi - de2ra * az) = Real.cos (3 * Real.pi - de2ra * az) := by
        rw [show Real.pi - de2ra * az = (3 * Real.pi - de2ra * az) - 2 * Real.pi by ring,
          Real.cos_sub_two_pi]
      rw [hs, hc,
        xy_to_azel_polar p rel (3 * Real.pi - de2ra * az) hrel (by linarith) (by linarith), hsw]
      dsimp only
      rw [q3, hel2, if_neg (by linarith)]
      congr 1
      ring
  · -- POLAR_VIEW_SWNE
    dsimp only
    by_cases ha : de2ra * az < Real.pi
    · have haz180 : az < 180 := by
        rw [← hpi180] at ha
        exact lt_of_mul_lt_mul_left ha hd.le
      rw [xy_to_azel_polar p rel (Real.pi + de2ra * az) hrel (by linarith) (by linarith), hsw]
      dsimp only
      rw [q4, hel2, if_pos (by linarith)]
      congr 1
      ring
    · push_neg at ha
      have haz180 : 180 ≤ az := by
        rw [← hpi180] at ha
        exact le_of_mul_le_mul_left ha hd
      have hs : Real.sin (Real.pi + de2ra * az) = Real.sin (de2ra * az - Real.pi) := by
        rw [show Real.pi + de2ra * az = (de2ra * az - Real.pi) + 2 * Real.pi by ring,
          Real.sin_add_two_pi]
      have hc : Real.cos (Real.pi + de2ra * az) = Real.cos (de2ra * az - Real.pi) := by
        rw [show Real.pi + de2ra * az = (de2ra * az - Real.pi) + 2 * Real.pi by ring,
          Real.cos_add_two_pi]
      rw [hs, hc,
        xy_to_azel_polar p rel (de2ra * az - Real.pi) hrel (by linarith) (by linarith), hsw]
      dsimp only
      rw [q5, hel2, if_neg (by linarith)]
      congr 1
      ring

/-- Witness of the amended C1 in the orientation NWSE at azimuth 90, elevation 45,
radius 100, centre (150, 150). -/
theorem projection_round_trip_witness :
    xy_to_azel nwse_view (azel_to_xy nwse_view 90 45).1 (azel_to_xy nwse_view 90 45).2 =
      (90, 45) :=
  projection_round_trip nwse_view 90 45 (by decide) (by decide) (by norm_num) (by norm_num)
    (by norm_num) (by norm_num) (fun _ => by norm_num)

theorem azel_to_xy_refines_spec (p : GtkPolarView) (az el : ℝ) (hr2 : 2 * p.r < 2 ^ 32)
    (hel : 0 ≤ el) :
    azel_to_xy p az el = spec_toView p az el := by
  have e180 : de2ra * 180 = Real.pi := by unfold de2ra; ring
  unfold azel_to_xy spec_toView spec_fold
  rw [if_neg (not_lt.mpr hel), Nat.mod_eq_of_lt hr2]
  unfold M_PI
  push_cast
  cases p.swap
  · rfl
  · dsimp only
    rw [show de2ra * (360 - az) = 2 * Real.pi - de2ra * az by rw [mul_sub, ← e180]; ring]
  · dsimp only
    by_cases h : az > 180
    · rw [if_pos h,
        show de2ra * (540 - az) = (Real.pi - de2ra * az) + 2 * Real.pi by
          rw [mul_sub, ← e180]; ring,
        Real.sin_add_two_pi, Real.cos_add_two_pi]
    · rw [if_neg h, show de2ra * (180 - az) = Real.pi - de2ra * az by rw [mul_sub, e180]]
  · dsimp only
    by_cases h : az ≥ 180
    · rw [if_pos h,
        show de2ra * (az - 180) = (Real.pi + de2ra * az) - 2 * Real.pi by
          rw [mul_sub, e180]; ring,
        Real.sin_sub_two_pi, Real.cos_sub_two_pi]
    · rw [if_neg h, show de2ra * (180 + az) = Real.pi + de2ra * az by rw [mul_add, e180]]

/-- C2, the code at the failing input: for the radius 2 ^ 32 - 25, azimuth 0 and
elevation 45, `azel_to_xy` returns y = -3221225459.5 where the reference
projection of the specification has y = -2147483635.5, because the product
`2 * p->r` is computed in `guint` and wraps.  The function of the same text in
gtk-polar-plot.c, whose `guint` fields are declared in gtk-polar-plot.h, returns
the same value. -/
theorem azel_to_xy_wrapped_radius :
    (azel_to_xy wrapped_view 0 45).2 = -3221225459.5 ∧
      (spec_toView wrapped_view 0 45).2 = -2147483635.5 ∧
      azel_to_xy wrapped_view 0 45 ≠ spec_toView wrapped_view 0 45 ∧
      (polar_plot.azel_to_xy { r := 4294967271 } 0 45).2 = -3221225459.5 := by
  have hpi := Real.pi_pos
  have h1 : 2 * wrapped_view.r % 2 ^ 32 = 4294967246 := by decide
  have hc : (azel_to_xy wrapped_view 0 45).2 = -3221225459.5 := by
    unfold azel_to_xy
    rw [if_neg (by norm_num), h1]
    have h2 : wrapped_view.r = 4294967271 := rfl
    have h3 : wrapped_view.cy = 0 := rfl
    have h4 : wrapped_view.swap = polar_view_swap_t.POLAR_VIEW_NESW := rfl
    rw [h2, h3, h4]
    dsimp only
    rw [mul_zero, Real.cos_zero]
    unfold de2ra M_PI
    push_cast
    field_simp
    ring
  have hsp : (spec_toView wrapped_view 0 45).2 = -2147483635.5 := by
    unfold spec_toView spec_fold
    have h2 : wrapped_view.r = 4294967271 := rfl
    have h3 : wrapped_view.cy = 0 := rfl
    have h4 : wrapped_view.swap = polar_view_swap_t.POLAR_VIEW_NESW := rfl
    rw [h2, h3, h4]
    dsimp only
    rw [mul_zero, Real.cos_zero]
    unfold de2ra
    push_cast
    field_simp
    ring
  have hpl : (polar_plot.azel_to_xy { r := 4294967271 } 0 45).2 = -3221225459.5 := by
    unfold polar_plot.azel_to_xy
    rw [if_neg (by norm_num)]
    dsimp only
    rw [show 2 * 4294967271 % 2 ^ 32 = 4294967246 by decide, mul_zero, Real.cos_zero]
    unfold de2ra M_PI
    push_cast
    field_simp
    ring
  refine ⟨hc, hsp, ?_, hpl⟩
  intro h
  rw [h, hsp] at hc
  norm_num at hc

/-- C3. Below-horizon sentinel: for a negative elevation `azel_to_xy` returns
exactly `(0, 0)`, in the polar view and in the polar plot, whatever the azimuth,
the centre, the radius and the orientation. -/
theorem azel_to_xy_below_horizon (p : GtkPolarView) (q : GtkPolarPlot) (az el : ℝ)
    (h : el < 0) :
    polar_view.azel_to_xy p az el = (0, 0) ∧ polar_plot.azel_to_xy q az el = (0, 0) := by
  constructor
  · simp [polar_view.azel_to_xy, h]
  · simp [polar_plot.azel_to_xy, h]

/-- Witness of C3 at azimuth 123, elevation -1, radius 100, centre (150, 150). -/
theorem azel_to_xy_below_horizon_witness :
    polar_view.azel_to_xy { cx := 150, cy := 150, r := 100 } 123 (-1) = (0, 0) ∧
      polar_plot.azel_to_xy { cx := 150, cy := 150, r := 100 } 123 (-1) = (0, 0) :=
  azel_to_xy_below_horizon { cx := 150, cy := 150, r := 100 } { cx := 150, cy := 150, r := 100 }
    123 (-1) (by norm_num)

/-! ### The loop of the track builder -/

theorem create_track_step_points (env : Env) (pv : GtkPolarView) (pass : pass_t) (tres : ℕ)
    (s : track_loop_t) (i : ℕ) (hi : i < pass.details.length) :
    ∃ xy : ℝ × ℝ, (create_track_step env pv pass tres s i).track_points = s.track_points ++ [xy] := by
  unfold create_track_step
  rw [List.get?_eq_get hi]
  dsimp only
  split_ifs <;> exact ⟨_, rfl⟩

theorem create_track_fold_points (env : Env) (pv : GtkPolarView) (pass : pass_t) (tres : ℕ)
    (l : List ℕ) (hl : ∀ i ∈ l, i < pass.details.length) (s : track_loop_t) :
    ∃ tail : List (ℝ × ℝ),
      (l.foldl (create_track_step env pv pass tres) s).track_points = s.track_points ++ tail ∧
        tail.length = l.length := by
  induction l generalizing s with
  | nil => exact ⟨[], by simp, rfl⟩
  | cons i l ih =>
    obtain ⟨xy, hxy⟩ := create_track_step_points env pv pass tres s i (hl i (List.mem_cons_self _ _))
    obtain ⟨tail, h1, h2⟩ := ih (fun j hj => hl j (List.mem_cons_of_mem _ hj))
      (create_track_step env pv pass tres s i)
    refine ⟨xy :: tail, ?_, by simp [h2]⟩
    rw [List.foldl_cons, h1, hxy]
    simp

theorem create_track_loop_points (env : Env) (pv : GtkPolarView) (pass : pass_t) :
    ∃ tail : List (ℝ × ℝ),
      (create_track_loop env pv pass).track_points = azel_to_xy pv pass.aos_az 0 :: tail ∧
        tail.length = pass.details.length - 2 := by
  unfold create_track_loop
  dsimp only
  obtain ⟨tail, h1, h2⟩ := create_track_fold_points env pv pass (track_tres pass.details.length)
    (List.range' 1 (pass.details.length - 2))
    (by
      intro i hi
      rw [List.mem_range'_1] at hi
      omega)
    { x := (azel_to_xy pv pass.aos_az 0).1, y := (azel_to_xy pv pass.aos_az 0).2, ttidx := 1,
      track_points := [azel_to_xy pv pass.aos_az 0],
      stores := [(0, { x := (azel_to_xy pv pass.aos_az 0).1, y := (azel_to_xy pv pass.aos_az 0).2,
                       text := env.daynum_to_str pass.aos })] }
  refine ⟨tail, ?_, ?_⟩
  · rw [h1]
    rfl
  · rw [h2, List.length_range']

theorem create_track_points (env : Env) (pv : GtkPolarView) (obj : sat_obj_t) (sat : sat_t)
    (pass : pass_t) (hp : obj.pass = some pass) (hn : 1 ≤ pass.details.length) :
    ∃ tail : List (ℝ × ℝ),
      (gtk_polar_view_create_track env pv obj sat).track_points =
          azel_to_xy pv pass.aos_az 0 :: (tail ++ [azel_to_xy pv pass.los_az 0]) ∧
        tail.length = pass.details.length - 2 := by
  obtain ⟨tail, h1, h2⟩ := create_track_loop_points env pv pass
  refine ⟨tail, ?_, h2⟩
  unfold gtk_polar_view_create_track
  rw [hp]
  dsimp only
  rw [if_neg (by omega), h1]
  rfl

theorem create_track_step_ticks (env : Env) (pv : GtkPolarView) (pass : pass_t) (tres : ℕ)
    (s : track_loop_t) (i : ℕ) (hi : i < pass.details.length) :
    (create_track_step env pv pass tres s i).ttidx =
        (if tres ≠ 0 ∧ i % tres = 0 then s.ttidx + 1 else s.ttidx) ∧
      (create_track_step env pv pass tres s i).stores.map Prod.fst =
        (if (tres ≠ 0 ∧ i % tres = 0) ∧ s.ttidx < TRACK_TICK_NUM then
          s.stores.map Prod.fst ++ [s.ttidx]
        else s.stores.map Prod.fst) := by
  unfold create_track_step
  rw [List.get?_eq_get hi]
  dsimp only
  by_cases h1 : tres ≠ 0 ∧ i % tres = 0
  · by_cases h2 : s.ttidx < TRACK_TICK_NUM
    · have h3 : (tres ≠ 0 ∧ i % tres = 0) ∧ s.ttidx < TRACK_TICK_NUM := ⟨h1, h2⟩
      simp only [if_pos h1, if_pos h2, if_pos h3]
      simp
    · have h3 : ¬ ((tres ≠ 0 ∧ i % tres = 0) ∧ s.ttidx < TRACK_TICK_NUM) := fun h => h2 h.2
      simp only [if_pos h1, if_neg h2, if_neg h3]
      simp
  · have h3 : ¬ ((tres ≠ 0 ∧ i % tres = 0) ∧ s.ttidx < TRACK_TICK_NUM) := fun h => h1 h.1
    simp only [if_neg h1, if_neg h3]
    simp

theorem create_track_fold_ticks (env : Env) (pv : GtkPolarView) (pass : pass_t) (tres : ℕ)
    (s0 : track_loop_t) (h0 : s0.ttidx = 1) (hs0 : s0.stores.map Prod.fst = [0]) (k : ℕ)
    (hk : k + 1 < pass.details.length) :
    ((List.range' 1 k).foldl (create_track_step env pv pass tres) s0).ttidx = 1 + k / tres ∧
      ((List.range' 1 k).foldl (create_track_step env pv pass tres) s0).stores.map Prod.fst =
        List.range (min (1 + k / tres) TRACK_TICK_NUM) := by
  induction k with
  | zero =>
    simp only [List.range'_zero, List.foldl_nil, Nat.zero_div, add_zero]
    exact ⟨h0, by rw [hs0]; rfl⟩
  | succ k ih =>
    obtain ⟨ih1, ih2⟩ := ih (by omega)
    rw [List.range'_concat, List.foldl_append, List.foldl_cons, List.foldl_nil]
    obtain ⟨h1, h2⟩ := create_track_step_ticks env pv pass tres
      ((List.range' 1 k).foldl (create_track_step env pv pass tres) s0) (1 + 1 * k) (by omega)
    rw [h1, h2, ih1, ih2, Nat.succ_div]
    have hdvd : (tres ≠ 0 ∧ (1 + 1 * k) % tres = 0) ↔ tres ∣ k + 1 := by
      rw [show 1 + 1 * k = k + 1 by ring]
      constructor
      · intro h
        exact Nat.dvd_of_mod_eq_zero h.2
      · intro h
        refine ⟨?_, Nat.mod_eq_zero_of_dvd h⟩
        rintro rfl
        simp at h
    by_cases hd : tres ∣ k + 1
    · rw [if_pos (hdvd.mpr hd), if_pos hd]
      refine ⟨by ring, ?_⟩
      by_cases hlt : 1 + k / tres < TRACK_TICK_NUM
      · rw [if_pos ⟨hdvd.mpr hd, hlt⟩]
        have e1 : min (1 + k / tres) TRACK_TICK_NUM = 1 + k / tres := min_eq_left hlt.le
        have e2 : min (1 + (k / tres + 1)) TRACK_TICK_NUM = 1 + k / tres + 1 := by
          rw [min_eq_left (by omega)]
          ring
        rw [e1, e2, List.range_succ]
      · rw [if_neg (fun h => hlt h.2)]
        have e1 : min (1 + k / tres) TRACK_TICK_NUM = TRACK_TICK_NUM := min_eq_right (by omega)
        have e2 : min (1 + (k / tres + 1)) TRACK_TICK_NUM = TRACK_TICK_NUM :=
          min_eq_right (by omega)
        rw [e1, e2]
    · rw [if_neg (fun h => hd (hdvd.mp h)), if_neg hd, if_neg (fun h => hd (hdvd.mp h.1))]
      exact ⟨rfl, rfl⟩

theorem create_track_loop_ticks (env : Env) (pv : GtkPolarView) (pass : pass_t) :
    (create_track_loop env pv pass).stores.map Prod.fst =
      List.range (min (1 + (pass.details.length - 2) / track_tres pass.details.length)
        TRACK_TICK_NUM) := by
  unfold create_track_loop
  dsimp only
  by_cases hn : pass.details.length ≤ 2
  · have h0 : pass.details.length - 2 = 0 := by omega
    rw [h0]
    simp [TRACK_TICK_NUM]
    rfl
  · exact (create_track_fold_ticks env pv pass (track_tres pass.details.length)
      { x := (azel_to_xy pv pass.aos_az 0).1, y := (azel_to_xy pv pass.aos_az 0).2, ttidx := 1,
        track_points := [azel_to_xy pv pass.aos_az 0],
        stores := [(0, { x := (azel_to_xy pv pass.aos_az 0).1,
                         y := (azel_to_xy pv pass.aos_az 0).2,
                         text := env.daynum_to_str pass.aos })] }
      rfl rfl (pass.details.length - 2) (by omega)).2

theorem store_ticks_length (stores : List (ℕ × polar_view_tick_t)) (trtick : List polar_view_tick_t) :
    (store_ticks trtick stores).length = trtick.length := by
  unfold store_ticks
  induction stores generalizing trtick with
  | nil => rfl
  | cons st stores ih => rw [List.foldl_cons, ih, List.length_set]

theorem create_track_trtick (env : Env) (pv : GtkPolarView) (obj : sat_obj_t) (sat : sat_t)
    (pass : pass_t) (hp : obj.pass = some pass) :
    (gtk_polar_view_create_track env pv obj sat).trtick =
      if pass.details.length = 0 then obj.trtick
      else store_ticks obj.trtick (create_track_loop env pv pass).stores := by
  unfold gtk_polar_view_create_track
  rw [hp]
  dsimp only
  split_ifs <;> rfl

theorem few_samples_only_first_tick (env : Env) (pv : GtkPolarView) (pass : pass_t)
    (h5 : pass.details.length ≤ 5) :
    (create_track_loop env pv pass).stores.map Prod.fst = [0] := by
  rw [create_track_loop_ticks]
  have hz : (pass.details.length - 2) / track_tres pass.details.length = 0 := by
    unfold track_tres
    by_cases h2 : pass.details.length > 2
    · rw [if_pos h2]
      have : (pass.details.length - 2) / (TRACK_TICK_NUM - 1) = 0 :=
        Nat.div_eq_of_lt (by unfold TRACK_TICK_NUM; omega)
      rw [this, Nat.div_zero]
    · rw [if_neg h2]
      have : pass.details.length - 2 = 0 := by omega
      rw [this]
  rw [hz]
  decide

theorem store_ticks_only_first (trtick : List polar_view_tick_t)
    (stores : List (ℕ × polar_view_tick_t)) (h : stores.map Prod.fst = [0]) :
    (store_ticks trtick stores).drop 1 = trtick.drop 1 := by
  match stores, h with
  | [(k, t)], h =>
    have hk : k = 0 := by simpa using h
    subst hk
    unfold store_ticks
    cases trtick <;> simp

theorem create_track_frame (env : Env) (pv : GtkPolarView) (obj : sat_obj_t) (sat : sat_t) :
    (gtk_polar_view_create_track env pv obj sat).catnum = obj.catnum ∧
    (gtk_polar_view_create_track env pv obj sat).x = obj.x ∧
    (gtk_polar_view_create_track env pv obj sat).y = obj.y ∧
    (gtk_polar_view_create_track env pv obj sat).selected = obj.selected ∧
    (gtk_polar_view_create_track env pv obj sat).showtrack = obj.showtrack ∧
    (gtk_polar_view_create_track env pv obj sat).pass = obj.pass := by
  unfold gtk_polar_view_create_track
  split
  · simp
  · dsimp only
    split_ifs <;> simp

/-! ### Claims on the track builder -/

/-- C4. Horizon endpoint invariant: for a pass with at least one sample, whatever
the azimuths and elevations of its samples, the first point of the track built
by `gtk_polar_view_create_track` is `azel_to_xy (aos_az, 0)` and the last point
is `azel_to_xy (los_az, 0)`. -/
theorem track_endpoints_on_horizon (env : Env) (pv : GtkPolarView) (obj : sat_obj_t)
    (sat : sat_t) (pass : pass_t) (hp : obj.pass = some pass)
    (hn : 1 ≤ pass.details.length) :
    (gtk_polar_view_create_track env pv obj sat).track_points.head? =
        some (azel_to_xy pv pass.aos_az 0) ∧
      (gtk_polar_view_create_track env pv obj sat).track_points.getLast? =
        some (azel_to_xy pv pass.los_az 0) := by
  obtain ⟨tail, h, -⟩ := create_track_points env pv obj sat pass hp hn
  rw [h]
  refine ⟨rfl, ?_⟩
  rw [← List.cons_append, List.getLast?_concat]

/-- Witness of C4 on the scenario of the specification: rise azimuth 10, set
azimuth 350, 20 samples, normal orientation, radius 100, centre (150, 150). -/
theorem track_endpoints_on_horizon_witness :
    (gtk_polar_view_create_track scenario_env scenario_view scenario_obj
        scenario_sat).track_points.head? = some (azel_to_xy scenario_view 10 0) ∧
      (gtk_polar_view_create_track scenario_env scenario_view scenario_obj
        scenario_sat).track_points.getLast? = some (azel_to_xy scenario_view 350 0) :=
  track_endpoints_on_horizon scenario_env scenario_view scenario_obj scenario_sat scenario_pass
    rfl (by simp [scenario_pass])

/-- C5, the claim as stated fails: for a pass with one sample the track has two
points, the two forced horizon points, not one. -/
theorem track_length_single_sample :
    single_sample_pass.details.length = 1 ∧
      (gtk_polar_view_create_track scenario_env scenario_view
        { pass := some single_sample_pass } scenario_sat).track_points.length = 2 := by
  refine ⟨rfl, ?_⟩
  obtain ⟨tail, h, hl⟩ := create_track_points scenario_env scenario_view
    { pass := some single_sample_pass } scenario_sat single_sample_pass rfl (by decide)
  rw [h]
  have h0 : tail.length = 0 := hl
  simp [h0]

/-- C5, amended. Track length: for a pass with N samples, N at least 1, the
polyline built by `gtk_polar_view_create_track` has max N 2 points: exactly N
points when N is at least 2, and the two forced horizon points when N = 1. -/
theorem track_length (env : Env) (pv : GtkPolarView) (obj : sat_obj_t) (sat : sat_t)
    (pass : pass_t) (hp : obj.pass = some pass) (hn : 1 ≤ pass.details.length) :
    (gtk_polar_view_create_track env pv obj sat).track_points.length =
      max pass.details.length 2 := by
  obtain ⟨tail, h, hl⟩ := create_track_points env pv obj sat pass hp hn
  rw [h]
  simp only [List.length_cons, List.length_append, List.length_nil, hl]
  omega

/-- Witness of the amended C5 on the pass of the scenario: 20 samples, 20 points. -/
theorem track_length_witness :
    (gtk_polar_view_create_track scenario_env scenario_view scenario_obj
      scenario_sat).track_points.length = max scenario_pass.details.length 2 :=
  track_length scenario_env scenario_view scenario_obj scenario_sat scenario_pass rfl
    (by simp [scenario_pass])

/-- C6, the claim as stated fails: for a pass with five samples the only tick
the build stores is tick 0; the entries 1 to 4 of `trtick` keep the contents
they had before the build (here those of a fresh object), so they get neither a
position nor a label. -/
theorem tick_count_five_samples :
    2 ≤ five_sample_pass.details.length ∧
      (create_track_loop scenario_env scenario_view five_sample_pass).stores.map Prod.fst = [0] ∧
      (gtk_polar_view_create_track scenario_env scenario_view { pass := some five_sample_pass }
        scenario_sat).trtick.drop 1 = List.replicate 4 {} := by
  have h := few_samples_only_first_tick scenario_env scenario_view five_sample_pass (by decide)
  refine ⟨by decide, h, ?_⟩
  rw [create_track_trtick scenario_env scenario_view { pass := some five_sample_pass }
    scenario_sat five_sample_pass rfl, if_neg (by decide), store_ticks_only_first _ _ h]
  rfl

/-- C6, amended. Tick count: for a pass with at least 6 samples a track build
places exactly TRACK_TICK_NUM = 5 time ticks: the stores into `trtick` are those
of tick 0 and of the ticks 1, 2, 3, 4, each stored once with its position and
its label. -/
theorem tick_count (env : Env) (pv : GtkPolarView) (obj : sat_obj_t) (sat : sat_t)
    (pass : pass_t) (hp : obj.pass = some pass) (h6 : 6 ≤ pass.details.length) :
    (gtk_polar_view_create_track env pv obj sat).trtick =
        store_ticks obj.trtick (create_track_loop env pv pass).stores ∧
      (create_track_loop env pv pass).stores.map Prod.fst = [0, 1, 2, 3, 4] := by
  refine ⟨?_, ?_⟩
  · rw [create_track_trtick env pv obj sat pass hp, if_neg (by omega)]
  · rw [create_track_loop_ticks]
    have ht : track_tres pass.details.length = (pass.details.length - 2) / 4 := by
      unfold track_tres
      rw [if_pos (by omega)]
      rfl
    have hpos : 0 < (pass.details.length - 2) / 4 := Nat.div_pos (by omega) (by decide)
    have h4 : 4 ≤ (pass.details.length - 2) / ((pass.details.length - 2) / 4) := by
      rw [Nat.le_div_iff_mul_le hpos]
      have := Nat.div_mul_le_self (pass.details.length - 2) 4
      omega
    rw [ht, min_eq_right (by unfold TRACK_TICK_NUM; omega)]
    decide

/-- Witness of the amended C6 on the pass of the scenario, which has 20 samples:
the five ticks 0, 1, 2, 3, 4 are stored. -/
theorem tick_count_witness :
    (gtk_polar_view_create_track scenario_env scenario_view scenario_obj scenario_sat).trtick =
        store_ticks scenario_obj.trtick
          (create_track_loop scenario_env scenario_view scenario_pass).stores ∧
      (create_track_loop scenario_env scenario_view scenario_pass).stores.map Prod.fst =
        [0, 1, 2, 3, 4] :=
  tick_count scenario_env scenario_view scenario_obj scenario_sat scenario_pass rfl
    (by simp [scenario_pass])

/-- C7. The tick array is never overflowed: for a pass with any number of
samples, every store of `gtk_polar_view_create_track` into `trtick` has an
index below TRACK_TICK_NUM (later candidate ticks are dropped while the tick
index keeps counting), and the array keeps its length. -/
theorem tick_array_not_overflowed (env : Env) (pv : GtkPolarView) (obj : sat_obj_t)
    (sat : sat_t) (pass : pass_t) (hp : obj.pass = some pass) :
    ((gtk_polar_view_create_track env pv obj sat).trtick =
        if pass.details.length = 0 then obj.trtick
        else store_ticks obj.trtick (create_track_loop env pv pass).stores) ∧
      (∀ st ∈ (create_track_loop env pv pass).stores, st.1 < TRACK_TICK_NUM) ∧
      (gtk_polar_view_create_track env pv obj sat).trtick.length = obj.trtick.length := by
  refine ⟨create_track_trtick env pv obj sat pass hp, ?_, ?_⟩
  · intro st hst
    have hmem : st.1 ∈ (create_track_loop env pv pass).stores.map Prod.fst :=
      List.mem_map_of_mem Prod.fst hst
    rw [create_track_loop_ticks, List.mem_range] at hmem
    exact lt_of_lt_of_le hmem (min_le_right _ _)
  · rw [create_track_trtick env pv obj sat pass hp]
    split_ifs
    · rfl
    · exact store_ticks_length _ _

/-- Witness of C7 on the pass of the scenario. -/
theorem tick_array_not_overflowed_witness :
    (gtk_polar_view_create_track scenario_env scenario_view scenario_obj scenario_sat).trtick.length
      = scenario_obj.trtick.length :=
  (tick_array_not_overflowed scenario_env scenario_view scenario_obj scenario_sat scenario_pass
    rfl).2.2

/-! ### The object table -/

theorem lookup_cons_ne {α : Type} (t : List (Int × α)) (k a : Int) (b : α) (h : k ≠ a) :
    List.lookup k ((a, b) :: t) = List.lookup k t := by
  have hb : (k == a) = false := by simpa using h
  rw [List.lookup_cons, hb]

theorem lookup_remove_self {α : Type} (t : List (Int × α)) (key : Int) :
    g_hash_table_lookup (g_hash_table_remove t key) key = none := by
  induction t with
  | nil => rfl
  | cons e t ih =>
    unfold g_hash_table_lookup g_hash_table_remove at *
    obtain ⟨a, b⟩ := e
    by_cases h : a = key
    · simpa [List.filter_cons, h] using ih
    · have h2 : key ≠ a := fun h3 => h h3.symm
      have h5 : ((a, b).1 != key) = true := by simpa using h
      rw [List.filter_cons, h5, if_pos rfl, lookup_cons_ne _ _ _ _ h2]
      exact ih

theorem lookup_remove_other {α : Type} (t : List (Int × α)) (key k : Int) (hk : k ≠ key) :
    g_hash_table_lookup (g_hash_table_remove t key) k = g_hash_table_lookup t k := by
  induction t with
  | nil => rfl
  | cons e t ih =>
    unfold g_hash_table_lookup g_hash_table_remove at *
    obtain ⟨a, b⟩ := e
    by_cases h : a = key
    · have h2 : k ≠ a := by rw [h]; exact hk
      have h5 : ((a, b).1 != key) = false := by simpa using h
      rw [List.filter_cons, h5, lookup_cons_ne _ _ _ _ h2]
      simpa using ih
    · have h5 : ((a, b).1 != key) = true := by simpa using h
      rw [List.filter_cons, h5, if_pos rfl]
      by_cases h3 : k = a
      · subst h3
        rw [List.lookup_cons_self, List.lookup_cons_self]
      · rw [lookup_cons_ne _ _ _ _ h3, lookup_cons_ne _ _ _ _ h3]
        exact ih

theorem lookup_insert_absent {α : Type} (t : List (Int × α)) (key : Int) (v : α)
    (h : g_hash_table_lookup t key = none) :
    g_hash_table_lookup (g_hash_table_insert t key v) key = some v := by
  unfold g_hash_table_lookup g_hash_table_insert at *
  simp [h, List.lookup_append]

theorem lookup_obj_write {t : List (Int × sat_obj_t)} {key : Int} {o : sat_obj_t}
    (v : sat_obj_t) (h : g_hash_table_lookup t key = some o) :
    g_hash_table_lookup (obj_write t key v) key = some v := by
  induction t with
  | nil => simp [g_hash_table_lookup] at h
  | cons e t ih =>
    unfold g_hash_table_lookup obj_write at *
    obtain ⟨a, b⟩ := e
    by_cases h3 : key = a
    · subst h3
      simp
    · have h4 : (a == key) = false := by simpa using fun h5 : a = key => h3 h5.symm
      rw [lookup_cons_ne _ _ _ _ h3] at h
      rw [List.map_cons]
      simp only [h4, Bool.false_eq_true, if_false]
      rw [lookup_cons_ne _ _ _ _ h3]
      exact ih h

/-! ### Refresh of one satellite -/

theorem update_next_aos_frame (sat : sat_t) (polv : GtkPolarView) :
    (update_next_aos sat polv).obj = polv.obj ∧
    (update_next_aos sat polv).qth = polv.qth ∧
    (update_next_aos sat polv).tstamp = polv.tstamp ∧
    (update_next_aos sat polv).cx = polv.cx ∧
    (update_next_aos sat polv).cy = polv.cy ∧
    (update_next_aos sat polv).r = polv.r ∧
    (update_next_aos sat polv).swap = polv.swap ∧
    (update_next_aos sat polv).showtrack = polv.showtrack ∧
    (update_next_aos sat polv).showtracks_on = polv.showtracks_on ∧
    (update_next_aos sat polv).showtracks_off = polv.showtracks_off ∧
    (update_next_aos sat polv).sel_text = polv.sel_text := by
  unfold update_next_aos
  dsimp only
  split_ifs <;> simp

theorem azel_to_xy_congr (p q : GtkPolarView) (hr : p.r = q.r) (hcx : p.cx = q.cx)
    (hcy : p.cy = q.cy) (hs : p.swap = q.swap) (az el : ℝ) :
    azel_to_xy p az el = azel_to_xy q az el := by
  unfold azel_to_xy
  rw [hr, hcx, hcy, hs]

theorem pass_needs_update_iff (env : Env) (polv : GtkPolarView) (p : pass_t) (now : ℝ) :
    pass_needs_update env polv p now = true ↔
      (now < p.aos ∨ p.los < now ∨ 1 < env.qth_small_dist polv.qth p.qth_comp) := by
  unfold pass_needs_update
  simp only [Bool.or_eq_true, decide_eq_true_eq, Bool.not_eq_true', Bool.and_eq_false_iff,
    decide_eq_false_iff_not, not_le, ge_iff_le, gt_iff_lt]
  tauto

theorem pass_needs_update_congr (env : Env) (p1 p2 : GtkPolarView) (h : p1.qth = p2.qth)
    (p : pass_t) (now : ℝ) :
    pass_needs_update env p1 p now = pass_needs_update env p2 p now := by
  unfold pass_needs_update
  rw [h]

theorem update_sat_existing (env : Env) (sat : sat_t) (polv : GtkPolarView)
    (o : sat_obj_t) (p : pass_t)
    (hel : 0 ≤ sat.el) (hdec : env.decayed sat = false)
    (hobj : g_hash_table_lookup polv.obj sat.catnr = some o) (hpass : o.pass = some p) :
    ∃ o2 : sat_obj_t, g_hash_table_lookup (update_sat env sat polv).obj sat.catnr = some o2 ∧
      (pass_needs_update env polv p polv.tstamp = true →
        o2.pass = env.get_current_pass sat polv.qth polv.tstamp) ∧
      (pass_needs_update env polv p polv.tstamp = false →
        o2.pass = some p ∧ o2.track_points = o.track_points ∧ o2.trtick = o.trtick) := by
  obtain ⟨hobj1, hqth, -⟩ := update_next_aos_frame sat polv
  have hvis : ¬ (sat.el < 0 ∨ env.decayed sat = true) := by
    rw [hdec]
    simp [not_lt.mpr hel]
  unfold update_sat
  simp only [if_neg hvis]
  generalize update_next_aos sat polv = polv1 at hobj1 hqth ⊢
  rw [← hobj1] at hobj
  rw [hobj]
  simp only [hpass]
  rcases Bool.eq_false_or_eq_true o.selected with hsel | hsel
  · simp only [hsel, if_true]
    rw [pass_needs_update_congr env _ polv (by exact hqth) p polv.tstamp]
    refine ⟨_, lookup_obj_write _ hobj, ?_, ?_⟩
    · intro hupd
      rw [if_pos hupd, hqth]
      split_ifs <;> first | rfl | rw [(create_track_frame env _ _ sat).2.2.2.2.2]
    · intro hupd
      rw [if_neg (by rw [hupd]; exact Bool.false_ne_true)]
      exact ⟨rfl, rfl, rfl⟩
  · simp only [hsel, Bool.false_eq_true, if_false]
    rw [pass_needs_update_congr env _ polv hqth p polv.tstamp]
    refine ⟨_, lookup_obj_write _ hobj, ?_, ?_⟩
    · intro hupd
      rw [if_pos hupd, hqth]
      split_ifs <;> first | rfl | rw [(create_track_frame env _ _ sat).2.2.2.2.2]
    · intro hupd
      rw [if_neg (by rw [hupd]; exact Bool.false_ne_true)]
      exact ⟨rfl, rfl, rfl⟩

/-- C8. Pass-cache invalidation: in the refresh of a visible satellite whose
tracked object holds a cached pass, the pass is computed again if and only if
`now` lies outside `[pass.aos, pass.los]` or the observer is more than 1.0 away
from the location the pass was computed for; then the object holds the fresh
`get_current_pass (sat, qth, now)`.  With `now` inside the window, bounds
included, and a distance of at most 1.0, the cached pass, the track and the
time ticks are left as they were. -/
theorem pass_cache_invalidation (env : Env) (sat : sat_t) (polv : GtkPolarView)
    (o : sat_obj_t) (p : pass_t)
    (hel : 0 ≤ sat.el) (hdec : env.decayed sat = false)
    (hobj : g_hash_table_lookup polv.obj sat.catnr = some o) (hpass : o.pass = some p) :
    (pass_needs_update env polv p polv.tstamp = true ↔
        (polv.tstamp < p.aos ∨ p.los < polv.tstamp ∨
          1 < env.qth_small_dist polv.qth p.qth_comp)) ∧
      ∃ o2 : sat_obj_t,
        g_hash_table_lookup (update_sat env sat polv).obj sat.catnr = some o2 ∧
        ((polv.tstamp < p.aos ∨ p.los < polv.tstamp ∨
            1 < env.qth_small_dist polv.qth p.qth_comp) →
          o2.pass = env.get_current_pass sat polv.qth polv.tstamp) ∧
        ((p.aos ≤ polv.tstamp ∧ polv.tstamp ≤ p.los ∧
            env.qth_small_dist polv.qth p.qth_comp ≤ 1) →
          o2.pass = some p ∧ o2.track_points = o.track_points ∧ o2.trtick = o.trtick) := by
  have hiff := pass_needs_update_iff env polv p polv.tstamp
  refine ⟨hiff, ?_⟩
  obtain ⟨o2, h1, h2, h3⟩ := update_sat_existing env sat polv o p hel hdec hobj hpass
  refine ⟨o2, h1, fun hc => h2 (hiff.mpr hc), fun hc => h3 ?_⟩
  rw [Bool.eq_false_iff]
  intro hupd
  rcases hiff.mp hupd with h | h | h
  · exact absurd hc.1 (not_le.mpr h)
  · exact absurd hc.2.1 (not_le.mpr h)
  · exact absurd hc.2.2 (not_le.mpr h)

/-- Witness of C8 with the window [10, 20]: at now = 25 the pass is computed
again; at now = 15 with the observer 0.5 away the cached pass is kept. -/
theorem pass_cache_invalidation_witness :
    (∃ o2 : sat_obj_t,
        g_hash_table_lookup (update_sat scenario_env scenario_sat (cached_view 25 0)).obj
            scenario_sat.catnr = some o2 ∧
          o2.pass = some scenario_pass) ∧
      (∃ o2 : sat_obj_t,
        g_hash_table_lookup (update_sat scenario_env scenario_sat (cached_view 15 0.5)).obj
            scenario_sat.catnr = some o2 ∧
          o2.pass = some cached_pass ∧ o2.track_points = cached_obj.track_points ∧
          o2.trtick = cached_obj.trtick) := by
  obtain ⟨-, o2, h1, h2, -⟩ := pass_cache_invalidation scenario_env scenario_sat
    (cached_view 25 0) cached_obj cached_pass (by norm_num [scenario_sat]) rfl rfl rfl
  obtain ⟨-, o3, h3, -, h4⟩ := pass_cache_invalidation scenario_env scenario_sat
    (cached_view 15 0.5) cached_obj cached_pass (by norm_num [scenario_sat]) rfl rfl rfl
  refine ⟨⟨o2, h1, ?_⟩, ⟨o3, h3, ?_⟩⟩
  · exact h2 (Or.inr (Or.inl (by norm_num [cached_view, cached_pass])))
  · refine h4 ⟨?_, ?_, ?_⟩
    · norm_num [cached_view, cached_pass]
    · norm_num [cached_view, cached_pass]
    · norm_num [cached_view, cached_pass, scenario_env, abs_of_nonneg]

/-- C9. Lifecycle, removal: after `update_sat` has processed a satellite whose
elevation is negative or which is decayed, the object table has no entry for
its catalogue number, and the entry of every other catalogue number is the one
it was before. -/
theorem update_sat_removes (env : Env) (sat : sat_t) (polv : GtkPolarView)
    (h : sat.el < 0 ∨ env.decayed sat = true) :
    g_hash_table_lookup (update_sat env sat polv).obj sat.catnr = none ∧
      ∀ k : Int, k ≠ sat.catnr →
        g_hash_table_lookup (update_sat env sat polv).obj k = g_hash_table_lookup polv.obj k := by
  obtain ⟨hobj, -⟩ := update_next_aos_frame sat polv
  unfold update_sat
  simp only [if_pos h]
  generalize update_next_aos sat polv = polv1 at hobj ⊢
  split
  · refine ⟨?_, ?_⟩
    · exact lookup_remove_self _ _
    · intro k hk
      simp only []
      rw [lookup_remove_other _ _ _ hk]
      split_ifs <;> simp [hobj]
  · rename_i hnone
    rw [hobj] at hnone ⊢
    exact ⟨hnone, fun _ _ => rfl⟩

/-- Witness of C9 on the scenario: the satellite of catalogue number 7 is below
the horizon at t = 250 and its object is removed. -/
theorem update_sat_removes_witness :
    g_hash_table_lookup (update_sat scenario_env set_sat (cached_view 250 0)).obj set_sat.catnr
        = none ∧
      g_hash_table_lookup (update_sat scenario_env set_sat (cached_view 250 0)).obj 8 =
        g_hash_table_lookup (cached_view 250 0).obj 8 :=
  ⟨(update_sat_removes scenario_env set_sat (cached_view 250 0)
      (Or.inl (by norm_num [set_sat]))).1,
   (update_sat_removes scenario_env set_sat (cached_view 250 0)
      (Or.inl (by norm_num [set_sat]))).2 8 (by decide)⟩

/-- C10. Lifecycle, creation: after `update_sat` has processed a satellite that
is not decayed, has a non-negative elevation and had no tracked object, the
allocation succeeding, the object table has an entry for its catalogue number
whose `catnum` is that number, whose position is `azel_to_xy (sat.az, sat.el)`,
whose `selected` flag is false and whose pass is the freshly computed
`get_current_pass (sat, qth, now)`. -/
theorem update_sat_creates (env : Env) (sat : sat_t) (polv : GtkPolarView)
    (hel : 0 ≤ sat.el) (hdec : env.decayed sat = false)
    (hnone : g_hash_table_lookup polv.obj sat.catnr = none)
    (halloc : env.g_try_new0 sat.catnr = true) :
    ∃ o : sat_obj_t, g_hash_table_lookup (update_sat env sat polv).obj sat.catnr = some o ∧
      o.catnum = sat.catnr ∧ (o.x, o.y) = azel_to_xy polv sat.az sat.el ∧
      o.selected = false ∧ o.pass = env.get_current_pass sat polv.qth polv.tstamp := by
  obtain ⟨hobj, hqth, -, hcx, hcy, hr, hs, -⟩ := update_next_aos_frame sat polv
  have hxy := azel_to_xy_congr (update_next_aos sat polv) polv hr hcx hcy hs sat.az sat.el
  have hvis : ¬ (sat.el < 0 ∨ env.decayed sat = true) := by
    rw [hdec]
    simp [not_lt.mpr hel]
  unfold update_sat
  simp only [if_neg hvis]
  generalize update_next_aos sat polv = polv1 at hobj hqth hxy ⊢
  rw [← hobj] at hnone
  rw [hnone]
  simp only [halloc, if_true]
  split_ifs with hshow
  · refine ⟨_, lookup_obj_write _ (lookup_insert_absent _ _ _ hnone), ?_⟩
    rw [(create_track_frame env _ _ sat).1, (create_track_frame env _ _ sat).2.1,
      (create_track_frame env _ _ sat).2.2.1, (create_track_frame env _ _ sat).2.2.2.1,
      (create_track_frame env _ _ sat).2.2.2.2.2, ← hxy, hqth]
    exact ⟨rfl, rfl, rfl, rfl⟩
  · refine ⟨_, lookup_insert_absent _ _ _ hnone, ?_⟩
    rw [← hxy, hqth]
    exact ⟨rfl, rfl, rfl, rfl⟩

/-- Witness of C10 on the scenario: the first refresh at t = 100 creates the
object of the satellite of catalogue number 7. -/
theorem update_sat_creates_witness :
    ∃ o : sat_obj_t,
      g_hash_table_lookup
          (update_sat scenario_env scenario_sat { scenario_view with tstamp := 100 }).obj
          scenario_sat.catnr = some o ∧
        o.catnum = scenario_sat.catnr ∧
        (o.x, o.y) = azel_to_xy { scenario_view with tstamp := 100 } scenario_sat.az
          scenario_sat.el ∧
        o.selected = false ∧
        o.pass = scenario_env.get_current_pass scenario_sat
          ({ scenario_view with tstamp := 100 } : GtkPolarView).qth
          ({ scenario_view with tstamp := 100 } : GtkPolarView).tstamp :=
  update_sat_creates scenario_env scenario_sat { scenario_view with tstamp := 100 }
    (by norm_num [scenario_sat]) rfl rfl rfl

/-! ### Claims on the creation of objects and on the track builder, continued -/

theorem update_sat_new_obj (env : Env) (sat : sat_t) (polv : GtkPolarView)
    (hel : 0 ≤ sat.el) (hdec : env.decayed sat = false)
    (hnone : g_hash_table_lookup polv.obj sat.catnr = none)
    (halloc : env.g_try_new0 sat.catnr = true) :
    ∃ o : sat_obj_t, g_hash_table_lookup (update_sat env sat polv).obj sat.catnr = some o ∧
      o.showtrack = initial_showtrack polv sat.catnr ∧ o.selected = false ∧
      o.catnum = sat.catnr := by
  obtain ⟨hobj, -, -, -, -, -, -, hst, hon, hoff, -⟩ := update_next_aos_frame sat polv
  have hini : initial_showtrack (update_next_aos sat polv) sat.catnr =
      initial_showtrack polv sat.catnr := by
    unfold initial_showtrack
    rw [hst, hon, hoff]
  have hvis : ¬ (sat.el < 0 ∨ env.decayed sat = true) := by
    rw [hdec]
    simp [not_lt.mpr hel]
  unfold update_sat
  simp only [if_neg hvis]
  generalize update_next_aos sat polv = polv1 at hobj hini ⊢
  rw [← hobj] at hnone
  rw [hnone]
  simp only [halloc, if_true]
  split_ifs with hshow
  · refine ⟨_, lookup_obj_write _ (lookup_insert_absent _ _ _ hnone), ?_⟩
    rw [(create_track_frame env _ _ sat).2.2.2.2.1, (create_track_frame env _ _ sat).2.2.2.1,
      (create_track_frame env _ _ sat).1]
    exact ⟨hini, rfl, rfl⟩
  · exact ⟨_, lookup_insert_absent _ _ _ hnone, hini, rfl, rfl⟩

/-- C11. Initial track visibility: the object `update_sat` creates for a newly
visible satellite has `showtrack = true` when its catalogue number is in
`showtracks_on` (also when it is in `showtracks_off` as well), `showtrack = false`
when it is in `showtracks_off` only, and the default `showtrack` of the view
when it is in neither table. -/
theorem initial_track_visibility (env : Env) (sat : sat_t) (polv : GtkPolarView)
    (hel : 0 ≤ sat.el) (hdec : env.decayed sat = false)
    (hnone : g_hash_table_lookup polv.obj sat.catnr = none)
    (halloc : env.g_try_new0 sat.catnr = true) :
    ∃ o : sat_obj_t, g_hash_table_lookup (update_sat env sat polv).obj sat.catnr = some o ∧
      (sat.catnr ∈ polv.showtracks_on → o.showtrack = true) ∧
      (sat.catnr ∉ polv.showtracks_on → sat.catnr ∈ polv.showtracks_off →
        o.showtrack = false) ∧
      (sat.catnr ∉ polv.showtracks_on → sat.catnr ∉ polv.showtracks_off →
        o.showtrack = polv.showtrack) := by
  obtain ⟨o, ho, hs, -⟩ := update_sat_new_obj env sat polv hel hdec hnone halloc
  refine ⟨o, ho, ?_, ?_, ?_⟩
  · intro hon
    rw [hs]
    simp [initial_showtrack, g_hash_table_lookup_extended, hon]
  · intro hon hoff
    rw [hs]
    simp [initial_showtrack, g_hash_table_lookup_extended, hon, hoff]
  · intro hon hoff
    rw [hs]
    simp [initial_showtrack, g_hash_table_lookup_extended, hon, hoff]

/-- Witness of C11: the satellite of the scenario is in both tables, the default
of the view is off, and the new object shows its track. -/
theorem initial_track_visibility_witness :
    ∃ o : sat_obj_t,
      g_hash_table_lookup
          (update_sat scenario_env scenario_sat
            { scenario_view with showtracks_on := [7], showtracks_off := [7] }).obj
          scenario_sat.catnr = some o ∧ o.showtrack = true := by
  obtain ⟨o, ho, h1, -⟩ := initial_track_visibility scenario_env scenario_sat
    { scenario_view with showtracks_on := [7], showtracks_off := [7] }
    (by norm_num [scenario_sat]) rfl rfl rfl
  exact ⟨o, ho, h1 (by simp [scenario_sat])⟩

/-- C19, the claim as stated fails: for an object that shows a track of two
points and whose pass has no sample, the build returns with the track cleared. -/
theorem empty_pass_clears_track :
    empty_pass_obj.track_points = [(1, 2), (3, 4)] ∧
      (gtk_polar_view_create_track scenario_env scenario_view empty_pass_obj
        scenario_sat).track_points = [] := by
  refine ⟨rfl, ?_⟩
  unfold gtk_polar_view_create_track
  simp [empty_pass_obj]

/-- C19, amended. Degenerate pass: if the pass of the object has zero samples,
`gtk_polar_view_create_track` aborts (with an error message) and leaves the time
ticks and every other field of the object exactly as they were, except the
track polyline, which is empty afterwards: the previous polyline is cleared
before the samples are counted. -/
theorem empty_pass_aborts (env : Env) (pv : GtkPolarView) (obj : sat_obj_t) (sat : sat_t)
    (pass : pass_t) (hp : obj.pass = some pass) (h0 : pass.details.length = 0) :
    gtk_polar_view_create_track env pv obj sat = { obj with track_points := [] } ∧
      (gtk_polar_view_create_track env pv obj sat).trtick = obj.trtick := by
  unfold gtk_polar_view_create_track
  rw [hp]
  simp [h0]

/-- Witness of the amended C19 on the object whose pass has no sample. -/
theorem empty_pass_aborts_witness :
    gtk_polar_view_create_track scenario_env scenario_view empty_pass_obj scenario_sat =
        { empty_pass_obj with track_points := [] } ∧
      (gtk_polar_view_create_track scenario_env scenario_view empty_pass_obj
        scenario_sat).trtick = empty_pass_obj.trtick :=
  empty_pass_aborts scenario_env scenario_view empty_pass_obj scenario_sat
    { aos := 100, los := 195, aos_az := 10, los_az := 350, details := [] } rfl rfl

/-! ### Floating-point rounding -/

theorem round_half_even_near (y : ℝ) (n : ℤ) (h : |y - n| < 1 / 2) :
    round_half_even y = n := by
  unfold round_half_even
  rw [abs_lt] at h
  by_cases hy : (n : ℝ) ≤ y
  · have hf : ⌊y⌋ = n := by
      rw [Int.floor_eq_iff]
      constructor <;> linarith
    dsimp only
    rw [hf, if_pos (by linarith)]
  · have hf : ⌊y⌋ = n - 1 := by
      rw [Int.floor_eq_iff]
      push_cast
      constructor <;> linarith
    dsimp only
    rw [hf]
    push_cast
    rw [if_neg (by linarith), if_pos (by linarith)]
    ring

theorem fp_exponent (x : ℝ) (e : ℤ) (h1 : (2 : ℝ) ^ e ≤ |x|) (h2 : |x| < (2 : ℝ) ^ (e + 1)) :
    Int.log 2 |x| = e := by
  have hpos : 0 < |x| := lt_of_lt_of_le (by positivity) h1
  have a : e ≤ Int.log 2 |x| :=
    (Int.zpow_le_iff_le_log (by norm_num) hpos).mp (by simpa using h1)
  have b : Int.log 2 |x| < e + 1 :=
    (Int.lt_zpow_iff_log_lt (by norm_num) hpos).mp (by simpa using h2)
  omega

theorem fp_round_near (p : ℕ) (emin e : ℤ) (x : ℝ) (n : ℤ)
    (h1 : (2 : ℝ) ^ e ≤ |x|) (h2 : |x| < (2 : ℝ) ^ (e + 1)) (hem : emin ≤ e)
    (hn : |x / (2 : ℝ) ^ (e - (p : ℤ)) - n| < 1 / 2) :
    fp_round p emin x = n * (2 : ℝ) ^ (e - (p : ℤ)) := by
  unfold fp_round
  dsimp only
  rw [fp_exponent x e h1 h2, max_eq_left hem, round_half_even_near _ n hn]

/-- A value that is a whole multiple of the spacing of its binade is not changed. -/
theorem fp_round_exact (p : ℕ) (emin e : ℤ) (x : ℝ) (n : ℤ)
    (h1 : (2 : ℝ) ^ e ≤ |x|) (h2 : |x| < (2 : ℝ) ^ (e + 1)) (hem : emin ≤ e)
    (hx : x = n * (2 : ℝ) ^ (e - (p : ℤ))) :
    fp_round p emin x = x := by
  have hu : (0 : ℝ) < (2 : ℝ) ^ (e - (p : ℤ)) := by positivity
  rw [fp_round_near p emin e x n h1 h2 hem, ← hx]
  rw [hx, mul_div_assoc, div_self hu.ne']
  norm_num

/-- C20. Marker visibility of the polar plot: after `gtk_polar_plot_set_target_pos`
with `(az, el)` the target marker is among the markers `on_draw` draws if and
only if `az >= 0` and `el >= 0`, and the setter changes no field other than
`target_az` and `target_el`; the same holds for the controller marker with
`gtk_polar_plot_set_ctrl_pos` and for the rotor marker with
`gtk_polar_plot_set_rotor_pos`. -/
theorem marker_visibility (plot : GtkPolarPlot) (az el : ℝ) :
    ((polar_plot.marker_t.target ∈
          (polar_plot.on_draw_markers (polar_plot.gtk_polar_plot_set_target_pos plot az el)).map
            Prod.fst ↔ 0 ≤ az ∧ 0 ≤ el) ∧
        polar_plot.gtk_polar_plot_set_target_pos plot az el =
          { plot with target_az := az, target_el := el }) ∧
      ((polar_plot.marker_t.ctrl ∈
          (polar_plot.on_draw_markers (polar_plot.gtk_polar_plot_set_ctrl_pos plot az el)).map
            Prod.fst ↔ 0 ≤ az ∧ 0 ≤ el) ∧
        polar_plot.gtk_polar_plot_set_ctrl_pos plot az el =
          { plot with ctrl_az := az, ctrl_el := el }) ∧
      ((polar_plot.marker_t.rotor ∈
          (polar_plot.on_draw_markers (polar_plot.gtk_polar_plot_set_rotor_pos plot az el)).map
            Prod.fst ↔ 0 ≤ az ∧ 0 ≤ el) ∧
        polar_plot.gtk_polar_plot_set_rotor_pos plot az el =
          { plot with rotor_az := az, rotor_el := el }) := by
  refine ⟨⟨?_, rfl⟩, ⟨?_, rfl⟩, ⟨?_, rfl⟩⟩
  · unfold polar_plot.on_draw_markers polar_plot.gtk_polar_plot_set_target_pos
    dsimp only
    by_cases h : az ≥ 0 ∧ el ≥ 0
    · simp only [if_pos h]
      split_ifs <;> simp [h.1, h.2]
    · simp only [if_neg h]
      split_ifs <;> simpa using h
  · unfold polar_plot.on_draw_markers polar_plot.gtk_polar_plot_set_ctrl_pos
    dsimp only
    by_cases h : az ≥ 0 ∧ el ≥ 0
    · simp only [if_pos h]
      split_ifs <;> simp [h.1, h.2]
    · simp only [if_neg h]
      split_ifs <;> simpa using h
  · unfold polar_plot.on_draw_markers polar_plot.gtk_polar_plot_set_rotor_pos
    dsimp only
    by_cases h : az ≥ 0 ∧ el ≥ 0
    · simp only [if_pos h]
      split_ifs <;> simp [h.1, h.2]
    · simp only [if_neg h]
      split_ifs <;> simpa using h

/-! ### The refresh of all satellites -/

theorem update_sat_frame (env : Env) (sat : sat_t) (polv : GtkPolarView) :
    ∃ (o : List (Int × sat_obj_t)) (t : Option String),
      update_sat env sat polv = { update_next_aos sat polv with obj := o, sel_text := t } := by
  unfold update_sat
  dsimp only
  generalize update_next_aos sat polv = polv1
  split_ifs <;> first
    | exact ⟨_, _, rfl⟩
    | (split <;> first
        | exact ⟨_, _, rfl⟩
        | (split_ifs <;> exact ⟨_, _, rfl⟩))

theorem update_next_aos_comm (sat : sat_t) (q : GtkPolarView) (o : List (Int × sat_obj_t))
    (t : Option String) :
    update_next_aos sat { q with obj := o, sel_text := t } =
      { update_next_aos sat q with obj := o, sel_text := t } := by
  unfold update_next_aos
  dsimp only
  split_ifs <;> rfl

theorem fold_next_aos_comm (l : List (Int × sat_t)) (q : GtkPolarView)
    (o : List (Int × sat_obj_t)) (t : Option String) :
    l.foldl (fun p e => update_next_aos e.2 p) { q with obj := o, sel_text := t } =
      { l.foldl (fun p e => update_next_aos e.2 p) q with obj := o, sel_text := t } := by
  induction l generalizing q with
  | nil => rfl
  | cons x l ih => rw [List.foldl_cons, List.foldl_cons, update_next_aos_comm, ih]

theorem fold_update_sat_frame (env : Env) (l : List (Int × sat_t)) (p : GtkPolarView) :
    ∃ (o : List (Int × sat_obj_t)) (t : Option String),
      l.foldl (fun p e => update_sat env e.2 p) p =
        { l.foldl (fun p e => update_next_aos e.2 p) p with obj := o, sel_text := t } := by
  induction l generalizing p with
  | nil => exact ⟨_, _, rfl⟩
  | cons x l ih =>
    obtain ⟨o, t, h⟩ := update_sat_frame env x.2 p
    obtain ⟨o2, t2, h2⟩ := ih { update_next_aos x.2 p with obj := o, sel_text := t }
    refine ⟨o2, t2, ?_⟩
    rw [List.foldl_cons, List.foldl_cons, h, h2, fold_next_aos_comm]

theorem fold_next_aos_frame (l : List (Int × sat_t)) (p : GtkPolarView) :
    ∃ (n : ℝ) (c : Int),
      l.foldl (fun p e => update_next_aos e.2 p) p = { p with naos := n, ncat := c } := by
  induction l generalizing p with
  | nil => exact ⟨_, _, rfl⟩
  | cons x l ih =>
    rw [List.foldl_cons]
    have hx : ∃ (n : ℝ) (c : Int), update_next_aos x.2 p = { p with naos := n, ncat := c } := by
      unfold update_next_aos
      dsimp only
      split_ifs <;> exact ⟨_, _, rfl⟩
    obtain ⟨n, c, h⟩ := hx
    obtain ⟨n2, c2, h2⟩ := ih { p with naos := n, ncat := c }
    exact ⟨n2, c2, by rw [h, h2]⟩

theorem foreach_update_sat_frame (env : Env) (polv : GtkPolarView) :
    ∃ (n : ℝ) (c : Int) (o : List (Int × sat_obj_t)) (t : Option String),
      foreach_update_sat env polv = { polv with naos := n, ncat := c, obj := o, sel_text := t } ∧
      n = (polv.sats.foldl (fun p e => update_next_aos e.2 p) polv).naos ∧
      c = (polv.sats.foldl (fun p e => update_next_aos e.2 p) polv).ncat := by
  obtain ⟨o, t, h⟩ := fold_update_sat_frame env polv.sats polv
  obtain ⟨n, c, h2⟩ := fold_next_aos_frame polv.sats polv
  refine ⟨n, c, o, t, ?_, ?_, ?_⟩
  · unfold foreach_update_sat
    rw [h, h2]
  · rw [h2]
  · rw [h2]

theorem update_resize_block_frame (env : Env) (polv : GtkPolarView) :
    (update_resize_block env polv).counter = polv.counter ∧
      (update_resize_block env polv).refresh = polv.refresh ∧
      (update_resize_block env polv).sats = polv.sats ∧
      (update_resize_block env polv).tstamp = polv.tstamp ∧
      (update_resize_block env polv).eventinfo = polv.eventinfo := by
  unfold update_resize_block
  split_ifs
  · unfold update_polv_size
    split_ifs
    · dsimp only
      obtain ⟨n, c, o, t, h, -⟩ := foreach_update_sat_frame env
        { polv with
          size := int_to_guint (min polv.allocation_width polv.allocation_height)
          r := (int_to_guint (min polv.allocation_width polv.allocation_height) / 2 +
            (2 ^ 32 - POLV_DEFAULT_MARGIN)) % 2 ^ 32
          cx := int_to_guint (Int.tdiv polv.allocation_width 2)
          cy := int_to_guint (Int.tdiv polv.allocation_height 2) }
      rw [h]
      exact ⟨rfl, rfl, rfl, rfl, rfl⟩
    · exact ⟨rfl, rfl, rfl, rfl, rfl⟩
  · exact ⟨rfl, rfl, rfl, rfl, rfl⟩

theorem update_refresh_block_fields (env : Env) (polv : GtkPolarView) :
    (update_refresh_block env polv).counter = 1 ∧
      (update_refresh_block env polv).refresh = polv.refresh ∧
      (update_refresh_block env polv).naos =
        (polv.sats.foldl (fun p e => update_next_aos e.2 p)
          { polv with counter := 1, naos := 0, ncat := 0 }).naos ∧
      (update_refresh_block env polv).ncat =
        (polv.sats.foldl (fun p e => update_next_aos e.2 p)
          { polv with counter := 1, naos := 0, ncat := 0 }).ncat := by
  unfold update_refresh_block
  dsimp only
  obtain ⟨n, c, o, t, h, hn, hc⟩ := foreach_update_sat_frame env
    { polv with counter := 1, naos := 0, ncat := 0 }
  rw [h]
  exact ⟨rfl, rfl, hn, hc⟩

theorem fold_next_aos_min (l : List (Int × sat_t)) (q : GtkPolarView) (hn : q.naos = 0)
    (hc : q.ncat = 0) (hnow : 0 ≤ q.tstamp) :
    (l.foldl (fun p e => update_next_aos e.2 p) q).tstamp = q.tstamp ∧
      ((∀ e ∈ l, ¬ e.2.aos > q.tstamp) →
        (l.foldl (fun p e => update_next_aos e.2 p) q).naos = 0 ∧
          (l.foldl (fun p e => update_next_aos e.2 p) q).ncat = 0) ∧
      ((∃ e ∈ l, e.2.aos > q.tstamp) →
        (∃ e ∈ l, e.2.aos > q.tstamp ∧
            (l.foldl (fun p e => update_next_aos e.2 p) q).naos = e.2.aos ∧
            (l.foldl (fun p e => update_next_aos e.2 p) q).ncat = e.2.catnr) ∧
          ∀ e ∈ l, e.2.aos > q.tstamp →
            (l.foldl (fun p e => update_next_aos e.2 p) q).naos ≤ e.2.aos) := by
  induction l using List.reverseRecOn with
  | nil =>
    refine ⟨rfl, fun _ => ⟨hn, hc⟩, ?_⟩
    rintro ⟨e, he, -⟩
    simp at he
  | append_singleton l x ih =>
    obtain ⟨ih1, ih2, ih3⟩ := ih
    rw [List.foldl_append, List.foldl_cons, List.foldl_nil]
    generalize l.foldl (fun p e => update_next_aos e.2 p) q = r at ih1 ih2 ih3 ⊢
    unfold update_next_aos
    dsimp only
    rw [ih1]
    by_cases hx : x.2.aos > q.tstamp
    · rw [if_pos hx]
      by_cases hex : ∃ e ∈ l, e.2.aos > q.tstamp
      · obtain ⟨⟨e0, he0, hc0, hn0, hcat0⟩, hmin⟩ := ih3 hex
        have hr0 : r.naos ≠ 0 := by
          rw [hn0]
          intro h0
          rw [h0] at hc0
          exact absurd hnow (not_le.mpr hc0)
        by_cases hlt : x.2.aos < r.naos
        · rw [if_pos (Or.inl hlt)]
          refine ⟨rfl, ?_, ?_⟩
          · intro hall
            exact absurd hx (hall x (by simp))
          · intro _
            refine ⟨⟨x, by simp, hx, rfl, rfl⟩, ?_⟩
            intro e he hce
            rw [List.mem_append, List.mem_singleton] at he
            rcases he with he | he
            · exact le_trans hlt.le (hmin e he hce)
            · rw [he]
        · rw [if_neg (by rintro (h | h); exact hlt h; exact hr0 h)]
          refine ⟨ih1, ?_, ?_⟩
          · intro hall
            exact absurd hx (hall x (by simp))
          · intro _
            refine ⟨⟨e0, by simp [he0], hc0, hn0, hcat0⟩, ?_⟩
            intro e he hce
            rw [List.mem_append, List.mem_singleton] at he
            rcases he with he | he
            · exact hmin e he hce
            · rw [he]
              exact not_lt.mp hlt
      · have hnone : ∀ e ∈ l, ¬ e.2.aos > q.tstamp := by
          intro e he hce
          exact hex ⟨e, he, hce⟩
        obtain ⟨hr0, -⟩ := ih2 hnone
        rw [if_pos (Or.inr hr0)]
        refine ⟨rfl, ?_, ?_⟩
        · intro hall
          exact absurd hx (hall x (by simp))
        · intro _
          refine ⟨⟨x, by simp, hx, rfl, rfl⟩, ?_⟩
          intro e he hce
          rw [List.mem_append, List.mem_singleton] at he
          rcases he with he | he
          · exact absurd hce (hnone e he)
          · rw [he]
    · rw [if_neg hx]
      refine ⟨ih1, ?_, ?_⟩
      · intro hall
        exact ih2 (fun e he => hall e (by simp [he]))
      · rintro ⟨e, he, hce⟩
        rw [List.mem_append, List.mem_singleton] at he
        have hel : e ∈ l := by
          rcases he with he | he
          · exact he
          · rw [he] at hce
            exact absurd hce hx
        obtain ⟨⟨e0, he0, hc0, hn0, hcat0⟩, hmin⟩ := ih3 ⟨e, hel, hce⟩
        refine ⟨⟨e0, by simp [he0], hc0, hn0, hcat0⟩, ?_⟩
        intro e2 he2 hce2
        rw [List.mem_append, List.mem_singleton] at he2
        rcases he2 with he2 | he2
        · exact hmin e2 he2 hce2
        · rw [he2] at hce2
          exact absurd hce2 hx

theorem update_is_refresh (env : Env) (polv : GtkPolarView)
    (hc : ¬ polv.counter < polv.refresh) :
    gtk_polar_view_update env polv =
      update_refresh_block env (update_resize_block env polv) := by
  obtain ⟨h1, h2, -⟩ := update_resize_block_frame env polv
  unfold gtk_polar_view_update
  dsimp only
  rw [h1, h2, if_neg hc]

theorem update_is_increment (env : Env) (polv : GtkPolarView)
    (hc : polv.counter < polv.refresh) :
    gtk_polar_view_update env polv =
      { update_resize_block env polv with counter := polv.counter + 1 } := by
  obtain ⟨h1, h2, -⟩ := update_resize_block_frame env polv
  unfold gtk_polar_view_update
  dsimp only
  rw [h1, h2, if_pos hc]

/-- C12, the claim as stated fails: at the time -1, with a catalogue whose first
satellite has its next AOS at 0 and whose second has it at 5, a real refresh
leaves `naos = 5` and `ncat = 2`, although the AOS at 0 is later than now: the
value 0.0 of `naos` stands for "no next event yet" and is overwritten. -/
theorem next_event_at_negative_time :
    ((1 : Int), ({ catnr := 1, aos := 0, el := -1 } : sat_t)) ∈ early_view.sats ∧
      (0 : ℝ) > early_view.tstamp ∧
      (gtk_polar_view_update scenario_env early_view).naos = 5 ∧
      (gtk_polar_view_update scenario_env early_view).ncat = 2 := by
  refine ⟨by simp [early_view], by norm_num [early_view], ?_⟩
  rw [update_is_refresh scenario_env early_view (by decide)]
  obtain ⟨-, -, hs, ht, -⟩ := update_resize_block_frame scenario_env early_view
  generalize update_resize_block scenario_env early_view = p1 at hs ht ⊢
  obtain ⟨-, -, hn, hk⟩ := update_refresh_block_fields scenario_env p1
  have ht1 : p1.tstamp = -1 := ht
  have hs1 : p1.sats =
      [(1, { catnr := 1, aos := 0, el := -1 }), (2, { catnr := 2, aos := 5, el := -1 })] := hs
  rw [hn, hk, hs1]
  norm_num [update_next_aos, ht1]

/-- C12, amended. Next event: after a real refresh at a time now >= 0 over any
catalogue, if some satellite (visible, invisible or decayed) has `aos > now`
then `naos` is the minimum of all such `aos` values and `ncat` is the catalogue
number of a satellite attaining it; if no satellite has `aos > now`, `ncat` is 0
(no next event). -/
theorem next_event (env : Env) (polv : GtkPolarView)
    (hc : ¬ polv.counter < polv.refresh) (hnow : 0 ≤ polv.tstamp) :
    ((∃ e ∈ polv.sats, e.2.aos > polv.tstamp) →
        (∃ e ∈ polv.sats, e.2.aos > polv.tstamp ∧
            (gtk_polar_view_update env polv).naos = e.2.aos ∧
            (gtk_polar_view_update env polv).ncat = e.2.catnr) ∧
          ∀ e ∈ polv.sats, e.2.aos > polv.tstamp →
            (gtk_polar_view_update env polv).naos ≤ e.2.aos) ∧
      ((∀ e ∈ polv.sats, ¬ e.2.aos > polv.tstamp) →
        (gtk_polar_view_update env polv).ncat = 0) := by
  rw [update_is_refresh env polv hc]
  obtain ⟨-, -, hs, ht, -⟩ := update_resize_block_frame env polv
  generalize update_resize_block env polv = p1 at hs ht ⊢
  obtain ⟨-, -, hn, hk⟩ := update_refresh_block_fields env p1
  obtain ⟨-, m1, m2⟩ := fold_next_aos_min p1.sats
    { p1 with counter := 1, naos := 0, ncat := 0 } rfl rfl
    (by show 0 ≤ p1.tstamp; rw [ht]; exact hnow)
  dsimp only at m1 m2
  rw [hn, hk, ← hs, ← ht]
  exact ⟨m2, fun h => (m1 h).2⟩

/-- Witness of the amended C12: at the time 50, with next AOS at 100 for the
satellite 7 and at 60 for the satellite 8, a real refresh leaves a next event
that is one of the two and is not later than 60. -/
theorem next_event_witness :
    (∃ e ∈ catalogue_view.sats, e.2.aos > catalogue_view.tstamp ∧
        (gtk_polar_view_update scenario_env catalogue_view).naos = e.2.aos ∧
        (gtk_polar_view_update scenario_env catalogue_view).ncat = e.2.catnr) ∧
      (gtk_polar_view_update scenario_env catalogue_view).naos ≤ 60 := by
  obtain ⟨h, -⟩ := next_event scenario_env catalogue_view (by decide)
    (by norm_num [catalogue_view])
  obtain ⟨h1, h2⟩ := h ⟨(8, { catnr := 8, aos := 60, el := -1 }), by simp [catalogue_view],
    by norm_num [catalogue_view]⟩
  exact ⟨h1, h2 (8, { catnr := 8, aos := 60, el := -1 }) (by simp [catalogue_view])
    (by norm_num [catalogue_view])⟩

/-! ### Refresh cadence -/

theorem succ_mod_cases (k N : ℕ) (hN : 1 ≤ N) :
    (k % N + 1 < N ∧ (k + 1) % N = k % N + 1) ∨ (k % N + 1 = N ∧ (k + 1) % N = 0) := by
  have hr : k % N < N := Nat.mod_lt k hN
  have hk : (k + 1) % N = (k % N + 1) % N := by
    rw [Nat.add_mod]
    by_cases h1 : N = 1
    · subst h1
      simp [Nat.mod_one]
    · rw [Nat.mod_eq_of_lt (show 1 < N by omega)]
  by_cases h : k % N + 1 < N
  · left
    exact ⟨h, by rw [hk, Nat.mod_eq_of_lt h]⟩
  · right
    have he : k % N + 1 = N := by omega
    exact ⟨he, by rw [hk, he, Nat.mod_self]⟩

theorem update_counter (env : Env) (polv : GtkPolarView) :
    (gtk_polar_view_update env polv).counter =
        (if polv.counter < polv.refresh then polv.counter + 1 else 1) ∧
      (gtk_polar_view_update env polv).refresh = polv.refresh := by
  obtain ⟨-, h2, -⟩ := update_resize_block_frame env polv
  by_cases hc : polv.counter < polv.refresh
  · rw [update_is_increment env polv hc, if_pos hc]
    exact ⟨rfl, h2⟩
  · obtain ⟨h3, h4, -⟩ := update_refresh_block_fields env (update_resize_block env polv)
    rw [update_is_refresh env polv hc, if_neg hc, h3, h4]
    exact ⟨rfl, h2⟩

theorem iterate_update_refresh (env : Env) (polv : GtkPolarView) (k : ℕ) :
    ((gtk_polar_view_update env)^[k] polv).refresh = polv.refresh := by
  induction k with
  | zero => rfl
  | succ k ih => rw [Function.iterate_succ_apply', (update_counter env _).2, ih]

/-- C16, the claim as stated fails: with refresh rate 2 and the counter at 1, the
first call of `gtk_polar_view_update` is not a real refresh, but with a resize
pending it does more than increment the counter: it handles the resize, which
here moves the centre from 150 to 200 and clears the flag. -/
theorem cadence_with_pending_resize :
    resize_pending_view.counter = 1 ∧ resize_pending_view.refresh = 2 ∧
      resize_pending_view.cx = 150 ∧
      (gtk_polar_view_update scenario_env resize_pending_view).counter = 2 ∧
      (gtk_polar_view_update scenario_env resize_pending_view).cx = 200 ∧
      gtk_polar_view_update scenario_env resize_pending_view ≠
        { resize_pending_view with counter := resize_pending_view.counter + 1 } := by
  have hcx : (gtk_polar_view_update scenario_env resize_pending_view).cx = 200 := by
    rw [update_is_increment scenario_env resize_pending_view (by decide)]
    rfl
  refine ⟨rfl, rfl, rfl, (update_counter scenario_env resize_pending_view).1, hcx, ?_⟩
  intro h
  have h2 := congrArg GtkPolarView.cx h
  rw [hcx] at h2
  exact absurd h2 (by decide)

/-- C16, amended. Refresh cadence: with refresh rate N >= 1 and the cycle counter
starting at 1, whatever happens to the other fields between the calls, the
counter before call number k + 1 is k mod N + 1; call number k + 1 of
`gtk_polar_view_update` performs a real refresh (`update_refresh_block`: resets
naos/ncat and updates every satellite) if and only if k + 1 is a multiple of N;
every other call only increments the counter, once a pending resize, if any,
has been handled (`update_resize_block`); the counter stays in 1..N. -/
theorem refresh_cadence (N : ℕ) (hN : 1 ≤ N) (env : ℕ → Env) (pre : ℕ → GtkPolarView)
    (h0 : (pre 0).counter = 1) (hrate : ∀ k, (pre k).refresh = N)
    (hnext : ∀ k, (pre (k + 1)).counter = (gtk_polar_view_update (env k) (pre k)).counter)
    (k : ℕ) :
    (pre k).counter = k % N + 1 ∧
      ((k + 1) % N = 0 →
        gtk_polar_view_update (env k) (pre k) =
          update_refresh_block (env k) (update_resize_block (env k) (pre k))) ∧
      ((k + 1) % N ≠ 0 →
        gtk_polar_view_update (env k) (pre k) =
          { update_resize_block (env k) (pre k) with counter := (pre k).counter + 1 }) ∧
      1 ≤ (gtk_polar_view_update (env k) (pre k)).counter ∧
      (gtk_polar_view_update (env k) (pre k)).counter ≤ N := by
  have hcount : ∀ j, (pre j).counter = j % N + 1 := by
    intro j
    induction j with
    | zero => rw [h0, Nat.zero_mod]
    | succ j ih =>
      rw [hnext j, (update_counter (env j) (pre j)).1, hrate j, ih]
      rcases succ_mod_cases j N hN with ⟨h1, h2⟩ | ⟨h1, h2⟩
      · rw [if_pos h1, h2]
      · rw [if_neg (by omega), h2]
  have hk := hcount k
  rcases succ_mod_cases k N hN with ⟨h1, h2⟩ | ⟨h1, h2⟩
  · have hc : (pre k).counter < (pre k).refresh := by rw [hk, hrate k]; exact h1
    refine ⟨hk, fun h => ?_, fun _ => update_is_increment (env k) (pre k) hc, ?_, ?_⟩
    · rw [h2] at h
      omega
    · rw [(update_counter (env k) (pre k)).1, if_pos hc]
      omega
    · rw [(update_counter (env k) (pre k)).1, if_pos hc, hk]
      omega
  · have hc : ¬ (pre k).counter < (pre k).refresh := by rw [hk, hrate k]; omega
    refine ⟨hk, fun _ => update_is_refresh (env k) (pre k) hc, fun h => absurd h2 h, ?_, ?_⟩
    · rw [(update_counter (env k) (pre k)).1, if_neg hc]
    · rw [(update_counter (env k) (pre k)).1, if_neg hc]
      exact hN

/-- Witness of the amended C16 with refresh rate 2: the second call is a real
refresh and leaves the counter at 1. -/
theorem refresh_cadence_witness :
    ((gtk_polar_view_update scenario_env)^[1] cadence_view).counter = 1 % 2 + 1 ∧
      gtk_polar_view_update scenario_env ((gtk_polar_view_update scenario_env)^[1] cadence_view) =
        update_refresh_block scenario_env
          (update_resize_block scenario_env
            ((gtk_polar_view_update scenario_env)^[1] cadence_view)) := by
  obtain ⟨h1, h2, -⟩ := refresh_cadence 2 (by decide) (fun _ => scenario_env)
    (fun k => (gtk_polar_view_update scenario_env)^[k] cadence_view) rfl
    (fun k => iterate_update_refresh scenario_env cadence_view k)
    (fun k => by dsimp only; rw [Function.iterate_succ_apply']) 1
  exact ⟨h1, h2 (by decide)⟩

/-! ### Selection -/

theorem lookup_some_mem {α : Type} (t : List (Int × α)) (k : Int) (o : α)
    (h : g_hash_table_lookup t k = some o) : (k, o) ∈ t := by
  induction t with
  | nil => simp [g_hash_table_lookup] at h
  | cons e t ih =>
    obtain ⟨a, b⟩ := e
    unfold g_hash_table_lookup at h ih
    by_cases hk : k = a
    · subst hk
      rw [List.lookup_cons_self] at h
      cases h
      exact List.mem_cons_self _ _
    · rw [lookup_cons_ne _ _ _ _ hk] at h
      exact List.mem_cons_of_mem _ (ih h)

theorem lookup_none_iff {α : Type} (t : List (Int × α)) (k : Int) :
    g_hash_table_lookup t k = none ↔ k ∉ t.map Prod.fst := by
  induction t with
  | nil => simp [g_hash_table_lookup]
  | cons e t ih =>
    obtain ⟨a, b⟩ := e
    unfold g_hash_table_lookup at ih ⊢
    by_cases hk : k = a
    · subst hk
      simp
    · rw [lookup_cons_ne _ _ _ _ hk, ih]
      simp [hk]

theorem mem_unique_of_nodup {α : Type} (t : List (Int × α)) (k : Int) (o1 o2 : α)
    (hn : (t.map Prod.fst).Nodup) (h1 : (k, o1) ∈ t) (h2 : (k, o2) ∈ t) : o1 = o2 := by
  induction t with
  | nil => simp at h1
  | cons e t ih =>
    rw [List.map_cons, List.nodup_cons] at hn
    rw [List.mem_cons] at h1 h2
    rcases h1 with h1 | h1 <;> rcases h2 with h2 | h2
    · rw [← h1] at h2
      exact (Prod.mk.inj h2).2.symm
    · exfalso
      apply hn.1
      rw [← h1]
      exact List.mem_map.mpr ⟨(k, o2), h2, rfl⟩
    · exfalso
      apply hn.1
      rw [← h2]
      exact List.mem_map.mpr ⟨(k, o1), h1, rfl⟩
    · exact ih hn.2 h1 h2

theorem obj_write_keys (t : List (Int × sat_obj_t)) (k : Int) (v : sat_obj_t) :
    (obj_write t k v).map Prod.fst = t.map Prod.fst := by
  unfold obj_write
  rw [List.map_map]
  apply List.map_congr_left
  intro e _
  dsimp only [Function.comp]
  split_ifs <;> rfl

theorem foreach_clear_keys (t : List (Int × sat_obj_t)) (c : Int) :
    (foreach_clear_selection t c).map Prod.fst = t.map Prod.fst := by
  unfold foreach_clear_selection
  rw [List.map_map]
  rfl

theorem countP_le_one_of_key (t : List (Int × sat_obj_t)) (k : Int)
    (hn : (t.map Prod.fst).Nodup) (h : ∀ e ∈ t, e.2.selected = true → e.1 = k) :
    single_selection t := by
  unfold single_selection
  calc t.countP (fun e => e.2.selected)
      ≤ t.countP (fun e => e.1 == k) :=
        List.countP_mono_left (fun e he hs => by simpa using h e he hs)
    _ = (t.map Prod.fst).countP (fun a => a == k) := by
        rw [List.countP_map]
        rfl
    _ = (t.map Prod.fst).count k := (List.count_eq_countP k _).symm
    _ ≤ 1 := List.nodup_iff_count_le_one.mp hn k

theorem select_sat_keys (polv : GtkPolarView) (c : Int) :
    (gtk_polar_view_select_sat polv c).obj.map Prod.fst = polv.obj.map Prod.fst := by
  unfold gtk_polar_view_select_sat
  dsimp only
  rw [foreach_clear_keys]
  split
  · rfl
  · exact obj_write_keys _ _ _

theorem select_sat_entries (polv : GtkPolarView) (c : Int) (e2 : Int × sat_obj_t)
    (he : e2 ∈ (gtk_polar_view_select_sat polv c).obj) :
    (e2.1 ≠ c → e2.2.selected = false) ∧ (e2.1 = c → e2.2.selected = true) ∧
      ((∀ e ∈ polv.obj, e.2.catnum = e.1) → e2.2.catnum = e2.1) := by
  unfold gtk_polar_view_select_sat at he
  dsimp only at he
  unfold foreach_clear_selection at he
  rw [List.mem_map] at he
  obtain ⟨e1, he1, rfl⟩ := he
  dsimp only
  have hclear : ∀ (k : Int) (o : sat_obj_t), k ≠ c → (clear_selection k o c).selected = false := by
    intro k o hk
    unfold clear_selection
    by_cases hs : o.selected = true
    · rw [if_pos ⟨hk, hs⟩]
    · rw [if_neg (fun h => hs h.2)]
      simpa using hs
  have hkeep : ∀ (o : sat_obj_t), clear_selection c o c = o := by
    intro o
    unfold clear_selection
    rw [if_neg (fun h => h.1 rfl)]
  have hcat : ∀ (k : Int) (o : sat_obj_t), (clear_selection k o c).catnum = o.catnum := by
    intro k o
    unfold clear_selection
    split_ifs <;> rfl
  cases hl : g_hash_table_lookup polv.obj c with
  | none =>
    rw [hl] at he1
    dsimp only at he1
    have hne : e1.1 ≠ c := by
      intro h
      rw [lookup_none_iff] at hl
      exact hl (h ▸ List.mem_map_of_mem Prod.fst he1)
    refine ⟨fun _ => hclear _ _ hne, fun h => absurd h hne, fun hall => ?_⟩
    rw [hcat]
    exact hall e1 he1
  | some o =>
    rw [hl] at he1
    dsimp only at he1
    unfold obj_write at he1
    rw [List.mem_map] at he1
    obtain ⟨e0, he0, rfl⟩ := he1
    by_cases hk : e0.1 = c
    · have hb : (e0.1 == c) = true := by simpa using hk
      simp only [hb, if_true]
      refine ⟨fun h => absurd hk h, fun _ => ?_, fun hall => ?_⟩
      · rw [hk, hkeep]
      · rw [hcat]
        show o.catnum = e0.1
        rw [hk]
        exact hall (c, o) (lookup_some_mem _ _ _ hl)
    · have hb : (e0.1 == c) = false := by simpa using hk
      simp only [hb, Bool.false_eq_true, if_false]
      refine ⟨fun _ => hclear _ _ hk, fun h => absurd h hk, fun hall => ?_⟩
      rw [hcat]
      exact hall e0 he0

/-- C13. Selection exclusivity: for an object table and two distinct catalogue
numbers A and B that are both present in it, after
`gtk_polar_view_select_sat (A)` followed by `gtk_polar_view_select_sat (B)` the
object of B has `selected = true` and every other object, the one of A
included, has `selected = false`. -/
theorem selection_exclusivity (polv : GtkPolarView) (a b : Int) (oa ob : sat_obj_t)
    (ha : g_hash_table_lookup polv.obj a = some oa)
    (hb : g_hash_table_lookup polv.obj b = some ob) (hab : a ≠ b) :
    (∃ o : sat_obj_t,
        g_hash_table_lookup
          (gtk_polar_view_select_sat (gtk_polar_view_select_sat polv a) b).obj b = some o ∧
        o.selected = true) ∧
      (∃ o : sat_obj_t,
        g_hash_table_lookup
          (gtk_polar_view_select_sat (gtk_polar_view_select_sat polv a) b).obj a = some o ∧
        o.selected = false) ∧
      ∀ e ∈ (gtk_polar_view_select_sat (gtk_polar_view_select_sat polv a) b).obj,
        e.1 ≠ b → e.2.selected = false := by
  have hkeys : (gtk_polar_view_select_sat (gtk_polar_view_select_sat polv a) b).obj.map Prod.fst
      = polv.obj.map Prod.fst := by
    rw [select_sat_keys, select_sat_keys]
  have hpresent : ∀ (k : Int) (o0 : sat_obj_t), g_hash_table_lookup polv.obj k = some o0 →
      ∃ o, g_hash_table_lookup
        (gtk_polar_view_select_sat (gtk_polar_view_select_sat polv a) b).obj k = some o := by
    intro k o0 hk
    cases hl : g_hash_table_lookup
        (gtk_polar_view_select_sat (gtk_polar_view_select_sat polv a) b).obj k with
    | some o => exact ⟨o, rfl⟩
    | none =>
      exfalso
      rw [lookup_none_iff, hkeys] at hl
      exact hl (List.mem_map.mpr ⟨(k, o0), lookup_some_mem _ _ _ hk, rfl⟩)
  refine ⟨?_, ?_, ?_⟩
  · obtain ⟨o, ho⟩ := hpresent b ob hb
    exact ⟨o, ho, (select_sat_entries _ b (b, o) (lookup_some_mem _ _ _ ho)).2.1 rfl⟩
  · obtain ⟨o, ho⟩ := hpresent a oa ha
    exact ⟨o, ho, (select_sat_entries _ b (a, o) (lookup_some_mem _ _ _ ho)).1 hab⟩
  · intro e he hne
    exact (select_sat_entries _ b e he).1 hne

/-- Witness of C13 on a table with the objects 7, 8 and 9, of which 9 is
selected: after selecting 7 and then 8, the object 8 is selected, 7 is not. -/
theorem selection_exclusivity_witness :
    (∃ o : sat_obj_t,
        g_hash_table_lookup
          (gtk_polar_view_select_sat (gtk_polar_view_select_sat three_obj_view 7) 8).obj 8 =
            some o ∧ o.selected = true) ∧
      (∃ o : sat_obj_t,
        g_hash_table_lookup
          (gtk_polar_view_select_sat (gtk_polar_view_select_sat three_obj_view 7) 8).obj 7 =
            some o ∧ o.selected = false) := by
  obtain ⟨h1, h2, -⟩ := selection_exclusivity three_obj_view 7 8
    { catnum := 7, x := 100, y := 100 } { catnum := 8, x := 200, y := 100 } rfl rfl
    (by decide)
  exact ⟨h1, h2⟩

theorem obj_write_append_absent (t : List (Int × sat_obj_t)) (k : Int) (o o2 : sat_obj_t)
    (h : g_hash_table_lookup t k = none) :
    obj_write (t ++ [(k, o)]) k o2 = t ++ [(k, o2)] := by
  rw [lookup_none_iff] at h
  unfold obj_write
  rw [List.map_append]
  congr 1
  · conv_rhs => rw [← List.map_id t]
    apply List.map_congr_left
    intro e he
    have hne : e.1 ≠ k := fun hk => h (hk ▸ List.mem_map_of_mem Prod.fst he)
    have hb : (e.1 == k) = false := by simpa using hne
    simp [hb]
  · simp

theorem insert_absent (t : List (Int × sat_obj_t)) (k : Int) (o : sat_obj_t)
    (h : g_hash_table_lookup t k = none) :
    g_hash_table_insert t k o = t ++ [(k, o)] := by
  unfold g_hash_table_insert
  unfold g_hash_table_lookup at h
  rw [h]
  simp

/-- The effect of `update_sat` on the object table: it is left as it is, or the
entry of the satellite is removed, or the object of the satellite is modified in
place and keeps `selected` and `catnum`, or an unselected object is added for a
satellite that had none. -/
theorem update_sat_obj_cases (env : Env) (sat : sat_t) (polv : GtkPolarView) :
    (update_sat env sat polv).obj = polv.obj ∨
    (update_sat env sat polv).obj = g_hash_table_remove polv.obj sat.catnr ∨
    (∃ o o2 : sat_obj_t, g_hash_table_lookup polv.obj sat.catnr = some o ∧
      o2.selected = o.selected ∧ o2.catnum = o.catnum ∧
      (update_sat env sat polv).obj = obj_write polv.obj sat.catnr o2) ∨
    (∃ o2 : sat_obj_t, g_hash_table_lookup polv.obj sat.catnr = none ∧
      o2.selected = false ∧ o2.catnum = sat.catnr ∧
      (update_sat env sat polv).obj = polv.obj ++ [(sat.catnr, o2)]) := by
  obtain ⟨hobj, -⟩ := update_next_aos_frame sat polv
  unfold update_sat
  dsimp only
  generalize update_next_aos sat polv = polv1 at hobj ⊢
  rw [← hobj]
  by_cases hvis : sat.el < 0 ∨ env.decayed sat = true
  · simp only [if_pos hvis]
    cases hl : g_hash_table_lookup polv1.obj sat.catnr with
    | none => exact Or.inl rfl
    | some obj =>
      refine Or.inr (Or.inl ?_)
      dsimp only
      split_ifs <;> rfl
  · simp only [if_neg hvis]
    cases hl : g_hash_table_lookup polv1.obj sat.catnr with
    | some obj =>
      refine Or.inr (Or.inr (Or.inl ?_))
      dsimp only
      rcases Bool.eq_false_or_eq_true obj.selected with hsel | hsel
      · simp only [if_pos hsel]
        refine ⟨obj, _, rfl, ?_, ?_, rfl⟩
        · split
          · split_ifs <;> first | rfl | rw [(create_track_frame env _ _ sat).2.2.2.1]
          · rfl
        · split
          · split_ifs <;> first | rfl | rw [(create_track_frame env _ _ sat).1]
          · rfl
      · have hsel2 : ¬ obj.selected = true := by
          rw [hsel]
          exact Bool.false_ne_true
        simp only [if_neg hsel2]
        refine ⟨obj, _, rfl, ?_, ?_, rfl⟩
        · split
          · split_ifs <;> first | rfl | rw [(create_track_frame env _ _ sat).2.2.2.1]
          · rfl
        · split
          · split_ifs <;> first | rfl | rw [(create_track_frame env _ _ sat).1]
          · rfl
    | none =>
      dsimp only
      by_cases halloc : env.g_try_new0 sat.catnr = true
      · refine Or.inr (Or.inr (Or.inr ?_))
        rw [if_pos halloc]
        split_ifs with hshow
        · dsimp only
          rw [insert_absent _ _ _ hl, obj_write_append_absent _ _ _ _ hl]
          refine ⟨_, rfl, ?_, ?_, rfl⟩
          · rw [(create_track_frame env _ _ sat).2.2.2.1]
          · rw [(create_track_frame env _ _ sat).1]
        · exact ⟨_, rfl, rfl, rfl, insert_absent _ _ _ hl⟩
      · refine Or.inl ?_
        rw [if_neg halloc]

theorem obj_write_entries (t : List (Int × sat_obj_t)) (k : Int) (v : sat_obj_t)
    (e : Int × sat_obj_t) (he : e ∈ obj_write t k v) :
    (e.1 = k ∧ e.2 = v) ∨ (e.1 ≠ k ∧ e ∈ t) := by
  unfold obj_write at he
  rw [List.mem_map] at he
  obtain ⟨e0, he0, rfl⟩ := he
  by_cases hk : e0.1 = k
  · have hb : (e0.1 == k) = true := by simpa using hk
    rw [if_pos hb]
    exact Or.inl ⟨hk, rfl⟩
  · have hb : (e0.1 == k) = false := by simpa using hk
    rw [if_neg (by rw [hb]; exact Bool.false_ne_true)]
    exact Or.inr ⟨hk, he0⟩

theorem foreach_clear_entries (t : List (Int × sat_obj_t)) (c : Int) (e : Int × sat_obj_t)
    (he : e ∈ foreach_clear_selection t c) :
    (e.2.selected = true → e.1 = c) ∧
      ∃ e0 ∈ t, e.1 = e0.1 ∧ e.2.catnum = e0.2.catnum := by
  unfold foreach_clear_selection at he
  rw [List.mem_map] at he
  obtain ⟨e0, he0, rfl⟩ := he
  dsimp only
  constructor
  · intro hs
    by_contra hne
    unfold clear_selection at hs
    by_cases h0 : e0.2.selected = true
    · rw [if_pos ⟨hne, h0⟩] at hs
      exact Bool.false_ne_true hs
    · rw [if_neg (fun h => h0 h.2)] at hs
      exact h0 hs
  · refine ⟨e0, he0, rfl, ?_⟩
    unfold clear_selection
    split_ifs <;> rfl

theorem table_ok_obj_write (t : List (Int × sat_obj_t)) (k : Int) (v : sat_obj_t)
    (hok : table_ok t) (hv : v.catnum = k) : table_ok (obj_write t k v) := by
  refine ⟨by rw [obj_write_keys]; exact hok.1, ?_⟩
  intro e he
  rcases obj_write_entries t k v e he with ⟨h1, h2⟩ | ⟨-, h2⟩
  · rw [h2, h1, hv]
  · exact hok.2 e h2

theorem table_ok_foreach_clear (t : List (Int × sat_obj_t)) (c : Int) (hok : table_ok t) :
    table_ok (foreach_clear_selection t c) := by
  refine ⟨by rw [foreach_clear_keys]; exact hok.1, ?_⟩
  intro e he
  obtain ⟨-, e0, he0, h1, h2⟩ := foreach_clear_entries t c e he
  rw [h1, h2]
  exact hok.2 e0 he0

theorem single_selection_foreach_clear (t : List (Int × sat_obj_t)) (c : Int)
    (hn : (t.map Prod.fst).Nodup) : single_selection (foreach_clear_selection t c) := by
  apply countP_le_one_of_key _ c
  · rw [foreach_clear_keys]
    exact hn
  · intro e he hs
    exact (foreach_clear_entries t c e he).1 hs

theorem table_ok_remove (t : List (Int × sat_obj_t)) (k : Int) (hok : table_ok t) :
    table_ok (g_hash_table_remove t k) := by
  unfold g_hash_table_remove
  refine ⟨?_, ?_⟩
  · exact hok.1.sublist (List.Sublist.map _ (List.filter_sublist _))
  · intro e he
    exact hok.2 e (List.mem_of_mem_filter he)

theorem single_selection_remove (t : List (Int × sat_obj_t)) (k : Int)
    (hs : single_selection t) : single_selection (g_hash_table_remove t k) := by
  unfold g_hash_table_remove single_selection
  exact le_trans (List.Sublist.countP_le _ (List.filter_sublist _)) hs

theorem countP_obj_write (t : List (Int × sat_obj_t)) (k : Int) (o v : sat_obj_t)
    (hn : (t.map Prod.fst).Nodup) (hl : g_hash_table_lookup t k = some o)
    (hv : v.selected = o.selected) :
    (obj_write t k v).countP (fun e => e.2.selected) = t.countP (fun e => e.2.selected) := by
  unfold obj_write
  rw [List.countP_map]
  apply List.countP_congr
  intro e he
  by_cases hk : e.1 = k
  · have hb : (e.1 == k) = true := by simpa using hk
    have heq : e = (k, o) := by
      have h1 : (k, e.2) ∈ t := by
        rw [← hk]
        exact he
      rw [← mem_unique_of_nodup t k e.2 o hn h1 (lookup_some_mem t k o hl), ← hk]
    simp only [Function.comp, hb, if_true, hv]
    rw [heq]
  · have hb : (e.1 == k) = false := by simpa using hk
    simp only [Function.comp, hb, Bool.false_eq_true, if_false]

theorem table_ok_append (t : List (Int × sat_obj_t)) (k : Int) (v : sat_obj_t)
    (hok : table_ok t) (hl : g_hash_table_lookup t k = none) (hv : v.catnum = k) :
    table_ok (t ++ [(k, v)]) := by
  rw [lookup_none_iff] at hl
  refine ⟨?_, ?_⟩
  · rw [List.map_append, List.nodup_append]
    refine ⟨hok.1, by simp, ?_⟩
    intro a ha hb
    simp only [List.map_cons, List.map_nil, List.mem_singleton] at hb
    exact hl (hb ▸ ha)
  · intro e he
    rw [List.mem_append, List.mem_singleton] at he
    rcases he with he | he
    · exact hok.2 e he
    · rw [he]
      exact hv

theorem single_selection_append (t : List (Int × sat_obj_t)) (k : Int) (v : sat_obj_t)
    (hs : single_selection t) (hv : v.selected = false) :
    single_selection (t ++ [(k, v)]) := by
  unfold single_selection at hs ⊢
  rw [List.countP_append]
  simpa [List.countP_cons, hv] using hs

/-- The effect of `on_button_release` on the object table: it is left as it is,
or the selection of one entry of the table is toggled and then
`clear_selection` runs over the table. -/
theorem on_button_release_obj (polv : GtkPolarView) (event : GdkEventButton) :
    (on_button_release polv event).obj = polv.obj ∨
    ∃ (key : Int) (obj : sat_obj_t) (c : Int), (key, obj) ∈ polv.obj ∧
      (on_button_release polv event).obj =
        foreach_clear_selection
          (obj_write polv.obj key { obj with selected := !obj.selected }) c := by
  unfold on_button_release
  by_cases hb : event.button ≠ 1
  · rw [if_pos hb]
    exact Or.inl rfl
  · rw [if_neg hb]
    cases hf : find_sat_at_pos (some polv.obj) event.x event.y with
    | none => exact Or.inl rfl
    | some e =>
      obtain ⟨key, obj⟩ := e
      refine Or.inr ?_
      have hmem : (key, obj) ∈ polv.obj := by
        unfold find_sat_at_pos at hf
        exact List.mem_of_find?_eq_some hf
      dsimp only
      split_ifs
      · exact ⟨key, obj, 0, hmem, rfl⟩
      · exact ⟨key, obj, obj.catnum, hmem, rfl⟩

/-- C14. Single-selection invariant: on an object table in which a catalogue
number is the key of at most one entry and every object is stored under its own
catalogue number, "at most one tracked object has `selected = true`" is
preserved, together with the table invariant, by the refresh `update_sat` of
any satellite, by `gtk_polar_view_select_sat` for any catalogue number, present
or absent, and by the click handler `on_button_release` for any event, whether
it hits an object or not and whether the toggle selects or deselects. -/
theorem single_selection_invariant (env : Env) (polv : GtkPolarView)
    (hok : table_ok polv.obj) (hsel : single_selection polv.obj) :
    (∀ sat : sat_t, table_ok (update_sat env sat polv).obj ∧
        single_selection (update_sat env sat polv).obj) ∧
      (∀ catnum : Int, table_ok (gtk_polar_view_select_sat polv catnum).obj ∧
        single_selection (gtk_polar_view_select_sat polv catnum).obj) ∧
      (∀ event : GdkEventButton, table_ok (on_button_release polv event).obj ∧
        single_selection (on_button_release polv event).obj) := by
  refine ⟨?_, ?_, ?_⟩
  · intro sat
    rcases update_sat_obj_cases env sat polv with h | h | ⟨o, o2, hl, h1, h2, h⟩ |
      ⟨o2, hl, h1, h2, h⟩
    · rw [h]
      exact ⟨hok, hsel⟩
    · rw [h]
      exact ⟨table_ok_remove _ _ hok, single_selection_remove _ _ hsel⟩
    · rw [h]
      refine ⟨table_ok_obj_write _ _ _ hok ?_, ?_⟩
      · rw [h2]
        exact hok.2 (sat.catnr, o) (lookup_some_mem _ _ _ hl)
      · unfold single_selection
        rw [countP_obj_write _ _ o o2 hok.1 hl h1]
        exact hsel
    · rw [h]
      exact ⟨table_ok_append _ _ _ hok hl h2, single_selection_append _ _ _ hsel h1⟩
  · intro catnum
    refine ⟨⟨?_, ?_⟩, ?_⟩
    · rw [select_sat_keys]
      exact hok.1
    · intro e he
      exact (select_sat_entries polv catnum e he).2.2 hok.2
    · apply countP_le_one_of_key _ catnum
      · rw [select_sat_keys]
        exact hok.1
      · intro e he hs
        by_contra hne
        rw [(select_sat_entries polv catnum e he).1 hne] at hs
        exact Bool.false_ne_true hs
  · intro event
    rcases on_button_release_obj polv event with h | ⟨key, obj, c, hmem, h⟩
    · rw [h]
      exact ⟨hok, hsel⟩
    · rw [h]
      have hw : table_ok (obj_write polv.obj key { obj with selected := !obj.selected }) :=
        table_ok_obj_write _ _ _ hok (hok.2 (key, obj) hmem)
      exact ⟨table_ok_foreach_clear _ _ hw, single_selection_foreach_clear _ _ hw.1⟩

/-- Witness of C14 on the table with the objects 7, 8 and 9, of which 9 is
selected: the invariant holds before and after the refresh of a satellite that
has set, after the selection of the absent number 5, and after a click on the
marker of object 7. -/
theorem single_selection_invariant_witness :
    table_ok three_obj_view.obj ∧ single_selection three_obj_view.obj ∧
      single_selection (update_sat scenario_env set_sat three_obj_view).obj ∧
      single_selection (gtk_polar_view_select_sat three_obj_view 5).obj ∧
      single_selection
        (on_button_release three_obj_view { button := 1, x := 101, y := 99 }).obj := by
  have h1 : table_ok three_obj_view.obj := by
    simp [table_ok, three_obj_view, scenario_view]
  have h2 : single_selection three_obj_view.obj := by
    simp [single_selection, three_obj_view, scenario_view, List.countP_cons]
  have h := single_selection_invariant scenario_env three_obj_view h1 h2
  exact ⟨h1, h2, (h.1 set_sat).2, (h.2.1 5).2, (h.2.2 _).2⟩

/-! ### Resize -/

theorem azel_to_xy_due_north (p : GtkPolarView)
    (hs : p.swap = polar_view_swap_t.POLAR_VIEW_NESW) :
    azel_to_xy p 0 0 = ((p.cx : ℝ), (p.cy : ℝ) - (p.r : ℝ)) := by
  unfold azel_to_xy
  rw [if_neg (lt_irrefl 0), hs]
  simp

theorem azel_to_xy_due_south (p : GtkPolarView)
    (hs : p.swap = polar_view_swap_t.POLAR_VIEW_NESW) :
    azel_to_xy p 180 0 = ((p.cx : ℝ), (p.cy : ℝ) + (p.r : ℝ)) := by
  have h180 : de2ra * 180 = Real.pi := by
    unfold de2ra
    field_simp
  unfold azel_to_xy
  rw [if_neg (lt_irrefl 0), hs]
  simp [h180]

theorem lookup_obj_write_other (t : List (Int × sat_obj_t)) (key k : Int) (v : sat_obj_t)
    (hk : k ≠ key) :
    g_hash_table_lookup (obj_write t key v) k = g_hash_table_lookup t k := by
  induction t with
  | nil => rfl
  | cons e t ih =>
    unfold g_hash_table_lookup obj_write at *
    obtain ⟨a, b⟩ := e
    rw [List.map_cons]
    by_cases h : a = key
    · have h2 : k ≠ a := by rw [h]; exact hk
      have hb : (a == key) = true := by simpa using h
      simp only [hb, if_true]
      rw [lookup_cons_ne _ _ _ _ h2, lookup_cons_ne _ _ _ _ h2]
      exact ih
    · have hb : (a == key) = false := by simpa using h
      simp only [hb, Bool.false_eq_true, if_false]
      by_cases h3 : k = a
      · subst h3
        rw [List.lookup_cons_self, List.lookup_cons_self]
      · rw [lookup_cons_ne _ _ _ _ h3, lookup_cons_ne _ _ _ _ h3]
        exact ih

theorem lookup_append_other (t : List (Int × sat_obj_t)) (key k : Int) (v : sat_obj_t)
    (hk : k ≠ key) :
    g_hash_table_lookup (t ++ [(key, v)]) k = g_hash_table_lookup t k := by
  unfold g_hash_table_lookup
  rw [List.lookup_append, lookup_cons_ne _ _ _ _ hk]
  simp

/-- The refresh of a satellite leaves the objects of the other catalogue numbers
as they are. -/
theorem update_sat_lookup_other (env : Env) (sat : sat_t) (polv : GtkPolarView) (k : Int)
    (hk : k ≠ sat.catnr) :
    g_hash_table_lookup (update_sat env sat polv).obj k = g_hash_table_lookup polv.obj k := by
  rcases update_sat_obj_cases env sat polv with h | h | ⟨o, o2, -, -, -, h⟩ | ⟨o2, -, -, -, h⟩
  · rw [h]
  · rw [h, lookup_remove_other _ _ _ hk]
  · rw [h, lookup_obj_write_other _ _ _ _ hk]
  · rw [h, lookup_append_other _ _ _ _ hk]

theorem update_sat_qth_tstamp (env : Env) (sat : sat_t) (polv : GtkPolarView) :
    (update_sat env sat polv).qth = polv.qth ∧ (update_sat env sat polv).tstamp = polv.tstamp ∧
    (update_sat env sat polv).cx = polv.cx ∧ (update_sat env sat polv).cy = polv.cy ∧
    (update_sat env sat polv).r = polv.r ∧ (update_sat env sat polv).swap = polv.swap := by
  obtain ⟨o, t, h⟩ := update_sat_frame env sat polv
  obtain ⟨-, h1, h2, h3, h4, h5, h6, -⟩ := update_next_aos_frame sat polv
  rw [h]
  exact ⟨h1, h2, h3, h4, h5, h6⟩

theorem fold_update_sat_geometry (env : Env) (l : List (Int × sat_t)) (p : GtkPolarView) :
    (l.foldl (fun p e => update_sat env e.2 p) p).qth = p.qth ∧
    (l.foldl (fun p e => update_sat env e.2 p) p).tstamp = p.tstamp ∧
    (l.foldl (fun p e => update_sat env e.2 p) p).cx = p.cx ∧
    (l.foldl (fun p e => update_sat env e.2 p) p).cy = p.cy ∧
    (l.foldl (fun p e => update_sat env e.2 p) p).r = p.r ∧
    (l.foldl (fun p e => update_sat env e.2 p) p).swap = p.swap := by
  induction l generalizing p with
  | nil => exact ⟨rfl, rfl, rfl, rfl, rfl, rfl⟩
  | cons x l ih =>
    rw [List.foldl_cons]
    obtain ⟨h1, h2, h3, h4, h5, h6⟩ := ih (update_sat env x.2 p)
    obtain ⟨g1, g2, g3, g4, g5, g6⟩ := update_sat_qth_tstamp env x.2 p
    exact ⟨h1.trans g1, h2.trans g2, h3.trans g3, h4.trans g4, h5.trans g5, h6.trans g6⟩

/-- A run of `update_sat` over satellites keeps the pass and the track of an
object whose pass is not stale, as long as the satellites of its catalogue
number are visible. -/
theorem fold_update_sat_keeps_pass (env : Env) (l : List (Int × sat_t))
    (q polv : GtkPolarView) (k : Int) (p : pass_t) (tr : List (ℝ × ℝ))
    (hq : q.qth = polv.qth) (ht : q.tstamp = polv.tstamp)
    (hfresh : pass_needs_update env polv p polv.tstamp = false)
    (hvis : ∀ e ∈ l, e.2.catnr = k → 0 ≤ e.2.el ∧ env.decayed e.2 = false)
    (h : ∃ o : sat_obj_t, g_hash_table_lookup q.obj k = some o ∧ o.pass = some p ∧
      o.track_points = tr) :
    ∃ o2 : sat_obj_t,
      g_hash_table_lookup (l.foldl (fun p e => update_sat env e.2 p) q).obj k = some o2 ∧
      o2.pass = some p ∧ o2.track_points = tr := by
  induction l generalizing q with
  | nil => exact h
  | cons x l ih =>
    rw [List.foldl_cons]
    obtain ⟨g1, g2, -⟩ := update_sat_qth_tstamp env x.2 q
    apply ih (update_sat env x.2 q) (g1.trans hq) (g2.trans ht)
      (fun e he => hvis e (List.mem_cons_of_mem _ he))
    obtain ⟨o, ho, hp, htr⟩ := h
    by_cases hk : x.2.catnr = k
    · obtain ⟨hel, hdec⟩ := hvis x (List.mem_cons_self _ _) hk
      rw [← hk] at ho
      obtain ⟨o2, h1, -, h3⟩ := update_sat_existing env x.2 q o p hel hdec ho hp
      have hf : pass_needs_update env q p q.tstamp = false := by
        rw [pass_needs_update_congr env q polv hq, ht]
        exact hfresh
      obtain ⟨h4, h5, -⟩ := h3 hf
      rw [← hk]
      exact ⟨o2, h1, h4, h5.trans htr⟩
    · rw [update_sat_lookup_other env x.2 q k (fun h => hk h.symm)]
      exact ⟨o, ho, hp, htr⟩

/-- The state in which `update_polv_size` runs `update_sat` over the satellites
of a realized view. -/
theorem update_polv_size_realized (env : Env) (polv : GtkPolarView)
    (hr : polv.realized = true) :
    update_polv_size env polv =
      polv.sats.foldl (fun p e => update_sat env e.2 p)
        { polv with
          size := int_to_guint (min polv.allocation_width polv.allocation_height)
          r := (int_to_guint (min polv.allocation_width polv.allocation_height) / 2 +
            (2 ^ 32 - POLV_DEFAULT_MARGIN)) % 2 ^ 32
          cx := int_to_guint (Int.tdiv polv.allocation_width 2)
          cy := int_to_guint (Int.tdiv polv.allocation_height 2) } := by
  unfold update_polv_size
  rw [if_pos hr]
  rfl

/-- C17, the claim fails at `enlarged_view`, a realized view with the geometry
of the allocation 300 x 300 (centre (150, 150), radius 125) that has been given
the allocation 400 x 400.  Its object 7 holds a pass that is not stale, rising
at azimuth 0 and setting at azimuth 180, and the track built for it under the
old geometry.  After `update_polv_size` the centre is (200, 200) and the radius
175, yet the track of the object is still the old one, from (150, 25) to
(150, 275), while `azel_to_xy` under the new geometry sends the two horizon
points to (200, 25) and (200, 375). -/
theorem resize_keeps_old_track :
    (update_polv_size scenario_env enlarged_view).cx = 200 ∧
    (update_polv_size scenario_env enlarged_view).cy = 200 ∧
    (update_polv_size scenario_env enlarged_view).r = 175 ∧
    azel_to_xy (update_polv_size scenario_env enlarged_view) 0 0 = (200, 25) ∧
    azel_to_xy (update_polv_size scenario_env enlarged_view) 180 0 = (200, 375) ∧
    ∃ o : sat_obj_t,
      g_hash_table_lookup (update_polv_size scenario_env enlarged_view).obj 7 = some o ∧
      o.pass = some north_south_pass ∧
      o.track_points = [(150, 25), (150, 275)] ∧
      o.track_points.head? ≠
        some (azel_to_xy (update_polv_size scenario_env enlarged_view) north_south_pass.aos_az 0) ∧
      o.track_points.getLast? ≠
        some (azel_to_xy (update_polv_size scenario_env enlarged_view) north_south_pass.los_az 0) := by
  have hw : int_to_guint (min enlarged_view.allocation_width enlarged_view.allocation_height)
      = 400 := by
    norm_num [int_to_guint, enlarged_view]
    rfl
  have hc : int_to_guint (Int.tdiv enlarged_view.allocation_width 2) = 200 := by
    norm_num [int_to_guint, enlarged_view]
    rfl
  have hc2 : int_to_guint (Int.tdiv enlarged_view.allocation_height 2) = 200 := by
    norm_num [int_to_guint, enlarged_view]
    rfl
  have hu := update_polv_size_realized scenario_env enlarged_view rfl
  rw [hw, hc, hc2] at hu
  obtain ⟨-, -, g3, g4, g5, g6⟩ := fold_update_sat_geometry scenario_env enlarged_view.sats
    { enlarged_view with size := 400, r := (400 / 2 + (2 ^ 32 - POLV_DEFAULT_MARGIN)) % 2 ^ 32,
                         cx := 200, cy := 200 }
  rw [← hu] at g3 g4 g5 g6
  have hcx : (update_polv_size scenario_env enlarged_view).cx = 200 := g3
  have hcy : (update_polv_size scenario_env enlarged_view).cy = 200 := g4
  have hr : (update_polv_size scenario_env enlarged_view).r = 175 := by
    rw [g5]
    norm_num [POLV_DEFAULT_MARGIN]
  have hn : azel_to_xy (update_polv_size scenario_env enlarged_view) 0 0 = (200, 25) := by
    rw [azel_to_xy_due_north _ g6, hcx, hcy, hr]
    norm_num
  have hs : azel_to_xy (update_polv_size scenario_env enlarged_view) 180 0 = (200, 375) := by
    rw [azel_to_xy_due_south _ g6, hcx, hcy, hr]
    norm_num
  have htrack : (gtk_polar_view_create_track scenario_env small_view
      { catnum := 7, nickname := "SAT", showtrack := true, pass := some north_south_pass }
      scenario_sat).track_points = [(150, 25), (150, 275)] := by
    obtain ⟨tail, h1, h2⟩ := create_track_points scenario_env small_view
      { catnum := 7, nickname := "SAT", showtrack := true, pass := some north_south_pass }
      scenario_sat north_south_pass rfl (by simp [north_south_pass])
    have h3 : tail = [] := by
      apply List.eq_nil_of_length_eq_zero
      rw [h2]
      simp [north_south_pass]
    rw [h1, h3]
    have e1 : north_south_pass.aos_az = 0 := rfl
    have e2 : north_south_pass.los_az = 180 := rfl
    rw [e1, e2, azel_to_xy_due_north _ rfl, azel_to_xy_due_south _ rfl]
    norm_num [small_view]
  have hfresh : pass_needs_update scenario_env enlarged_view north_south_pass
      enlarged_view.tstamp = false := by
    rw [Bool.eq_false_iff]
    intro h
    rw [pass_needs_update_iff] at h
    norm_num [enlarged_view, small_view, north_south_pass, scenario_env] at h
  obtain ⟨o, h1, h2, h3⟩ := fold_update_sat_keeps_pass scenario_env enlarged_view.sats
    { enlarged_view with size := 400, r := (400 / 2 + (2 ^ 32 - POLV_DEFAULT_MARGIN)) % 2 ^ 32,
                         cx := 200, cy := 200 }
    enlarged_view 7 north_south_pass [(150, 25), (150, 275)] rfl rfl hfresh
    (by
      intro e he _
      have he2 : e = (7, scenario_sat) := by simpa [enlarged_view] using he
      rw [he2]
      exact ⟨by norm_num [scenario_sat], rfl⟩)
    ⟨_, rfl, (create_track_frame _ _ _ _).2.2.2.2.2, htrack⟩
  rw [← hu] at h1
  refine ⟨hcx, hcy, hr, hn, hs, o, h1, h2, h3, ?_, ?_⟩
  · have e1 : north_south_pass.aos_az = 0 := rfl
    rw [h3, e1, hn]
    simp
  · have e2 : north_south_pass.los_az = 180 := rfl
    rw [h3, e2, hs]
    simp

/-- C18, the claim as stated fails at `resized_cached_view 25`: the object 7 holds
the pass `cached_pass` with the window `[10, 20]`, the time is 25 and the
satellite is visible; `update_polv_size` runs `update_sat`, which computes the
pass again, so that after the resize the object holds the pass of the scenario
and no longer the cached one. -/
theorem resize_recomputes_stale_pass :
    (∃ o : sat_obj_t, g_hash_table_lookup (resized_cached_view 25).obj 7 = some o ∧
      o.pass = some cached_pass) ∧
    ∃ o2 : sat_obj_t,
      g_hash_table_lookup (update_polv_size scenario_env (resized_cached_view 25)).obj 7 =
        some o2 ∧
      o2.pass = some scenario_pass ∧ o2.pass ≠ some cached_pass := by
  refine ⟨⟨cached_obj, rfl, rfl⟩, ?_⟩
  rw [update_polv_size_realized scenario_env (resized_cached_view 25) rfl]
  have hs : (resized_cached_view 25).sats = [(7, scenario_sat)] := rfl
  rw [hs, List.foldl_cons, List.foldl_nil]
  dsimp only
  have hstale : pass_needs_update scenario_env
      { resized_cached_view 25 with
        size := int_to_guint (min (resized_cached_view 25).allocation_width
          (resized_cached_view 25).allocation_height)
        r := (int_to_guint (min (resized_cached_view 25).allocation_width
            (resized_cached_view 25).allocation_height) / 2 +
          (2 ^ 32 - POLV_DEFAULT_MARGIN)) % 2 ^ 32
        cx := int_to_guint (Int.tdiv (resized_cached_view 25).allocation_width 2)
        cy := int_to_guint (Int.tdiv (resized_cached_view 25).allocation_height 2) }
      cached_pass 25 = true := by
    rw [pass_needs_update_iff]
    right
    left
    norm_num [cached_pass]
  obtain ⟨o2, h1, h2, -⟩ := update_sat_existing scenario_env scenario_sat
    { resized_cached_view 25 with
        size := int_to_guint (min (resized_cached_view 25).allocation_width
          (resized_cached_view 25).allocation_height)
        r := (int_to_guint (min (resized_cached_view 25).allocation_width
            (resized_cached_view 25).allocation_height) / 2 +
          (2 ^ 32 - POLV_DEFAULT_MARGIN)) % 2 ^ 32
        cx := int_to_guint (Int.tdiv (resized_cached_view 25).allocation_width 2)
        cy := int_to_guint (Int.tdiv (resized_cached_view 25).allocation_height 2) }
    cached_obj cached_pass (by norm_num [scenario_sat]) rfl rfl rfl
  have h3 : o2.pass = some scenario_pass := h2 hstale
  refine ⟨o2, h1, h3, ?_⟩
  rw [h3]
  intro h
  have h4 := congrArg pass_t.aos (Option.some.inj h)
  norm_num [scenario_pass, cached_pass] at h4

/-- C18, amended. Resize keeps the passes that are not stale: for a tracked
object that holds a pass with `now` inside `[aos, los]` and the observer at most
1.0 away from the location the pass was computed for, and whose satellites in the
catalogue are visible (elevation not negative, not decayed), the object still
exists after `update_polv_size`, for every allocation, and holds the same cached
pass. -/
theorem resize_keeps_fresh_pass (env : Env) (polv : GtkPolarView) (k : Int) (o : sat_obj_t)
    (p : pass_t)
    (hobj : g_hash_table_lookup polv.obj k = some o) (hpass : o.pass = some p)
    (hfresh : pass_needs_update env polv p polv.tstamp = false)
    (hvis : ∀ e ∈ polv.sats, e.2.catnr = k → 0 ≤ e.2.el ∧ env.decayed e.2 = false) :
    ∃ o2 : sat_obj_t, g_hash_table_lookup (update_polv_size env polv).obj k = some o2 ∧
      o2.pass = some p := by
  by_cases hr : polv.realized = true
  · rw [update_polv_size_realized env polv hr]
    obtain ⟨o2, h1, h2, -⟩ := fold_update_sat_keeps_pass env polv.sats
      { polv with
        size := int_to_guint (min polv.allocation_width polv.allocation_height)
        r := (int_to_guint (min polv.allocation_width polv.allocation_height) / 2 +
          (2 ^ 32 - POLV_DEFAULT_MARGIN)) % 2 ^ 32
        cx := int_to_guint (Int.tdiv polv.allocation_width 2)
        cy := int_to_guint (Int.tdiv polv.allocation_height 2) }
      polv k p o.track_points rfl rfl hfresh hvis ⟨o, hobj, hpass, rfl⟩
    exact ⟨o2, h1, h2⟩
  · unfold update_polv_size
    rw [if_neg hr]
    exact ⟨o, hobj, hpass⟩

/-- Witness of C18 at `resized_cached_view 15`: the time 15 lies inside the window
`[10, 20]` of the cached pass and the observer has not moved, so the object 7
holds `cached_pass` after the resize as well. -/
theorem resize_keeps_fresh_pass_witness :
    ∃ o2 : sat_obj_t,
      g_hash_table_lookup (update_polv_size scenario_env (resized_cached_view 15)).obj 7 =
        some o2 ∧
      o2.pass = some cached_pass := by
  apply resize_keeps_fresh_pass scenario_env (resized_cached_view 15) 7 cached_obj cached_pass
    rfl rfl
  · rw [Bool.eq_false_iff]
    intro h
    rw [pass_needs_update_iff] at h
    norm_num [resized_cached_view, cached_view, cached_pass, scenario_env] at h
  · intro e he _
    have he2 : e = (7, scenario_sat) := by simpa [resized_cached_view] using he
    rw [he2]
    exact ⟨by norm_num [scenario_sat], rfl⟩

/-! ### Tick stride -/

/-- C21, the claim as stated fails: for the pass with five samples the stride is
0, not `max (1, (5 - 2) / 4) = 1`, and although the pass has the interior
samples 1, 2 and 3 the only tick the build stores is tick 0. -/
theorem tick_stride_five_samples :
    five_sample_pass.details.length = 5 ∧
      track_tres five_sample_pass.details.length = 0 ∧
      max 1 ((five_sample_pass.details.length - 2) / (TRACK_TICK_NUM - 1)) = 1 ∧
      (create_track_loop scenario_env scenario_view five_sample_pass).stores.map Prod.fst =
        [0] :=
  ⟨rfl, by decide, by decide,
    few_samples_only_first_tick scenario_env scenario_view five_sample_pass (by decide)⟩

/-- C21, amended. Tick stride: for a pass with N samples the stride of
`gtk_polar_view_create_track` is `(N - 2) / (TRACK_TICK_NUM - 1)` with integer
division when N > 2, and 1 otherwise.  For N <= 2 and for N >= 6 this is
`max (1, (N - 2) / (TRACK_TICK_NUM - 1))` and at least 1; for 3 <= N <= 5 the
stride is 0 and no tick is stored for an interior sample: tick 0 is the only
one. -/
theorem tick_stride (env : Env) (pv : GtkPolarView) (pass : pass_t) :
    track_tres pass.details.length =
        (if pass.details.length > 2 then (pass.details.length - 2) / (TRACK_TICK_NUM - 1)
         else 1) ∧
      ((pass.details.length ≤ 2 ∨ 6 ≤ pass.details.length) →
        track_tres pass.details.length =
            max 1 ((pass.details.length - 2) / (TRACK_TICK_NUM - 1)) ∧
          1 ≤ track_tres pass.details.length) ∧
      ((3 ≤ pass.details.length ∧ pass.details.length ≤ 5) →
        track_tres pass.details.length = 0 ∧
          (create_track_loop env pv pass).stores.map Prod.fst = [0]) := by
  refine ⟨rfl, ?_, ?_⟩
  · intro h
    unfold track_tres TRACK_TICK_NUM
    rcases h with h | h
    · rw [if_neg (by omega)]
      have : (pass.details.length - 2) / (5 - 1) = 0 := Nat.div_eq_of_lt (by omega)
      rw [this]
      exact ⟨rfl, le_refl 1⟩
    · rw [if_pos (by omega)]
      have : 1 ≤ (pass.details.length - 2) / (5 - 1) := by
        rw [Nat.le_div_iff_mul_le (by norm_num)]
        omega
      exact ⟨(max_eq_right this).symm, this⟩
  · intro h
    refine ⟨?_, few_samples_only_first_tick env pv pass h.2⟩
    unfold track_tres TRACK_TICK_NUM
    rw [if_pos (by omega)]
    exact Nat.div_eq_of_lt (by omega)

/-! ### Points and ticks of the track, sample by sample -/

theorem create_track_step_carry (env : Env) (pv : GtkPolarView) (pass : pass_t) (tres : ℕ)
    (s : track_loop_t) (i : ℕ) (d : pass_detail_t) (hd : pass.details.get? i = some d) :
    (create_track_step env pv pass tres s i).track_points =
        s.track_points ++ [if d.el ≥ 0 then azel_to_xy pv d.az d.el else (s.x, s.y)] ∧
      ((create_track_step env pv pass tres s i).x, (create_track_step env pv pass tres s i).y) =
        (if d.el ≥ 0 then azel_to_xy pv d.az d.el else (s.x, s.y)) := by
  unfold create_track_step
  rw [hd]
  dsimp only
  split_ifs <;> exact ⟨rfl, rfl⟩

/-- The points of the track after the first `k` iterations of the loop of
`gtk_polar_view_create_track`: there are `k + 1` of them, the last one is the
current `(x, y)`, the point of a sample with an elevation that is not negative
is its projection, the point of a sample with a negative elevation is the point
before it, and every point is a projection at an elevation that is not
negative. -/
theorem create_track_fold_carry (env : Env) (pv : GtkPolarView) (pass : pass_t) (tres : ℕ)
    (s0 : track_loop_t) (p0 : ℝ × ℝ) (h0 : s0.track_points = [p0]) (hxy : (s0.x, s0.y) = p0)
    (hp0 : ∃ az el : ℝ, 0 ≤ el ∧ p0 = azel_to_xy pv az el)
    (k : ℕ) (hk : k + 1 < pass.details.length) :
    ((List.range' 1 k).foldl (create_track_step env pv pass tres) s0).track_points.length =
        k + 1 ∧
      ((List.range' 1 k).foldl (create_track_step env pv pass tres) s0).track_points[k]? =
        some (((List.range' 1 k).foldl (create_track_step env pv pass tres) s0).x,
          ((List.range' 1 k).foldl (create_track_step env pv pass tres) s0).y) ∧
      ((List.range' 1 k).foldl (create_track_step env pv pass tres) s0).track_points[0]? =
        some p0 ∧
      (∀ (i : ℕ) (d : pass_detail_t), 1 ≤ i → i ≤ k → pass.details.get? i = some d →
        ((List.range' 1 k).foldl (create_track_step env pv pass tres) s0).track_points[i]? =
          if d.el ≥ 0 then some (azel_to_xy pv d.az d.el)
          else ((List.range' 1 k).foldl (create_track_step env pv pass tres) s0).track_points[i - 1]?) ∧
      (∀ p ∈ ((List.range' 1 k).foldl (create_track_step env pv pass tres) s0).track_points,
        ∃ az el : ℝ, 0 ≤ el ∧ p = azel_to_xy pv az el) := by
  induction k with
  | zero =>
    simp only [List.range'_zero, List.foldl_nil]
    rw [h0]
    refine ⟨rfl, ?_, rfl, ?_, ?_⟩
    · rw [hxy]
      rfl
    · intro i d h1 h2
      omega
    · intro p hp
      rw [List.mem_singleton] at hp
      rw [hp]
      exact hp0
  | succ k ih =>
    obtain ⟨ih1, ih2, ih3, ih4, ih5⟩ := ih (by omega)
    rw [List.range'_concat, List.foldl_append, List.foldl_cons, List.foldl_nil]
    generalize (List.range' 1 k).foldl (create_track_step env pv pass tres) s0 = s at ih1 ih2 ih3 ih4 ih5 ⊢
    have hlt : 1 + 1 * k < pass.details.length := by omega
    have hd : pass.details.get? (1 + 1 * k) = some (pass.details.get ⟨1 + 1 * k, hlt⟩) :=
      List.get?_eq_get hlt
    obtain ⟨hp, hx⟩ := create_track_step_carry env pv pass tres s (1 + 1 * k) _ hd
    generalize pass.details.get ⟨1 + 1 * k, hlt⟩ = dk at hd hp hx
    rw [hx, hp]
    have hk1 : 1 + 1 * k = k + 1 := by ring
    refine ⟨?_, ?_, ?_, ?_, ?_⟩
    · rw [List.length_append, ih1]
      rfl
    · rw [← ih1]
      exact List.getElem?_concat_length _ _
    · rw [List.getElem?_append_left (by omega)]
      exact ih3
    · intro i d h1 h2 hdi
      by_cases hik : i = k + 1
      · subst hik
        rw [hk1] at hd
        rw [hd] at hdi
        cases hdi
        have e1 : (s.track_points ++
            [if dk.el ≥ 0 then azel_to_xy pv dk.az dk.el else (s.x, s.y)])[k + 1]? =
            some (if dk.el ≥ 0 then azel_to_xy pv dk.az dk.el else (s.x, s.y)) := by
          rw [← ih1]
          exact List.getElem?_concat_length _ _
        rw [e1]
        by_cases hel : dk.el ≥ 0
        · rw [if_pos hel, if_pos hel]
        · rw [if_neg hel, if_neg hel, Nat.add_sub_cancel,
            List.getElem?_append_left (by omega), ih2]
      · have hik2 : i ≤ k := by omega
        rw [List.getElem?_append_left (by omega), List.getElem?_append_left (by omega)]
        exact ih4 i d h1 hik2 hdi
    · intro p hpm
      rw [List.mem_append, List.mem_singleton] at hpm
      rcases hpm with hpm | hpm
      · exact ih5 p hpm
      · by_cases hel : dk.el ≥ 0
        · rw [if_pos hel] at hpm
          exact ⟨dk.az, dk.el, hel, hpm⟩
        · rw [if_neg hel] at hpm
          rw [hpm]
          exact ih5 _ (List.getElem?_mem ih2)

theorem create_track_points_loop (env : Env) (pv : GtkPolarView) (obj : sat_obj_t) (sat : sat_t)
    (pass : pass_t) (hp : obj.pass = some pass) (hn : 1 ≤ pass.details.length) :
    (gtk_polar_view_create_track env pv obj sat).track_points =
      (create_track_loop env pv pass).track_points ++ [azel_to_xy pv pass.los_az 0] := by
  unfold gtk_polar_view_create_track
  rw [hp]
  dsimp only
  rw [if_neg (by omega)]

/-- The points the loop of `gtk_polar_view_create_track` leaves for a pass with
at least two samples, see `create_track_fold_carry`. -/
theorem create_track_loop_carry (env : Env) (pv : GtkPolarView) (pass : pass_t)
    (hn : 2 ≤ pass.details.length) :
    (create_track_loop env pv pass).track_points.length = pass.details.length - 1 ∧
      (create_track_loop env pv pass).track_points[0]? = some (azel_to_xy pv pass.aos_az 0) ∧
      (∀ (i : ℕ) (d : pass_detail_t), 1 ≤ i → i ≤ pass.details.length - 2 →
        pass.details.get? i = some d →
        (create_track_loop env pv pass).track_points[i]? =
          if d.el ≥ 0 then some (azel_to_xy pv d.az d.el)
          else (create_track_loop env pv pass).track_points[i - 1]?) ∧
      (∀ p ∈ (create_track_loop env pv pass).track_points,
        ∃ az el : ℝ, 0 ≤ el ∧ p = azel_to_xy pv az el) := by
  obtain ⟨h1, -, h3, h4, h5⟩ := create_track_fold_carry env pv pass
    (track_tres pass.details.length)
    { x := (azel_to_xy pv pass.aos_az 0).1, y := (azel_to_xy pv pass.aos_az 0).2, ttidx := 1,
      track_points := [azel_to_xy pv pass.aos_az 0],
      stores := [(0, { x := (azel_to_xy pv pass.aos_az 0).1, y := (azel_to_xy pv pass.aos_az 0).2,
                       text := env.daynum_to_str pass.aos })] }
    (azel_to_xy pv pass.aos_az 0) rfl rfl ⟨pass.aos_az, 0, le_refl 0, rfl⟩
    (pass.details.length - 2) (by omega)
  unfold create_track_loop
  dsimp only
  refine ⟨?_, h3, h4, h5⟩
  rw [h1]
  omega

/-- C22. Negative-elevation interior samples: for a pass with N >= 3 samples and
an interior index i in [1, N - 2], point i of the track built by
`gtk_polar_view_create_track` is `azel_to_xy (az_i, el_i)` when `el_i >= 0` and
is point i - 1 of the track when `el_i < 0`; point 0 is the AOS horizon point;
in both cases point i is the projection of a position whose elevation is not
negative, so the value `azel_to_xy` returns for a negative elevation is never
stored. -/
theorem negative_elevation_samples (env : Env) (pv : GtkPolarView) (obj : sat_obj_t)
    (sat : sat_t) (pass : pass_t) (hp : obj.pass = some pass) (hN : 3 ≤ pass.details.length)
    (i : ℕ) (d : pass_detail_t) (h1 : 1 ≤ i) (h2 : i ≤ pass.details.length - 2)
    (hd : pass.details.get? i = some d) :
    (0 ≤ d.el → (gtk_polar_view_create_track env pv obj sat).track_points[i]? =
        some (azel_to_xy pv d.az d.el)) ∧
      (d.el < 0 → (gtk_polar_view_create_track env pv obj sat).track_points[i]? =
        (gtk_polar_view_create_track env pv obj sat).track_points[i - 1]?) ∧
      (gtk_polar_view_create_track env pv obj sat).track_points[0]? =
        some (azel_to_xy pv pass.aos_az 0) ∧
      ∃ az el : ℝ, 0 ≤ el ∧
        (gtk_polar_view_create_track env pv obj sat).track_points[i]? =
          some (azel_to_xy pv az el) := by
  obtain ⟨g1, g2, g3, g4⟩ := create_track_loop_carry env pv pass (by omega)
  rw [create_track_points_loop env pv obj sat pass hp (by omega)]
  have hi : i < (create_track_loop env pv pass).track_points.length := by omega
  have hi1 : i - 1 < (create_track_loop env pv pass).track_points.length := by omega
  have h0 : 0 < (create_track_loop env pv pass).track_points.length := by omega
  rw [List.getElem?_append_left hi, List.getElem?_append_left hi1,
    List.getElem?_append_left h0]
  refine ⟨?_, ?_, g2, ?_⟩
  · intro hel
    rw [g3 i d h1 h2 hd, if_pos hel]
  · intro hel
    rw [g3 i d h1 h2 hd, if_neg (not_le.mpr hel)]
  · obtain ⟨az, el, hel, he⟩ := g4 _ (List.getElem_mem hi)
    exact ⟨az, el, hel, by rw [List.getElem?_eq_getElem hi, he]⟩

theorem create_track_step_stores (env : Env) (pv : GtkPolarView) (pass : pass_t) (tres : ℕ)
    (s : track_loop_t) (i : ℕ) (d : pass_detail_t) (hd : pass.details.get? i = some d) :
    (create_track_step env pv pass tres s i).stores =
      if (tres ≠ 0 ∧ i % tres = 0) ∧ s.ttidx < TRACK_TICK_NUM then
        s.stores ++
          [(s.ttidx,
            { x := if (if d.el ≥ 0 then azel_to_xy pv d.az d.el else (s.x, s.y)).1 > (pv.cx : ℝ)
                then (if d.el ≥ 0 then azel_to_xy pv d.az d.el else (s.x, s.y)).1 - 5
                else (if d.el ≥ 0 then azel_to_xy pv d.az d.el else (s.x, s.y)).1 + 5,
              y := (if d.el ≥ 0 then azel_to_xy pv d.az d.el else (s.x, s.y)).2,
              text := env.daynum_to_str d.time })]
      else s.stores := by
  unfold create_track_step
  rw [hd]
  dsimp only
  by_cases h1 : tres ≠ 0 ∧ i % tres = 0
  · by_cases h2 : s.ttidx < TRACK_TICK_NUM
    · have h3 : (tres ≠ 0 ∧ i % tres = 0) ∧ s.ttidx < TRACK_TICK_NUM := ⟨h1, h2⟩
      simp only [if_pos h1, if_pos h2, if_pos h3]
    · have h3 : ¬ ((tres ≠ 0 ∧ i % tres = 0) ∧ s.ttidx < TRACK_TICK_NUM) := fun h => h2 h.2
      simp only [if_pos h1, if_neg h2, if_neg h3]
  · have h3 : ¬ ((tres ≠ 0 ∧ i % tres = 0) ∧ s.ttidx < TRACK_TICK_NUM) := fun h => h1 h.1
    simp only [if_neg h1, if_neg h3]

/-- The stores into `trtick` after the first `k` iterations of the loop of
`gtk_polar_view_create_track`: the store of index 0 is the one made before the
loop; a store of index `j >= 1` was made at the sample `j * tres`, and holds the
point of that sample with `x` moved by 5 (`x - 5` when `x > cx`, else `x + 5`)
and the time of the sample. -/
theorem create_track_fold_stores (env : Env) (pv : GtkPolarView) (pass : pass_t) (tres : ℕ)
    (s0 : track_loop_t) (p0 : ℝ × ℝ) (t0 : polar_view_tick_t)
    (h0 : s0.track_points = [p0]) (hxy : (s0.x, s0.y) = p0)
    (hp0 : ∃ az el : ℝ, 0 ≤ el ∧ p0 = azel_to_xy pv az el)
    (ht : s0.ttidx = 1) (hs : s0.stores = [(0, t0)])
    (k : ℕ) (hk : k + 1 < pass.details.length) :
    ∀ e ∈ ((List.range' 1 k).foldl (create_track_step env pv pass tres) s0).stores,
      (e.1 = 0 → e.2 = t0) ∧
      (1 ≤ e.1 → tres ≠ 0 ∧ e.1 * tres ≤ k ∧
        ∃ (p : ℝ × ℝ) (d : pass_detail_t),
          ((List.range' 1 k).foldl (create_track_step env pv pass tres) s0).track_points[e.1 * tres]?
            = some p ∧
          pass.details.get? (e.1 * tres) = some d ∧
          e.2 = { x := if p.1 > (pv.cx : ℝ) then p.1 - 5 else p.1 + 5, y := p.2,
                  text := env.daynum_to_str d.time }) := by
  induction k with
  | zero =>
    simp only [List.range'_zero, List.foldl_nil]
    rw [hs]
    intro e he
    rw [List.mem_singleton] at he
    rw [he]
    exact ⟨fun _ => rfl, fun h => absurd h (by norm_num)⟩
  | succ k ih =>
    have ih := ih (by omega)
    obtain ⟨c1, c2, -, -, -⟩ := create_track_fold_carry env pv pass tres s0 p0 h0 hxy hp0 k
      (by omega)
    obtain ⟨t1, -⟩ := create_track_fold_ticks env pv pass tres s0 ht (by rw [hs]; rfl) k
      (by omega)
    rw [List.range'_concat, List.foldl_append, List.foldl_cons, List.foldl_nil]
    generalize (List.range' 1 k).foldl (create_track_step env pv pass tres) s0 = s at ih c1 c2 t1 ⊢
    have hlt : 1 + 1 * k < pass.details.length := by omega
    have hd : pass.details.get? (1 + 1 * k) = some (pass.details.get ⟨1 + 1 * k, hlt⟩) :=
      List.get?_eq_get hlt
    obtain ⟨hp, -⟩ := create_track_step_carry env pv pass tres s (1 + 1 * k) _ hd
    have hst := create_track_step_stores env pv pass tres s (1 + 1 * k) _ hd
    generalize pass.details.get ⟨1 + 1 * k, hlt⟩ = dk at hd hp hst
    have hk1 : 1 + 1 * k = k + 1 := by ring
    rw [hp, hst]
    have hold : ∀ e ∈ s.stores, (e.1 = 0 → e.2 = t0) ∧
        (1 ≤ e.1 → tres ≠ 0 ∧ e.1 * tres ≤ k + 1 ∧
          ∃ (p : ℝ × ℝ) (d : pass_detail_t),
            (s.track_points ++
              [if dk.el ≥ 0 then azel_to_xy pv dk.az dk.el else (s.x, s.y)])[e.1 * tres]?
              = some p ∧
            pass.details.get? (e.1 * tres) = some d ∧
            e.2 = { x := if p.1 > (pv.cx : ℝ) then p.1 - 5 else p.1 + 5, y := p.2,
                    text := env.daynum_to_str d.time }) := by
      intro e he
      obtain ⟨i1, i2⟩ := ih e he
      refine ⟨i1, fun h1 => ?_⟩
      obtain ⟨j1, j2, p, d, j3, j4, j5⟩ := i2 h1
      refine ⟨j1, by omega, p, d, ?_, j4, j5⟩
      rw [List.getElem?_append_left (by omega)]
      exact j3
    by_cases hcond : (tres ≠ 0 ∧ (1 + 1 * k) % tres = 0) ∧ s.ttidx < TRACK_TICK_NUM
    · rw [if_pos hcond]
      intro e he
      rw [List.mem_append, List.mem_singleton] at he
      rcases he with he | he
      · exact hold e he
      · rw [he]
        dsimp only
        have hdvd : tres ∣ k + 1 := by
          rw [← hk1]
          exact Nat.dvd_of_mod_eq_zero hcond.1.2
        have hpos : 0 < tres := Nat.pos_of_ne_zero hcond.1.1
        have hidx : s.ttidx * tres = k + 1 := by
          rw [t1]
          have h3 : (k + 1) / tres = k / tres + 1 := by
            rw [Nat.succ_div, if_pos hdvd]
          have h4 : (k + 1) / tres * tres = k + 1 := Nat.div_mul_cancel hdvd
          rw [show 1 + k / tres = k / tres + 1 by ring, ← h3, h4]
        refine ⟨fun h => ?_, fun _ => ⟨hcond.1.1, by rw [hidx], ?_⟩⟩
        · have h2 : s.ttidx = 0 := h
          rw [t1] at h2
          exact absurd h2 (by simp)
        · refine ⟨_, dk, ?_, ?_, rfl⟩
          · rw [hidx, ← c1]
            exact List.getElem?_concat_length _ _
          · rw [hidx, ← hk1]
            exact hd
    · rw [if_neg hcond]
      exact hold

/-- Stores made once each at the indices 0, 1, ... in order, all inside the
array: afterwards every index holds the tick stored at it. -/
theorem store_ticks_get (trtick : List polar_view_tick_t)
    (stores : List (ℕ × polar_view_tick_t))
    (hidx : stores.map Prod.fst = List.range stores.length)
    (hlen : stores.length ≤ trtick.length) :
    ∀ e ∈ stores, (store_ticks trtick stores)[e.1]? = some e.2 := by
  induction stores using List.reverseRecOn with
  | nil =>
    intro e he
    simp at he
  | append_singleton l a ih =>
    rw [List.map_append, List.length_append, List.length_singleton, List.range_succ] at hidx
    have hl : (l.map Prod.fst).length = (List.range l.length).length := by simp
    obtain ⟨h1, h2⟩ := List.append_inj hidx hl
    have ha : a.1 = l.length := by simpa using h2
    rw [List.length_append, List.length_singleton] at hlen
    have ih := ih h1 (by omega)
    have hst : store_ticks trtick (l ++ [a]) = (store_ticks trtick l).set a.1 a.2 := by
      unfold store_ticks
      rw [List.foldl_append]
      rfl
    intro e he
    rw [hst]
    rw [List.mem_append, List.mem_singleton] at he
    rcases he with he | he
    · have hlt : e.1 < l.length := by
        have : e.1 ∈ l.map Prod.fst := List.mem_map_of_mem Prod.fst he
        rw [h1, List.mem_range] at this
        exact this
      rw [List.getElem?_set_ne (by omega)]
      exact ih e he
    · rw [he]
      exact List.getElem?_set_self (by rw [store_ticks_length]; omega)

/-- The stores into `trtick` of a whole run of the loop, see
`create_track_fold_stores`. -/
theorem create_track_loop_stores (env : Env) (pv : GtkPolarView) (pass : pass_t)
    (hn : 2 ≤ pass.details.length) :
    ∀ e ∈ (create_track_loop env pv pass).stores,
      (e.1 = 0 → e.2 = { x := (azel_to_xy pv pass.aos_az 0).1, y := (azel_to_xy pv pass.aos_az 0).2,
                         text := env.daynum_to_str pass.aos }) ∧
      (1 ≤ e.1 → track_tres pass.details.length ≠ 0 ∧
        e.1 * track_tres pass.details.length ≤ pass.details.length - 2 ∧
        ∃ (p : ℝ × ℝ) (d : pass_detail_t),
          (create_track_loop env pv pass).track_points[e.1 * track_tres pass.details.length]?
            = some p ∧
          pass.details.get? (e.1 * track_tres pass.details.length) = some d ∧
          e.2 = { x := if p.1 > (pv.cx : ℝ) then p.1 - 5 else p.1 + 5, y := p.2,
                  text := env.daynum_to_str d.time }) := by
  have h := create_track_fold_stores env pv pass (track_tres pass.details.length)
    { x := (azel_to_xy pv pass.aos_az 0).1, y := (azel_to_xy pv pass.aos_az 0).2, ttidx := 1,
      track_points := [azel_to_xy pv pass.aos_az 0],
      stores := [(0, { x := (azel_to_xy pv pass.aos_az 0).1, y := (azel_to_xy pv pass.aos_az 0).2,
                       text := env.daynum_to_str pass.aos })] }
    (azel_to_xy pv pass.aos_az 0)
    { x := (azel_to_xy pv pass.aos_az 0).1, y := (azel_to_xy pv pass.aos_az 0).2,
      text := env.daynum_to_str pass.aos }
    rfl rfl ⟨pass.aos_az, 0, le_refl 0, rfl⟩ rfl rfl (pass.details.length - 2) (by omega)
  unfold create_track_loop
  exact h

/-- The ticks of the object after the build: every tick the loop stored is in
the array, at its index. -/
theorem create_track_trtick_get (env : Env) (pv : GtkPolarView) (obj : sat_obj_t) (sat : sat_t)
    (pass : pass_t) (hp : obj.pass = some pass) (hn : 1 ≤ pass.details.length)
    (hlen : obj.trtick.length = TRACK_TICK_NUM) :
    ∀ e ∈ (create_track_loop env pv pass).stores,
      (gtk_polar_view_create_track env pv obj sat).trtick[e.1]? = some e.2 := by
  rw [create_track_trtick env pv obj sat pass hp, if_neg (by omega)]
  have hidx := create_track_loop_ticks env pv pass
  have hl : (create_track_loop env pv pass).stores.length =
      min (1 + (pass.details.length - 2) / track_tres pass.details.length) TRACK_TICK_NUM := by
    have := congrArg List.length hidx
    rw [List.length_map, List.length_range] at this
    exact this
  apply store_ticks_get
  · rw [hidx, hl]
  · rw [hl, hlen]
    exact min_le_right _ _

/-- Witness of C22 on the pass with four samples whose sample 2 has the elevation
-1: point 2 of the track is point 1. -/
theorem negative_elevation_samples_witness :
    (gtk_polar_view_create_track scenario_env scenario_view { pass := some dip_pass }
        scenario_sat).track_points[2]? =
      (gtk_polar_view_create_track scenario_env scenario_view { pass := some dip_pass }
        scenario_sat).track_points[1]? :=
  (negative_elevation_samples scenario_env scenario_view { pass := some dip_pass } scenario_sat
    dip_pass rfl (by decide) 2 { time := 102, az := 180, el := -1 } (by decide) (by decide)
    rfl).2.1 (by norm_num)

theorem azel_to_xy_due_east (p : GtkPolarView) (el : ℝ) (hel : 0 ≤ el)
    (hr : 2 * p.r < 2 ^ 32) (hs : p.swap = polar_view_swap_t.POLAR_VIEW_NESW) :
    azel_to_xy p 90 el = ((p.cx : ℝ) + ((p.r : ℝ) - (p.r : ℝ) * el / 90), (p.cy : ℝ)) := by
  have h90 : de2ra * 90 = Real.pi / 2 := by
    unfold de2ra
    ring
  have hpi := Real.pi_pos
  unfold azel_to_xy
  rw [if_neg (not_lt.mpr hel), hs, Nat.mod_eq_of_lt hr]
  dsimp only
  rw [h90, Real.sin_pi_div_two, Real.cos_pi_div_two]
  unfold M_PI de2ra
  push_cast
  refine Prod.ext ?_ ?_
  · dsimp only
    field_simp
    ring
  · dsimp only
    ring

/-- The tick of index `k >= 1` of a build that places more than `k` ticks: it is
in the array after the build, and it holds the track point of the sample
`k * tres`, with `x` moved by 5, and the time of that sample. -/
theorem create_track_tick_at (env : Env) (pv : GtkPolarView) (obj : sat_obj_t) (sat : sat_t)
    (pass : pass_t) (hp : obj.pass = some pass) (hlen : obj.trtick.length = TRACK_TICK_NUM)
    (k : ℕ) (hk1 : 1 ≤ k)
    (hk : k < min (1 + (pass.details.length - 2) / track_tres pass.details.length)
      TRACK_TICK_NUM) :
    3 ≤ pass.details.length ∧ k * track_tres pass.details.length ≤ pass.details.length - 2 ∧
    ∃ (p : ℝ × ℝ) (d : pass_detail_t),
      (create_track_loop env pv pass).track_points[k * track_tres pass.details.length]? =
        some p ∧
      pass.details.get? (k * track_tres pass.details.length) = some d ∧
      (gtk_polar_view_create_track env pv obj sat).trtick[k]? =
        some { x := if p.1 > (pv.cx : ℝ) then p.1 - 5 else p.1 + 5, y := p.2,
               text := env.daynum_to_str d.time } := by
  have hN : 3 ≤ pass.details.length := by
    by_contra hlt
    have h0 : pass.details.length - 2 = 0 := by omega
    rw [h0, Nat.zero_div] at hk
    have : min (1 + 0) TRACK_TICK_NUM = 1 := by decide
    omega
  have hmem : k ∈ (create_track_loop env pv pass).stores.map Prod.fst := by
    rw [create_track_loop_ticks, List.mem_range]
    exact hk
  obtain ⟨e, he, hek⟩ := List.mem_map.mp hmem
  obtain ⟨-, h2⟩ := create_track_loop_stores env pv pass (by omega) e he
  have h3 := create_track_trtick_get env pv obj sat pass hp (by omega) hlen e he
  rw [hek] at h2 h3
  obtain ⟨-, j2, p, d, j3, j4, j5⟩ := h2 hk1
  refine ⟨hN, j2, p, d, j3, j4, ?_⟩
  rw [h3, j5]

/-- C23, the claim as stated fails: for the pass with six samples, tick 1 is
placed at sample 1, whose projection under the geometry of the scenario is
(200, 150), to the right of the centre (150, 150); the tick is stored at
(195, 150), 45 px from the centre line and not 50 + 5 = 55: the point is moved
towards the centre. -/
theorem tick_nudge_towards_centre :
    east_pass.details.get? 1 = some { time := 101, az := 90, el := 45 } ∧
      azel_to_xy scenario_view 90 45 = (200, 150) ∧
      ∃ t : polar_view_tick_t,
        (gtk_polar_view_create_track scenario_env scenario_view { pass := some east_pass }
          scenario_sat).trtick[1]? = some t ∧
        t.x = 195 ∧ t.y = 150 ∧
        |t.x - (scenario_view.cx : ℝ)| = 45 ∧
        |(azel_to_xy scenario_view 90 45).1 - (scenario_view.cx : ℝ)| + 5 = 55 := by
  have hproj : azel_to_xy scenario_view 90 45 = (200, 150) := by
    rw [azel_to_xy_due_east scenario_view 45 (by norm_num) (by decide) rfl]
    norm_num [scenario_view]
  have htres : track_tres east_pass.details.length = 1 := by decide
  obtain ⟨-, -, p, d, h1, h2, h3⟩ := create_track_tick_at scenario_env scenario_view
    { pass := some east_pass } scenario_sat east_pass rfl rfl 1 (le_refl 1) (by decide)
  rw [htres] at h1 h2
  have hd : d = { time := 101, az := 90, el := 45 } := by
    have h4 : east_pass.details.get? (1 * 1) = some { time := 101, az := 90, el := 45 } := rfl
    rw [h4] at h2
    exact (Option.some.inj h2).symm
  obtain ⟨-, -, g3, -⟩ := create_track_loop_carry scenario_env scenario_view east_pass
    (by decide)
  have h5 := g3 1 { time := 101, az := 90, el := 45 } (le_refl 1) (by decide) rfl
  rw [if_pos (by norm_num), hproj] at h5
  have hp : p = (200, 150) := by
    have h6 : (create_track_loop scenario_env scenario_view east_pass).track_points[1 * 1]? =
        some (200, 150) := h5
    rw [h6] at h1
    exact (Option.some.inj h1).symm
  refine ⟨rfl, hproj, _, h3, ?_, ?_, ?_, ?_⟩
  · rw [hp]
    norm_num [scenario_view]
  · rw [hp]
  · rw [hp]
    norm_num [scenario_view]
  · rw [hproj]
    norm_num [scenario_view]

/-- C23, amended. Tick nudge: tick 0 is the AOS point `azel_to_xy (aos_az, 0)`,
not moved; every tick k >= 1 that `gtk_polar_view_create_track` places sits at
the track point `(x, y)` of its sample, the sample `k * tres`, with `y`
unchanged and `x` moved by 5 px horizontally: `x - 5` when `x > cx`, `x + 5`
otherwise. -/
theorem tick_nudge (env : Env) (pv : GtkPolarView) (obj : sat_obj_t) (sat : sat_t)
    (pass : pass_t) (hp : obj.pass = some pass) (hlen : obj.trtick.length = TRACK_TICK_NUM)
    (k : ℕ) (hk1 : 1 ≤ k)
    (hk : k < min (1 + (pass.details.length - 2) / track_tres pass.details.length)
      TRACK_TICK_NUM) :
    (gtk_polar_view_create_track env pv obj sat).trtick[0]? =
        some { x := (azel_to_xy pv pass.aos_az 0).1, y := (azel_to_xy pv pass.aos_az 0).2,
               text := env.daynum_to_str pass.aos } ∧
      ∃ (p : ℝ × ℝ) (d : pass_detail_t),
        (gtk_polar_view_create_track env pv obj sat).track_points[
            k * track_tres pass.details.length]? = some p ∧
        pass.details.get? (k * track_tres pass.details.length) = some d ∧
        (gtk_polar_view_create_track env pv obj sat).trtick[k]? =
          some { x := if p.1 > (pv.cx : ℝ) then p.1 - 5 else p.1 + 5, y := p.2,
                 text := env.daynum_to_str d.time } := by
  obtain ⟨hN, hle, p, d, h1, h2, h3⟩ := create_track_tick_at env pv obj sat pass hp hlen k hk1 hk
  constructor
  · have hmem : 0 ∈ (create_track_loop env pv pass).stores.map Prod.fst := by
      rw [create_track_loop_ticks, List.mem_range]
      omega
    obtain ⟨e, he, he0⟩ := List.mem_map.mp hmem
    have h4 := create_track_trtick_get env pv obj sat pass hp (by omega) hlen e he
    rw [he0] at h4
    rw [h4, (create_track_loop_stores env pv pass (by omega) e he).1 he0]
  · refine ⟨p, d, ?_, h2, h3⟩
    obtain ⟨g1, -⟩ := create_track_loop_carry env pv pass (by omega)
    rw [create_track_points_loop env pv obj sat pass hp (by omega),
      List.getElem?_append_left (by omega)]
    exact h1

/-- Witness of the amended C23 on the pass with six samples: tick 1 is placed
and holds the point of sample 1 with `x` moved by 5. -/
theorem tick_nudge_witness :
    ∃ (p : ℝ × ℝ) (d : pass_detail_t),
      (gtk_polar_view_create_track scenario_env scenario_view { pass := some east_pass }
          scenario_sat).track_points[1 * track_tres east_pass.details.length]? = some p ∧
      east_pass.details.get? (1 * track_tres east_pass.details.length) = some d ∧
      (gtk_polar_view_create_track scenario_env scenario_view { pass := some east_pass }
          scenario_sat).trtick[1]? =
        some { x := if p.1 > (scenario_view.cx : ℝ) then p.1 - 5 else p.1 + 5, y := p.2,
               text := scenario_env.daynum_to_str d.time } :=
  (tick_nudge scenario_env scenario_view { pass := some east_pass } scenario_sat east_pass
    rfl rfl 1 (le_refl 1) (by decide)).2

/-! ### Countdown -/

theorem double_to_guint_floor (v : ℝ) (S : ℕ) (hS : S = Int.toNat ⌊v⌋) (h32 : S < 2 ^ 32) :
    double_to_guint v = S := by
  unfold double_to_guint
  rw [← hS, Nat.mod_eq_of_lt h32]

theorem hms_split (S : ℕ) :
    S - 3600 * (S / 3600) = S % 3600 ∧
      S % 3600 - 60 * (S % 3600 / 60) = S % 60 ∧
      3600 * (S / 3600) + 60 * (S % 3600 / 60) + S % 60 = S ∧
      S % 3600 / 60 < 60 ∧ S % 60 < 60 := by
  refine ⟨?_, ?_, ?_, ?_, ?_⟩ <;> omega

/-- The text of the next event after a real refresh is built from the state the
refresh leaves; the refresh changes neither the time, nor the catalogue, nor the
flag `eventinfo`. -/
theorem update_next_text (env : Env) (polv : GtkPolarView)
    (hc : ¬ polv.counter < polv.refresh) :
    (gtk_polar_view_update env polv).next_text =
        next_event_text (gtk_polar_view_update env polv) ∧
      (gtk_polar_view_update env polv).eventinfo = polv.eventinfo ∧
      (gtk_polar_view_update env polv).sats = polv.sats ∧
      (gtk_polar_view_update env polv).tstamp = polv.tstamp := by
  rw [update_is_refresh env polv hc]
  obtain ⟨-, -, hs, ht, he⟩ := update_resize_block_frame env polv
  generalize update_resize_block env polv = p1 at hs ht he ⊢
  unfold update_refresh_block
  dsimp only
  obtain ⟨n, c, o, t, h, -⟩ := foreach_update_sat_frame env
    { p1 with counter := 1, naos := 0, ncat := 0 }
  rw [h]
  exact ⟨rfl, he, hs, ht⟩

theorem to_gdouble_hour : to_gdouble (hour_in_days - 0) = hour_in_days ∧
    to_gdouble (hour_in_days * 86400) = 3600 ∧ ⌊(hour_in_days - 0) * 86400⌋ = 3599 := by
  unfold hour_in_days
  refine ⟨?_, ?_, ?_⟩
  · rw [sub_zero]
    unfold to_gdouble
    apply fp_round_exact 52 (-1022) (-5) _ 6004799503160661
    · rw [abs_of_nonneg (by norm_num)]
      norm_num
    · rw [abs_of_nonneg (by norm_num)]
      norm_num
    · norm_num
    · norm_num
  · unfold to_gdouble
    rw [fp_round_near 52 (-1022) 11 _ 7916483719987200]
    · norm_num
    · rw [abs_of_nonneg (by norm_num)]
      norm_num
    · rw [abs_of_nonneg (by norm_num)]
      norm_num
    · norm_num
    · rw [abs_lt]
      constructor <;> norm_num
  · rw [Int.floor_eq_iff]
    norm_num

/-- C24, the claim as stated fails, by the rounding of the `gdouble` product:
for the delay d of `hour_in_days`, the `gdouble` nearest to 1 / 24, the number
floor (d * 86400) is 3599, for which the claim gives h = 0 and the text without
hours, 59:59; the product of the code rounds to 3600.0, so `los_time_to_str`
has h = 1, m = 0, s = 0 and writes the hours field. -/
theorem countdown_rounds_up_to_hour :
    0 ≤ countdown_sat.los - countdown_view.tstamp ∧
      ⌊(countdown_sat.los - countdown_view.tstamp) * 86400⌋ = 3599 ∧
      (3599 : ℕ) / 3600 = 0 ∧
      los_time_to_str countdown_view countdown_sat =
        "LOS in " ++ fmt_02d 1 ++ ":" ++ fmt_02d 0 ++ ":" ++ fmt_02d 0 := by
  obtain ⟨h1, h2, h3⟩ := to_gdouble_hour
  have hl : countdown_sat.los = hour_in_days := rfl
  have ht : countdown_view.tstamp = 0 := rfl
  refine ⟨?_, ?_, by decide, ?_⟩
  · rw [hl, ht, sub_zero]
    unfold hour_in_days
    positivity
  · rw [hl, ht]
    exact h3
  · unfold los_time_to_str
    dsimp only
    rw [hl, ht, h1, h2]
    have hg : double_to_guint 3600 = 3600 := by
      unfold double_to_guint
      have : ⌊(3600 : ℝ)⌋ = 3600 := by
        rw [Int.floor_eq_iff]
        norm_num
      rw [this]
      rfl
    rw [hg]
    rfl

/-- C24, amended. Countdown arithmetic: for a delay d >= 0 in days, let S be the
number of whole seconds the code computes, the integer part of the `gdouble`
product d * 86400, with d the `gdouble` difference, and let S fit in 32 bits.
The fields of the countdown are h = S div 3600, m = (S mod 3600) div 60,
s = S mod 60, so that 3600 h + 60 m + s = S with m < 60 and s < 60, and the text
has the hours field if and only if h > 0: this holds for the text of the next
event that a real refresh of `gtk_polar_view_update` builds from `naos - now`,
and for the text `los_time_to_str` builds from `los - now`. -/
theorem countdown_arithmetic (env : Env) (polv : GtkPolarView) (sat losSat : sat_t) (S L : ℕ)
    (hc : ¬ polv.counter < polv.refresh)
    (he : polv.eventinfo = true) (hn : (gtk_polar_view_update env polv).ncat > 0)
    (hs : g_hash_table_lookup polv.sats (gtk_polar_view_update env polv).ncat = some sat)
    (_hd : 0 ≤ (gtk_polar_view_update env polv).naos - polv.tstamp)
    (hS : S = Int.toNat
      ⌊to_gdouble (to_gdouble ((gtk_polar_view_update env polv).naos - polv.tstamp) * 86400)⌋)
    (hS32 : S < 2 ^ 32)
    (_hl : 0 ≤ losSat.los - polv.tstamp)
    (hL : L = Int.toNat ⌊to_gdouble (to_gdouble (losSat.los - polv.tstamp) * 86400)⌋)
    (hL32 : L < 2 ^ 32) :
    (3600 * (S / 3600) + 60 * (S % 3600 / 60) + S % 60 = S ∧ S % 3600 / 60 < 60 ∧ S % 60 < 60) ∧
      (gtk_polar_view_update env polv).next_text =
        some (if S / 3600 > 0 then
            "Next: " ++ sat.nickname ++ "\nin " ++ fmt_02d (S / 3600) ++ ":" ++
              fmt_02d (S % 3600 / 60) ++ ":" ++ fmt_02d (S % 60)
          else "Next: " ++ sat.nickname ++ "\nin " ++ fmt_02d (S % 3600 / 60) ++ ":" ++
            fmt_02d (S % 60)) ∧
      (3600 * (L / 3600) + 60 * (L % 3600 / 60) + L % 60 = L ∧ L % 3600 / 60 < 60 ∧ L % 60 < 60) ∧
      los_time_to_str polv losSat =
        (if L / 3600 > 0 then
            "LOS in " ++ fmt_02d (L / 3600) ++ ":" ++ fmt_02d (L % 3600 / 60) ++ ":" ++
              fmt_02d (L % 60)
          else "LOS in " ++ fmt_02d (L % 3600 / 60) ++ ":" ++ fmt_02d (L % 60)) := by
  obtain ⟨a1, a2, a3, a4, a5⟩ := hms_split S
  obtain ⟨b1, b2, b3, b4, b5⟩ := hms_split L
  refine ⟨⟨a3, a4, a5⟩, ?_, ⟨b3, b4, b5⟩, ?_⟩
  · obtain ⟨h1, h2, h3, h4⟩ := update_next_text env polv hc
    rw [h1]
    generalize gtk_polar_view_update env polv = v at hn hs hS h2 h3 h4
    unfold next_event_text
    rw [h2, if_pos he, if_pos hn, h3, hs]
    dsimp only
    rw [h4, double_to_guint_floor _ S hS hS32, a1, a2]
    split_ifs <;> rfl
  · unfold los_time_to_str
    dsimp only
    rw [double_to_guint_floor _ L hL hL32, b1, b2]

/-- Witness of the amended C24 at the delay `hour_in_days`: the code computes
3600 whole seconds, so the text of the next event after a refresh and the text
of `los_time_to_str` are built from h = 1, m = 0, s = 0, with the hours
field. -/
theorem countdown_arithmetic_witness :
    (gtk_polar_view_update scenario_env countdown_view).next_text =
        some ("Next: " ++ rising_sat.nickname ++ "\nin " ++ fmt_02d 1 ++ ":" ++ fmt_02d 0 ++
          ":" ++ fmt_02d 0) ∧
      los_time_to_str countdown_view countdown_sat =
        "LOS in " ++ fmt_02d 1 ++ ":" ++ fmt_02d 0 ++ ":" ++ fmt_02d 0 := by
  obtain ⟨g1, g2, -⟩ := to_gdouble_hour
  have hc : ¬ countdown_view.counter < countdown_view.refresh := by decide
  have hnaos : (gtk_polar_view_update scenario_env countdown_view).naos = hour_in_days ∧
      (gtk_polar_view_update scenario_env countdown_view).ncat = 7 := by
    rw [update_is_refresh scenario_env countdown_view hc]
    obtain ⟨-, -, hs, ht, -⟩ := update_resize_block_frame scenario_env countdown_view
    generalize update_resize_block scenario_env countdown_view = p1 at hs ht ⊢
    obtain ⟨-, -, hn, hk⟩ := update_refresh_block_fields scenario_env p1
    have ht1 : p1.tstamp = 0 := ht
    have hs1 : p1.sats = [(7, rising_sat)] := hs
    have hpos : (0 : ℝ) < hour_in_days := by
      unfold hour_in_days
      positivity
    rw [hn, hk, hs1]
    simp [update_next_aos, ht1, rising_sat, hpos]
  have ht0 : countdown_view.tstamp = 0 := rfl
  have hl0 : countdown_sat.los = hour_in_days := rfl
  have hfl : Int.toNat ⌊(3600 : ℝ)⌋ = 3600 := by
    have : ⌊(3600 : ℝ)⌋ = 3600 := by
      rw [Int.floor_eq_iff]
      norm_num
    rw [this]
    rfl
  have hS : (3600 : ℕ) = Int.toNat
      ⌊to_gdouble (to_gdouble ((gtk_polar_view_update scenario_env countdown_view).naos -
        countdown_view.tstamp) * 86400)⌋ := by
    rw [hnaos.1, ht0, g1, g2, hfl]
  have hL : (3600 : ℕ) = Int.toNat
      ⌊to_gdouble (to_gdouble (countdown_sat.los - countdown_view.tstamp) * 86400)⌋ := by
    rw [hl0, ht0, g1, g2, hfl]
  have hpos : (0 : ℝ) ≤ hour_in_days := by
    unfold hour_in_days
    positivity
  obtain ⟨-, h1, -, h2⟩ := countdown_arithmetic scenario_env countdown_view rising_sat
    countdown_sat 3600 3600 hc rfl (by rw [hnaos.2]; decide) (by rw [hnaos.2]; rfl)
    (by rw [hnaos.1, ht0, sub_zero]; exact hpos) hS (by norm_num)
    (by rw [hl0, ht0, sub_zero]; exact hpos) hL (by norm_num)
  exact ⟨h1, h2⟩

/-! ### Objects without a cached pass -/

/-- The refresh of a visible satellite whose object has no cached pass: the
object stays without a pass and keeps its track and its ticks. -/
theorem update_sat_passless (env : Env) (sat : sat_t) (polv : GtkPolarView) (o : sat_obj_t)
    (hel : 0 ≤ sat.el) (hdec : env.decayed sat = false)
    (hobj : g_hash_table_lookup polv.obj sat.catnr = some o) (hpass : o.pass = none) :
    ∃ o2 : sat_obj_t, g_hash_table_lookup (update_sat env sat polv).obj sat.catnr = some o2 ∧
      o2.pass = none ∧ o2.track_points = o.track_points ∧ o2.trtick = o.trtick ∧
      o2.showtrack = o.showtrack := by
  obtain ⟨hobj1, -⟩ := update_next_aos_frame sat polv
  have hvis : ¬ (sat.el < 0 ∨ env.decayed sat = true) := by
    rw [hdec]
    simp [not_lt.mpr hel]
  unfold update_sat
  simp only [if_neg hvis]
  generalize update_next_aos sat polv = polv1 at hobj1 ⊢
  rw [← hobj1] at hobj
  rw [hobj]
  simp only [hpass]
  rcases Bool.eq_false_or_eq_true o.selected with hsel | hsel
  · simp only [hsel, if_true]
    exact ⟨_, lookup_obj_write _ hobj, rfl, rfl, rfl, rfl⟩
  · simp only [hsel, Bool.false_eq_true, if_false]
    exact ⟨_, lookup_obj_write _ hobj, rfl, rfl, rfl, rfl⟩

/-- C25, the claim as stated fails: in `passless_view` the object of the visible
satellite 7 has no cached pass and `get_current_pass` would return the pass of
the scenario, yet after the refresh of the satellite the object still has no
pass. -/
theorem missing_pass_not_computed :
    0 ≤ scenario_sat.el ∧ scenario_env.decayed scenario_sat = false ∧
      (∃ o : sat_obj_t, g_hash_table_lookup passless_view.obj 7 = some o ∧ o.pass = none) ∧
      scenario_env.get_current_pass scenario_sat passless_view.qth passless_view.tstamp =
        some scenario_pass ∧
      ∃ o2 : sat_obj_t,
        g_hash_table_lookup (update_sat scenario_env scenario_sat passless_view).obj 7 =
          some o2 ∧
        o2.pass = none ∧
        o2.pass ≠
          scenario_env.get_current_pass scenario_sat passless_view.qth passless_view.tstamp := by
  have hel : (0 : ℝ) ≤ scenario_sat.el := by norm_num [scenario_sat]
  obtain ⟨o2, h1, h2, -⟩ := update_sat_passless scenario_env scenario_sat passless_view
    { catnum := 7, nickname := "SAT" } hel rfl rfl rfl
  refine ⟨hel, rfl, ⟨_, rfl, rfl⟩, rfl, o2, h1, h2, ?_⟩
  rw [h2]
  exact fun h => Option.noConfusion h

/-- C25, amended. A missing cache stays missing: for an existing tracked object
that has no cached pass, the refresh of its still visible satellite evaluates no
staleness and computes no pass: after `update_sat` the object is still there,
still without a pass, and its track and its time ticks are as they were. -/
theorem missing_pass_kept (env : Env) (sat : sat_t) (polv : GtkPolarView) (o : sat_obj_t)
    (hel : 0 ≤ sat.el) (hdec : env.decayed sat = false)
    (hobj : g_hash_table_lookup polv.obj sat.catnr = some o) (hpass : o.pass = none) :
    ∃ o2 : sat_obj_t, g_hash_table_lookup (update_sat env sat polv).obj sat.catnr = some o2 ∧
      o2.pass = none ∧ o2.track_points = o.track_points ∧ o2.trtick = o.trtick := by
  obtain ⟨o2, h1, h2, h3, h4, -⟩ := update_sat_passless env sat polv o hel hdec hobj hpass
  exact ⟨o2, h1, h2, h3, h4⟩

/-- Witness of the amended C25 on `passless_view`. -/
theorem missing_pass_kept_witness :
    ∃ o2 : sat_obj_t,
      g_hash_table_lookup (update_sat scenario_env scenario_sat passless_view).obj
        scenario_sat.catnr = some o2 ∧
      o2.pass = none ∧ o2.track_points = [] ∧
        o2.trtick = List.replicate TRACK_TICK_NUM {} :=
  missing_pass_kept scenario_env scenario_sat passless_view { catnum := 7, nickname := "SAT" }
    (by norm_num [scenario_sat]) rfl rfl rfl

/-! ### Pole labels -/

/-- The projection of a point of the horizon, orientation by orientation, in
terms of the sine and the cosine of the azimuth. -/
theorem azel_to_xy_horizon (p : GtkPolarView) (az : ℝ) :
    azel_to_xy p az 0 =
      match p.swap with
      | polar_view_swap_t.POLAR_VIEW_NESW =>
        ((p.cx : ℝ) + (p.r : ℝ) * Real.sin (de2ra * az),
          (p.cy : ℝ) - (p.r : ℝ) * Real.cos (de2ra * az))
      | polar_view_swap_t.POLAR_VIEW_NWSE =>
        ((p.cx : ℝ) - (p.r : ℝ) * Real.sin (de2ra * az),
          (p.cy : ℝ) - (p.r : ℝ) * Real.cos (de2ra * az))
      | polar_view_swap_t.POLAR_VIEW_SENW =>
        ((p.cx : ℝ) + (p.r : ℝ) * Real.sin (de2ra * az),
          (p.cy : ℝ) + (p.r : ℝ) * Real.cos (de2ra * az))
      | polar_view_swap_t.POLAR_VIEW_SWNE =>
        ((p.cx : ℝ) - (p.r : ℝ) * Real.sin (de2ra * az),
          (p.cy : ℝ) + (p.r : ℝ) * Real.cos (de2ra * az)) := by
  unfold azel_to_xy
  rw [if_neg (lt_irrefl 0)]
  unfold M_PI
  cases p.swap
  · simp
  · simp only [mul_zero, zero_div, sub_zero, Real.sin_two_pi_sub, Real.cos_two_pi_sub]
    refine Prod.ext ?_ ?_ <;> first | rfl | (dsimp only; ring)
  · simp only [mul_zero, zero_div, sub_zero, Real.sin_pi_sub, Real.cos_pi_sub]
    refine Prod.ext ?_ ?_ <;> first | rfl | (dsimp only; ring)
  · simp only [mul_zero, zero_div, sub_zero, add_comm Real.pi, Real.sin_add_pi, Real.cos_add_pi]
    refine Prod.ext ?_ ?_ <;> first | rfl | (dsimp only; ring)

theorem pole_sin_cos (pole : polar_view_pole_t) :
    (Real.sin (de2ra * pole_az pole), Real.cos (de2ra * pole_az pole)) =
      match pole with
      | polar_view_pole_t.POLAR_VIEW_POLE_N => (0, 1)
      | polar_view_pole_t.POLAR_VIEW_POLE_E => (1, 0)
      | polar_view_pole_t.POLAR_VIEW_POLE_S => (0, -1)
      | polar_view_pole_t.POLAR_VIEW_POLE_W => (-1, 0) := by
  have h90 : de2ra * 90 = Real.pi / 2 := by
    unfold de2ra
    ring
  have h180 : de2ra * 180 = Real.pi := by
    unfold de2ra
    field_simp
  have h270 : de2ra * 270 = 2 * Real.pi - Real.pi / 2 := by
    unfold de2ra
    ring
  cases pole
  · simp [pole_az]
  · simp [pole_az, h90]
  · simp [pole_az, h180]
  · simp only [pole_az, h270, Real.sin_two_pi_sub, Real.cos_two_pi_sub, Real.sin_pi_div_two,
      Real.cos_pi_div_two]

/-- C26. Pole labels are pushed outward consistently with the projection: for
every orientation and every pole, there is a unit vector `(ux, uy)` such that
`azel_to_xy` sends the pole to the point at distance R from the centre in that
direction and `correct_pole_coor` moves it to the point at distance
R + POLV_LINE_EXTRA in the same direction; the corrected point is at distance
R + 5 from the centre. -/
theorem pole_labels_outward (polv : GtkPolarView) (pole : polar_view_pole_t) :
    ∃ ux uy : ℝ, ux ^ 2 + uy ^ 2 = 1 ∧
      azel_to_xy polv (pole_az pole) 0 =
        ((polv.cx : ℝ) + (polv.r : ℝ) * ux, (polv.cy : ℝ) + (polv.r : ℝ) * uy) ∧
      (correct_pole_coor polv pole (azel_to_xy polv (pole_az pole) 0).1
          (azel_to_xy polv (pole_az pole) 0).2).1 =
        ((polv.cx : ℝ) + ((polv.r : ℝ) + POLV_LINE_EXTRA) * ux,
          (polv.cy : ℝ) + ((polv.r : ℝ) + POLV_LINE_EXTRA) * uy) ∧
      Real.sqrt (((pole_label_point polv pole).1 - (polv.cx : ℝ)) ^ 2 +
          ((pole_label_point polv pole).2 - (polv.cy : ℝ)) ^ 2) = (polv.r : ℝ) + 5 := by
  have hmain : ∃ ux uy : ℝ, ux ^ 2 + uy ^ 2 = 1 ∧
      azel_to_xy polv (pole_az pole) 0 =
        ((polv.cx : ℝ) + (polv.r : ℝ) * ux, (polv.cy : ℝ) + (polv.r : ℝ) * uy) ∧
      (correct_pole_coor polv pole (azel_to_xy polv (pole_az pole) 0).1
          (azel_to_xy polv (pole_az pole) 0).2).1 =
        ((polv.cx : ℝ) + ((polv.r : ℝ) + POLV_LINE_EXTRA) * ux,
          (polv.cy : ℝ) + ((polv.r : ℝ) + POLV_LINE_EXTRA) * uy) := by
    have hsc := pole_sin_cos pole
    have hs := congrArg Prod.fst hsc
    have hc := congrArg Prod.snd hsc
    rw [azel_to_xy_horizon]
    unfold correct_pole_coor POLV_LINE_EXTRA
    cases hsw : polv.swap <;> cases pole <;> dsimp only at hs hc ⊢ <;> rw [hs, hc] <;>
      simp only [reduceCtorEq, or_false, false_or, or_self, if_true, if_false]
    · refine ⟨0, -1, by norm_num, ?_, ?_⟩ <;>
        first
        | (simp only [Prod.mk.injEq]; done)
        | (simp only [Prod.mk.injEq]; refine ⟨?_, ?_⟩ <;> first | trivial | ring)
    · refine ⟨1, 0, by norm_num, ?_, ?_⟩ <;>
        first
        | (simp only [Prod.mk.injEq]; done)
        | (simp only [Prod.mk.injEq]; refine ⟨?_, ?_⟩ <;> first | trivial | ring)
    · refine ⟨0, 1, by norm_num, ?_, ?_⟩ <;>
        first
        | (simp only [Prod.mk.injEq]; done)
        | (simp only [Prod.mk.injEq]; refine ⟨?_, ?_⟩ <;> first | trivial | ring)
    · refine ⟨-1, 0, by norm_num, ?_, ?_⟩ <;>
        first
        | (simp only [Prod.mk.injEq]; done)
        | (simp only [Prod.mk.injEq]; refine ⟨?_, ?_⟩ <;> first | trivial | ring)
    · refine ⟨0, -1, by norm_num, ?_, ?_⟩ <;>
        first
        | (simp only [Prod.mk.injEq]; done)
        | (simp only [Prod.mk.injEq]; refine ⟨?_, ?_⟩ <;> first | trivial | ring)
    · refine ⟨-1, 0, by norm_num, ?_, ?_⟩ <;>
        first
        | (simp only [Prod.mk.injEq]; done)
        | (simp only [Prod.mk.injEq]; refine ⟨?_, ?_⟩ <;> first | trivial | ring)
    · refine ⟨0, 1, by norm_num, ?_, ?_⟩ <;>
        first
        | (simp only [Prod.mk.injEq]; done)
        | (simp only [Prod.mk.injEq]; refine ⟨?_, ?_⟩ <;> first | trivial | ring)
    · refine ⟨1, 0, by norm_num, ?_, ?_⟩ <;>
        first
        | (simp only [Prod.mk.injEq]; done)
        | (simp only [Prod.mk.injEq]; refine ⟨?_, ?_⟩ <;> first | trivial | ring)
    · refine ⟨0, 1, by norm_num, ?_, ?_⟩ <;>
        first
        | (simp only [Prod.mk.injEq]; done)
        | (simp only [Prod.mk.injEq]; refine ⟨?_, ?_⟩ <;> first | trivial | ring)
    · refine ⟨1, 0, by norm_num, ?_, ?_⟩ <;>
        first
        | (simp only [Prod.mk.injEq]; done)
        | (simp only [Prod.mk.injEq]; refine ⟨?_, ?_⟩ <;> first | trivial | ring)
    · refine ⟨0, -1, by norm_num, ?_, ?_⟩ <;>
        first
        | (simp only [Prod.mk.injEq]; done)
        | (simp only [Prod.mk.injEq]; refine ⟨?_, ?_⟩ <;> first | trivial | ring)
    · refine ⟨-1, 0, by norm_num, ?_, ?_⟩ <;>
        first
        | (simp only [Prod.mk.injEq]; done)
        | (simp only [Prod.mk.injEq]; refine ⟨?_, ?_⟩ <;> first | trivial | ring)
    · refine ⟨0, 1, by norm_num, ?_, ?_⟩ <;>
        first
        | (simp only [Prod.mk.injEq]; done)
        | (simp only [Prod.mk.injEq]; refine ⟨?_, ?_⟩ <;> first | trivial | ring)
    · refine ⟨-1, 0, by norm_num, ?_, ?_⟩ <;>
        first
        | (simp only [Prod.mk.injEq]; done)
        | (simp only [Prod.mk.injEq]; refine ⟨?_, ?_⟩ <;> first | trivial | ring)
    · refine ⟨0, -1, by norm_num, ?_, ?_⟩ <;>
        first
        | (simp only [Prod.mk.injEq]; done)
        | (simp only [Prod.mk.injEq]; refine ⟨?_, ?_⟩ <;> first | trivial | ring)
    · refine ⟨1, 0, by norm_num, ?_, ?_⟩ <;>
        first
        | (simp only [Prod.mk.injEq]; done)
        | (simp only [Prod.mk.injEq]; refine ⟨?_, ?_⟩ <;> first | trivial | ring)
  obtain ⟨ux, uy, hu, h1, h2⟩ := hmain
  refine ⟨ux, uy, hu, h1, h2, ?_⟩
  unfold pole_label_point
  dsimp only
  rw [h2]
  dsimp only
  have hr : (0 : ℝ) ≤ (polv.r : ℝ) + 5 := by positivity
  have e : ((polv.cx : ℝ) + ((polv.r : ℝ) + POLV_LINE_EXTRA) * ux - (polv.cx : ℝ)) ^ 2 +
      ((polv.cy : ℝ) + ((polv.r : ℝ) + POLV_LINE_EXTRA) * uy - (polv.cy : ℝ)) ^ 2 =
      ((polv.r : ℝ) + 5) ^ 2 := by
    unfold POLV_LINE_EXTRA
    linear_combination ((polv.r : ℝ) + 5) ^ 2 * hu
  rw [e, Real.sqrt_sq hr]

/-! ### Range of the azimuth readout -/

/-- The bearing before the orientation is applied lies in `[0, 360)`, and is 0
exactly for a pointer that is straight above the centre or on it. -/
theorem raw_bearing_range (dx dy : ℝ) :
    0 ≤ (if dx ≥ 0 then atan2 dx dy / de2ra else 360 + atan2 dx dy / de2ra) ∧
      (if dx ≥ 0 then atan2 dx dy / de2ra else 360 + atan2 dx dy / de2ra) < 360 := by
  have hd := de2ra_pos
  have hpi := Real.pi_pos
  have h180 : Real.pi / de2ra = 180 := by
    unfold de2ra
    field_simp
  have hle : atan2 dx dy ≤ Real.pi := Complex.arg_le_pi _
  have hgt : -Real.pi < atan2 dx dy := Complex.neg_pi_lt_arg _
  have hle2 : atan2 dx dy / de2ra ≤ 180 := by
    rw [← h180]
    exact div_le_div_of_nonneg_right hle hd.le
  have hgt2 : -180 < atan2 dx dy / de2ra := by
    have : -Real.pi / de2ra < atan2 dx dy / de2ra := div_lt_div_of_pos_right hgt hd
    rw [neg_div, h180] at this
    exact this
  by_cases hx : dx ≥ 0
  · rw [if_pos hx]
    have h0 : 0 ≤ atan2 dx dy := by
      unfold atan2
      rw [Complex.arg_nonneg_iff]
      exact hx
    exact ⟨div_nonneg h0 hd.le, by linarith⟩
  · rw [if_neg hx]
    have h0 : atan2 dx dy < 0 := by
      unfold atan2
      rw [Complex.arg_neg_iff]
      exact not_le.mp hx
    have h1 : atan2 dx dy / de2ra < 0 := div_neg_of_neg_of_pos h0 hd
    exact ⟨by linarith, by linarith⟩

/-- The range of the azimuth `xy_to_azel` returns: `[0, 360)` in the orientations
NESW, SENW and SWNE, and `(0, 360]` in the orientation NWSE. -/
theorem xy_to_azel_az_range (p : GtkPolarView) (x y : ℝ) :
    (p.swap ≠ polar_view_swap_t.POLAR_VIEW_NWSE →
        0 ≤ (xy_to_azel p x y).1 ∧ (xy_to_azel p x y).1 < 360) ∧
      (p.swap = polar_view_swap_t.POLAR_VIEW_NWSE →
        0 < (xy_to_azel p x y).1 ∧ (xy_to_azel p x y).1 ≤ 360) := by
  obtain ⟨h1, h2⟩ := raw_bearing_range (x - p.cx) (p.cy - y)
  have hc : (x ≥ (p.cx : ℝ)) ↔ (x - p.cx ≥ 0) := by
    constructor <;> intro h <;> linarith
  unfold xy_to_azel
  dsimp only
  simp only [hc]
  generalize (if x - (p.cx : ℝ) ≥ 0 then atan2 (x - p.cx) (p.cy - y) / de2ra
    else 360 + atan2 (x - p.cx) (p.cy - y) / de2ra) = a at h1 h2
  cases p.swap
  · exact ⟨fun _ => ⟨h1, h2⟩, fun h => absurd h (by decide)⟩
  · exact ⟨fun h => absurd rfl h, fun _ => ⟨by dsimp only; linarith, by dsimp only; linarith⟩⟩
  · refine ⟨fun _ => ?_, fun h => absurd h (by decide)⟩
    dsimp only
    split_ifs with h3
    · exact ⟨by linarith, by linarith⟩
    · exact ⟨by linarith, by linarith⟩
  · refine ⟨fun _ => ?_, fun h => absurd h (by decide)⟩
    dsimp only
    split_ifs with h3
    · exact ⟨by linarith, by linarith⟩
    · exact ⟨by linarith, by linarith⟩

theorem atan2_straight_up (d : ℝ) (hd : 0 ≤ d) : atan2 0 d = 0 := by
  unfold atan2
  exact Complex.arg_ofReal_of_nonneg hd

/-- C27, the claim fails in the orientation NWSE: for the view and for the plot
with centre (150, 150) and radius 100, the pointer at (150, 100), straight above
the centre, reads the azimuth 360, which is outside `[0, 360)`. -/
theorem azimuth_readout_360 :
    0 < nwse_view.r ∧ (xy_to_azel nwse_view 150 100).1 = 360 ∧
      ¬ (xy_to_azel nwse_view 150 100).1 < 360 ∧
      (polar_plot.xy_to_azel nwse_plot 150 100).1 = 360 := by
  have h0 : atan2 ((150 : ℝ) - (150 : ℕ)) (((150 : ℕ) : ℝ) - 100) = 0 := by
    have e1 : (150 : ℝ) - ((150 : ℕ) : ℝ) = 0 := by norm_num
    rw [e1]
    exact atan2_straight_up _ (by norm_num)
  have hv : (xy_to_azel nwse_view 150 100).1 = 360 := by
    unfold xy_to_azel
    have e1 : nwse_view.cx = 150 := rfl
    have e2 : nwse_view.cy = 150 := rfl
    have e3 : nwse_view.swap = polar_view_swap_t.POLAR_VIEW_NWSE := rfl
    rw [e1, e2, e3]
    dsimp only
    rw [if_pos (by norm_num), h0]
    norm_num
  refine ⟨by decide, hv, by rw [hv]; exact lt_irrefl _, ?_⟩
  unfold polar_plot.xy_to_azel
  have e1 : nwse_plot.cx = 150 := rfl
  have e2 : nwse_plot.cy = 150 := rfl
  have e3 : nwse_plot.swap = polar_plot_swap_t.POLAR_PLOT_NWSE := rfl
  rw [e1, e2, e3]
  dsimp only
  rw [if_pos (by norm_num), h0]
  norm_num

/-! ### Track builders of the polar plot -/

/-- C28, the claim fails for a pass with three samples: the stride is
`(3 - 2) / 4 = 0`, the loop of `create_track` and the loop of `update_track`
run their iteration `i = 1`, whose sample exists, and evaluate `i % tres` with
`tres = 0`; the run has no defined result. -/
theorem plot_track_divides_by_zero :
    three_sample_pass.details.length = 3 ∧
      ((three_sample_pass.details.length + (2 ^ 32 - 2)) % 2 ^ 32) / (TRACK_TICK_NUM - 1) = 0 ∧
      List.range' 1 (three_sample_pass.details.length - 2) = [1] ∧
      three_sample_pass.details.get? 1 = some { time := 101, az := 90, el := 45 } ∧
      polar_plot.create_track scenario_env three_sample_plot = none ∧
      polar_plot.update_track three_sample_plot = none := by
  refine ⟨rfl, by decide, rfl, rfl, ?_, ?_⟩
  · unfold polar_plot.create_track
    have hp : three_sample_plot.pass = some three_sample_pass := rfl
    rw [hp]
    dsimp only
    have hl : three_sample_pass.details.length = 3 := rfl
    have ht : ((3 + (2 ^ 32 - 2)) % 2 ^ 32) / (TRACK_TICK_NUM - 1) = 0 := by decide
    rw [hl, ht, if_neg (by decide)]
    have hr : List.range' 1 (3 - 2) = [1] := rfl
    rw [hr, List.foldlM_cons]
    unfold polar_plot.create_track_step
    have hd : three_sample_pass.details.get? 1 = some { time := 101, az := 90, el := 45 } := rfl
    rw [hd]
    rfl
  · unfold polar_plot.update_track
    have hp : three_sample_plot.pass = some three_sample_pass := rfl
    rw [hp]
    dsimp only
    have hl : three_sample_pass.details.length = 3 := rfl
    have ht : ((3 + (2 ^ 32 - 2)) % 2 ^ 32) / (TRACK_TICK_NUM - 1) = 0 := by decide
    rw [hl, ht, if_neg (by decide)]
    have hr : List.range' 1 (3 - 2) = [1] := rfl
    rw [hr, List.foldlM_cons]
    unfold polar_plot.update_track_step
    have hd : three_sample_pass.details.get? 1 = some { time := 101, az := 90, el := 45 } := rfl
    rw [hd]
    rfl

/-- An iteration of the loop of `create_track` that stores a tick: the sample
exists and has an elevation that is not negative, the stride is not 0 and
divides `i`, and the tick index is inside the array. -/
theorem plot_create_step_tick (env : Env) (pv : GtkPolarPlot) (pass : pass_t) (tres : ℕ)
    (s : polar_plot.plot_loop_t) (i : ℕ) (d : pass_detail_t)
    (hd : pass.details.get? i = some d) (hel : d.el ≥ 0) (ht : tres ≠ 0) (hm : i % tres = 0)
    (hlt : s.ttidx < TRACK_TICK_NUM) :
    polar_plot.create_track_step env pv pass tres s i =
      some { x := (polar_plot.azel_to_xy pv d.az d.el).1,
             y := (polar_plot.azel_to_xy pv d.az d.el).2,
             ttidx := s.ttidx + 1,
             track_points := s.track_points.set i (polar_plot.azel_to_xy pv d.az d.el),
             trtick := s.trtick.set s.ttidx
               { x := (polar_plot.azel_to_xy pv d.az d.el).1,
                 y := (polar_plot.azel_to_xy pv d.az d.el).2,
                 text := env.daynum_to_str d.time } } := by
  unfold polar_plot.create_track_step
  rw [hd]
  dsimp only
  rw [if_neg ht, if_pos hm, if_pos hel, if_pos hlt]

/-- The same iteration in the loop of `update_track`: the variable `x` is moved
by 5 before the tick is stored and keeps the moved value. -/
theorem plot_update_step_tick (pv : GtkPolarPlot) (pass : pass_t) (tres : ℕ)
    (s : polar_plot.plot_loop_t) (i : ℕ) (d : pass_detail_t)
    (hd : pass.details.get? i = some d) (hel : d.el ≥ 0) (ht : tres ≠ 0) (hm : i % tres = 0)
    (hlt : s.ttidx < TRACK_TICK_NUM) :
    polar_plot.update_track_step pv pass tres s i =
      some { x := if (polar_plot.azel_to_xy pv d.az d.el).1 > (pv.cx : ℝ)
                  then (polar_plot.azel_to_xy pv d.az d.el).1 - 5
                  else (polar_plot.azel_to_xy pv d.az d.el).1 + 5,
             y := (polar_plot.azel_to_xy pv d.az d.el).2,
             ttidx := s.ttidx + 1,
             track_points := s.track_points.set i (polar_plot.azel_to_xy pv d.az d.el),
             trtick := s.trtick.set s.ttidx
               { s.trtick.getD s.ttidx {} with
                 x := if (polar_plot.azel_to_xy pv d.az d.el).1 > (pv.cx : ℝ)
                      then (polar_plot.azel_to_xy pv d.az d.el).1 - 5
                      else (polar_plot.azel_to_xy pv d.az d.el).1 + 5,
                 y := (polar_plot.azel_to_xy pv d.az d.el).2 } } := by
  unfold polar_plot.update_track_step
  rw [hd]
  dsimp only
  rw [if_neg ht, if_pos hm, if_pos hel, if_pos hlt]

theorem plot_azel_to_xy_due_east (p : GtkPolarPlot) (el : ℝ) (hel : 0 ≤ el)
    (hr : 2 * p.r < 2 ^ 32) (hs : p.swap = polar_plot_swap_t.POLAR_PLOT_NESW) :
    polar_plot.azel_to_xy p 90 el =
      ((p.cx : ℝ) + ((p.r : ℝ) - (p.r : ℝ) * el / 90), (p.cy : ℝ)) := by
  have h90 : de2ra * 90 = Real.pi / 2 := by
    unfold de2ra
    ring
  have hpi := Real.pi_pos
  unfold polar_plot.azel_to_xy
  rw [if_neg (not_lt.mpr hel), hs, Nat.mod_eq_of_lt hr]
  dsimp only
  rw [h90, Real.sin_pi_div_two, Real.cos_pi_div_two]
  unfold M_PI de2ra
  push_cast
  refine Prod.ext ?_ ?_
  · dsimp only
    field_simp
    ring
  · dsimp only
    ring

/-- C29, the claim fails for the pass with six samples, all of them above the
horizon, under the geometry of the scenario: `create_track` stores tick 1 at the
projection (200, 150) of sample 1, `update_track` under the same geometry stores
it at (195, 150), the point moved by 5 px; the tick positions of the rebuild are
not those of the initial build. -/
theorem plot_rebuild_moves_ticks :
    6 ≤ east_pass.details.length ∧
      (∃ a : GtkPolarPlot, polar_plot.create_track scenario_env east_plot = some a ∧
        a.trtick[1]? = some { x := 200, y := 150, text := scenario_env.daynum_to_str 101 }) ∧
      (∃ b : GtkPolarPlot, polar_plot.update_track east_plot = some b ∧
        b.trtick[1]? = some { x := 195, y := 150, text := "" }) := by
  have hproj : polar_plot.azel_to_xy east_plot 90 45 = (200, 150) := by
    rw [plot_azel_to_xy_due_east east_plot 45 (by norm_num) (by decide) rfl]
    norm_num [east_plot]
  have hp : east_plot.pass = some east_pass := rfl
  have hl : east_pass.details.length = 6 := rfl
  have ht : ((6 + (2 ^ 32 - 2)) % 2 ^ 32) / (TRACK_TICK_NUM - 1) = 1 := by decide
  have hr : List.range' 1 (6 - 2) = [1, 2, 3, 4] := rfl
  have hd1 : east_pass.details.get? 1 = some { time := 101, az := 90, el := 45 } := rfl
  have hd2 : east_pass.details.get? 2 = some { time := 102, az := 120, el := 60 } := rfl
  have hd3 : east_pass.details.get? 3 = some { time := 103, az := 150, el := 45 } := rfl
  have hd4 : east_pass.details.get? 4 = some { time := 104, az := 170, el := 20 } := rfl
  have hlen : ∀ t : polar_view_tick_t, 1 < (east_plot.trtick.set 0 t).length := by
    intro t
    rw [List.length_set]
    decide
  refine ⟨by decide, ?_, ?_⟩
  · unfold polar_plot.create_track
    rw [hp]
    dsimp only
    rw [hl, ht, if_neg (by decide), hr]
    rw [List.foldlM_cons, plot_create_step_tick _ _ _ _ _ 1 _ hd1 (by norm_num) (by decide) rfl
      (by decide)]
    simp only [Option.bind_eq_bind, Option.some_bind]
    rw [List.foldlM_cons, plot_create_step_tick _ _ _ _ _ 2 _ hd2 (by norm_num) (by decide) rfl
      (by decide)]
    simp only [Option.bind_eq_bind, Option.some_bind]
    rw [List.foldlM_cons, plot_create_step_tick _ _ _ _ _ 3 _ hd3 (by norm_num) (by decide) rfl
      (by decide)]
    simp only [Option.bind_eq_bind, Option.some_bind]
    rw [List.foldlM_cons, plot_create_step_tick _ _ _ _ _ 4 _ hd4 (by norm_num) (by decide) rfl
      (by decide)]
    simp only [Option.bind_eq_bind, Option.some_bind, List.foldlM_nil, Option.pure_def]
    refine ⟨_, rfl, ?_⟩
    dsimp only
    rw [List.getElem?_set_ne (by decide), List.getElem?_set_ne (by decide),
      List.getElem?_set_ne (by decide), List.getElem?_set_self (hlen _), hproj]
  · unfold polar_plot.update_track
    rw [hp]
    dsimp only
    rw [hl, ht, if_neg (by decide), hr]
    rw [List.foldlM_cons, plot_update_step_tick _ _ _ _ 1 _ hd1 (by norm_num) (by decide) rfl
      (by decide)]
    simp only [Option.bind_eq_bind, Option.some_bind]
    rw [List.foldlM_cons, plot_update_step_tick _ _ _ _ 2 _ hd2 (by norm_num) (by decide) rfl
      (by decide)]
    simp only [Option.bind_eq_bind, Option.some_bind]
    rw [List.foldlM_cons, plot_update_step_tick _ _ _ _ 3 _ hd3 (by norm_num) (by decide) rfl
      (by decide)]
    simp only [Option.bind_eq_bind, Option.some_bind]
    rw [List.foldlM_cons, plot_update_step_tick _ _ _ _ 4 _ hd4 (by norm_num) (by decide) rfl
      (by decide)]
    simp only [Option.bind_eq_bind, Option.some_bind, List.foldlM_nil, Option.pure_def]
    refine ⟨_, rfl, ?_⟩
    dsimp only
    rw [List.getElem?_set_ne (by decide), List.getElem?_set_ne (by decide),
      List.getElem?_set_ne (by decide), List.getElem?_set_self (hlen _), hproj]
    have hcx : (east_plot.cx : ℝ) = 150 := by norm_num [east_plot]
    have hg : (east_plot.trtick.set 0
        { east_plot.trtick.getD 0 {} with
          x := (polar_plot.azel_to_xy east_plot east_pass.aos_az 0).1,
          y := (polar_plot.azel_to_xy east_plot east_pass.aos_az 0).2 }).getD 1 {} = {} := by
      rfl
    rw [hg, hcx]
    norm_num

/-! ### Geometry on resize -/

/-- C30, the claim fails for the allocation 30 x 30: half the size, 15, is less
than the margin, and the subtraction wraps in `guint`.  `update_polv_size` stores
the centre (15, 15) and the radius 2 ^ 32 - 10, `size_allocate_cb` of the polar
plot stores the centre (15, 15) and the radius 2 ^ 32 - 5; in both the radius is
larger than `cx` and `cy`. -/
theorem radius_wraps_small_allocation :
    (update_polv_size scenario_env tiny_view).size = 30 ∧
      (update_polv_size scenario_env tiny_view).cx = 15 ∧
      (update_polv_size scenario_env tiny_view).cy = 15 ∧
      (update_polv_size scenario_env tiny_view).r = 4294967286 ∧
      ¬ (update_polv_size scenario_env tiny_view).r ≤ (update_polv_size scenario_env tiny_view).cx ∧
      ∃ q : GtkPolarPlot, polar_plot.size_allocate_cb true 30 30 {} = some q ∧
        q.size = 30 ∧ q.cx = 15 ∧ q.cy = 15 ∧ q.r = 4294967291 ∧ ¬ q.r ≤ q.cx := by
  have hw : int_to_guint (min (30 : Int) 30) = 30 := by
    norm_num [int_to_guint]
    rfl
  have hc : int_to_guint (Int.tdiv 30 2) = 15 := by
    norm_num [int_to_guint]
    rfl
  have hu := update_polv_size_realized scenario_env tiny_view rfl
  have ha : tiny_view.allocation_width = 30 := rfl
  have hb : tiny_view.allocation_height = 30 := rfl
  have hs : tiny_view.sats = [] := rfl
  rw [ha, hb, hw, hc, hs, List.foldl_nil] at hu
  rw [hu]
  refine ⟨rfl, rfl, rfl, by decide, by decide, ?_⟩
  unfold polar_plot.size_allocate_cb
  rw [if_pos rfl]
  dsimp only
  rw [hw, hc, if_neg (by decide)]
  exact ⟨_, rfl, rfl, rfl, rfl, by decide, by decide⟩

/-! ### When the track builders of the polar plot are defined -/

theorem plot_create_step_defined (env : Env) (pv : GtkPolarPlot) (pass : pass_t) (tres : ℕ)
    (s : polar_plot.plot_loop_t) (i : ℕ) (hi : i < pass.details.length) (ht : tres ≠ 0) :
    (polar_plot.create_track_step env pv pass tres s i).isSome = true := by
  unfold polar_plot.create_track_step
  rw [List.get?_eq_get hi]
  dsimp only
  rw [if_neg ht]
  split_ifs <;> rfl

theorem plot_update_step_defined (pv : GtkPolarPlot) (pass : pass_t) (tres : ℕ)
    (s : polar_plot.plot_loop_t) (i : ℕ) (hi : i < pass.details.length) (ht : tres ≠ 0) :
    (polar_plot.update_track_step pv pass tres s i).isSome = true := by
  unfold polar_plot.update_track_step
  rw [List.get?_eq_get hi]
  dsimp only
  rw [if_neg ht]
  split_ifs <;> rfl

theorem foldlM_defined {σ : Type} (f : σ → ℕ → Option σ) (l : List ℕ)
    (h : ∀ s, ∀ i ∈ l, (f s i).isSome = true) (s : σ) :
    (l.foldlM f s).isSome = true := by
  induction l generalizing s with
  | nil => rfl
  | cons i l ih =>
    rw [List.foldlM_cons]
    have h1 := h s i (List.mem_cons_self _ _)
    obtain ⟨s1, hs1⟩ := Option.isSome_iff_exists.mp h1
    rw [hs1]
    exact ih (fun s j hj => h s j (List.mem_cons_of_mem _ hj)) s1

theorem plot_tres_pos (n : ℕ) (h6 : 6 ≤ n) (h32 : n < 2 ^ 32) :
    ((n + (2 ^ 32 - 2)) % 2 ^ 32) / (TRACK_TICK_NUM - 1) ≠ 0 := by
  unfold TRACK_TICK_NUM
  omega

/-- The track builders of the polar plot have a defined result for a pass with
two samples, where the loop does not run, and for a pass with at least six
samples, where the stride is at least 1. -/
theorem plot_track_defined (env : Env) (pv : GtkPolarPlot) (pass : pass_t)
    (hp : pv.pass = some pass)
    (hN : pass.details.length = 2 ∨ 6 ≤ pass.details.length)
    (h32 : pass.details.length < 2 ^ 32) :
    (polar_plot.create_track env pv).isSome = true ∧
      (polar_plot.update_track pv).isSome = true := by
  have hloop1 : ∀ s0, ((List.range' 1 (pass.details.length - 2)).foldlM
      (polar_plot.create_track_step env pv pass
        (((pass.details.length + (2 ^ 32 - 2)) % 2 ^ 32) / (TRACK_TICK_NUM - 1))) s0).isSome
        = true := by
    intro s0
    rcases hN with h2 | h6
    · rw [h2]
      rfl
    · apply foldlM_defined
      intro s i hi
      rw [List.mem_range'_1] at hi
      exact plot_create_step_defined env pv pass _ s i (by omega)
        (plot_tres_pos _ h6 h32)
  have hloop2 : ∀ s0, ((List.range' 1 (pass.details.length - 2)).foldlM
      (polar_plot.update_track_step pv pass
        (((pass.details.length + (2 ^ 32 - 2)) % 2 ^ 32) / (TRACK_TICK_NUM - 1))) s0).isSome
        = true := by
    intro s0
    rcases hN with h2 | h6
    · rw [h2]
      rfl
    · apply foldlM_defined
      intro s i hi
      rw [List.mem_range'_1] at hi
      exact plot_update_step_defined pv pass _ s i (by omega) (plot_tres_pos _ h6 h32)
  have hne : ¬ pass.details.length = 0 := by omega
  constructor
  · unfold polar_plot.create_track
    rw [hp]
    dsimp only
    rw [if_neg hne]
    obtain ⟨s, hs⟩ := Option.isSome_iff_exists.mp (hloop1
      { x := (polar_plot.azel_to_xy pv pass.aos_az 0).1,
        y := (polar_plot.azel_to_xy pv pass.aos_az 0).2, ttidx := 1,
        track_points := (List.replicate pass.details.length ((0 : ℝ), (0 : ℝ))).set 0
          (polar_plot.azel_to_xy pv pass.aos_az 0),
        trtick := pv.trtick.set 0
          { x := (polar_plot.azel_to_xy pv pass.aos_az 0).1,
            y := (polar_plot.azel_to_xy pv pass.aos_az 0).2,
            text := env.daynum_to_str pass.aos } })
    rw [hs]
    rfl
  · unfold polar_plot.update_track
    rw [hp]
    dsimp only
    rw [if_neg hne]
    obtain ⟨s, hs⟩ := Option.isSome_iff_exists.mp (hloop2
      { x := (polar_plot.azel_to_xy pv pass.aos_az 0).1,
        y := (polar_plot.azel_to_xy pv pass.aos_az 0).2, ttidx := 1,
        track_points := (List.replicate pass.details.length ((0 : ℝ), (0 : ℝ))).set 0
          (polar_plot.azel_to_xy pv pass.aos_az 0),
        trtick := pv.trtick.set 0
          { pv.trtick.getD 0 {} with
            x := (polar_plot.azel_to_xy pv pass.aos_az 0).1,
            y := (polar_plot.azel_to_xy pv pass.aos_az 0).2 } })
    rw [hs]
    rfl

/-- For a pass with three, four or five samples the two track builders of the
polar plot have no defined result: the stride is 0 and the first iteration of
the loop takes the remainder by it. -/
theorem plot_track_undefined (env : Env) (pv : GtkPolarPlot) (pass : pass_t)
    (hp : pv.pass = some pass) (h3 : 3 ≤ pass.details.length) (h5 : pass.details.length ≤ 5) :
    polar_plot.create_track env pv = none ∧ polar_plot.update_track pv = none := by
  have ht : ((pass.details.length + (2 ^ 32 - 2)) % 2 ^ 32) / (TRACK_TICK_NUM - 1) = 0 := by
    unfold TRACK_TICK_NUM
    omega
  have hr : List.range' 1 (pass.details.length - 2) =
      1 :: List.range' 2 (pass.details.length - 3) := by
    have : pass.details.length - 2 = (pass.details.length - 3) + 1 := by omega
    rw [this, List.range'_succ]
  have hne : ¬ pass.details.length = 0 := by omega
  have hd : pass.details.get? 1 = some (pass.details.get ⟨1, by omega⟩) :=
    List.get?_eq_get (by omega)
  constructor
  · unfold polar_plot.create_track
    rw [hp]
    dsimp only
    rw [if_neg hne, ht, hr, List.foldlM_cons]
    unfold polar_plot.create_track_step
    rw [hd]
    rfl
  · unfold polar_plot.update_track
    rw [hp]
    dsimp only
    rw [if_neg hne, ht, hr, List.foldlM_cons]
    unfold polar_plot.update_track_step
    rw [hd]
    rfl

/-! ### When the radius fits the allocation -/

/-- The geometry `update_polv_size` stores for a realized view. -/
theorem update_polv_size_geometry (env : Env) (polv : GtkPolarView)
    (hr : polv.realized = true) :
    (update_polv_size env polv).r =
        (int_to_guint (min polv.allocation_width polv.allocation_height) / 2 +
          (2 ^ 32 - POLV_DEFAULT_MARGIN)) % 2 ^ 32 ∧
      (update_polv_size env polv).cx = int_to_guint (Int.tdiv polv.allocation_width 2) ∧
      (update_polv_size env polv).cy = int_to_guint (Int.tdiv polv.allocation_height 2) := by
  rw [update_polv_size_realized env polv hr]
  obtain ⟨-, -, g3, g4, g5, -⟩ := fold_update_sat_geometry env polv.sats
    { polv with
      size := int_to_guint (min polv.allocation_width polv.allocation_height)
      r := (int_to_guint (min polv.allocation_width polv.allocation_height) / 2 +
        (2 ^ 32 - POLV_DEFAULT_MARGIN)) % 2 ^ 32
      cx := int_to_guint (Int.tdiv polv.allocation_width 2)
      cy := int_to_guint (Int.tdiv polv.allocation_height 2) }
  exact ⟨g5, g3, g4⟩

/-- For an allocation of a realized view with `0 <= w, h < 2 ^ 31`, the radius
`update_polv_size` stores is at most `cx` and `cy` exactly when half the smaller
side is at least the margin: otherwise the subtraction has wrapped. -/
theorem update_polv_size_radius_fits_iff (env : Env) (polv : GtkPolarView)
    (hr : polv.realized = true)
    (hw0 : 0 ≤ polv.allocation_width) (hw1 : polv.allocation_width < 2 ^ 31)
    (hh0 : 0 ≤ polv.allocation_height) (hh1 : polv.allocation_height < 2 ^ 31) :
    ((update_polv_size env polv).r ≤ (update_polv_size env polv).cx ∧
        (update_polv_size env polv).r ≤ (update_polv_size env polv).cy) ↔
      2 * (POLV_DEFAULT_MARGIN : Int) ≤ min polv.allocation_width polv.allocation_height := by
  obtain ⟨h1, h2, h3⟩ := update_polv_size_geometry env polv hr
  rw [h1, h2, h3]
  unfold int_to_guint POLV_DEFAULT_MARGIN
  rw [Int.tdiv_eq_ediv hw0 (by norm_num), Int.tdiv_eq_ediv hh0 (by norm_num)]
  generalize polv.allocation_width = w at hw0 hw1
  generalize polv.allocation_height = h at hh0 hh1
  norm_num
  omega
